import Mathlib

/-!
# MorseMicro mm-iot-cmsis: EKH05 demo capture-and-persist pipeline

A shallow embedding of `Example/EKH05-Demo/peripherals.c`, of the image endpoints
of `Example/EKH05-Demo/http.c`, of the W25Q16JV driver
`BSP-EKH05/components/w25q16jv/w25q16jv.c`, of the camera start, stop and level
functions of `BSP-EKH05/bsp/Src/ekh05_camera.c`, of
`Example/EKH05-Demo/shared_buffer.c` (namespace `EKH05`), of the number conversion
and the key lookup of `mmconfig/mmconfig.c` with the table of `mmconfig/configs.c`
(namespace `MMConfig`), and of `gettimeofday.c` and `mmhal_wlan_binaries.c` of
`morselib/with_wpa_supplicant/src/shim_freertos` (namespace `Shim`).

The C code talks to things outside the repository: the STM32 HAL (`HAL_OSPI_*`,
`HAL_DCMI_*`, `HAL_GPIO_ReadPin`), the OS abstraction layer (`mmosal_semb_*`,
`mmosal_task_sleep`), the timer registers driving the RGB LED and the REST file
layer (`restfs_write_const`).  Every call to one of them is recorded, in program
order, in the `trace` of a `World`; the status a HAL call returns, the result of a
semaphore wait and the level of the button pin are read from the `World` as well
(`halResult`, `semResult`, `dcmiResult`, `pinResult`, `callResult`), so a theorem
quantified over all worlds covers all outcomes of the environment.
-/

namespace EKH05

/-! ## External types -/

/-- Status returned by the STM32 HAL (`HAL_StatusTypeDef`). -/
inductive HAL_StatusTypeDef where
  | HAL_OK
  | HAL_ERROR
  | HAL_BUSY
  | HAL_TIMEOUT
  deriving DecidableEq, Repr

export HAL_StatusTypeDef (HAL_OK HAL_ERROR HAL_BUSY HAL_TIMEOUT)

/-- The two binary semaphores created by `periphs_start`. -/
inductive Sem where
  | JPEG_buffer_lock
  | QSPI_flash_lock
  deriving DecidableEq, Repr

/-- Values of `OSPI_RegularCmdTypeDef.OperationType` used by the driver. -/
inductive OperationType where
  | COMMON_CFG
  | READ_CFG
  | WRITE_CFG
  deriving DecidableEq, Repr

/-- Values of `AddressMode` used by the driver. -/
inductive AddressMode where
  | ADDRESS_NONE
  | ADDRESS_1_LINE
  deriving DecidableEq, Repr

/-- Values of `DataMode` used by the driver. -/
inductive DataMode where
  | DATA_NONE
  | DATA_1_LINE
  | DATA_4_LINES
  deriving DecidableEq, Repr

/-- The fields of `OSPI_RegularCmdTypeDef` that differ between the commands of the
driver.  A field the source leaves unset (an address with `ADDRESS_NONE`, a data
length with `DATA_NONE`) is 0 here. -/
structure OSPI_RegularCmdTypeDef where
  OperationType : OperationType
  Instruction : Nat
  AddressMode : AddressMode
  Address : Nat
  DataMode : DataMode
  NbData : Nat
  DummyCycles : Nat
  deriving DecidableEq, Repr

/-- Capture modes of `HAL_DCMI_Start_DMA`. -/
inductive DCMI_Mode where
  | DCMI_MODE_CONTINUOUS
  | DCMI_MODE_SNAPSHOT
  deriving DecidableEq, Repr

/-- Where the bytes handed to `restfs_write_const` start: one of the static strings
of `http.c`, or an address (the capture buffer, the memory-mapped flash). -/
inductive RestPtr where
  | successhtml
  | failedhtml
  | addr (a : Nat)
  deriving DecidableEq, Repr

/-- One call that leaves the program, as it is logged in `World.trace`. -/
inductive Event where
  /-- A call `mmosal_semb_wait(sem, JPEG_BUFFER_TIMEOUT_MS)` and its result. -/
  | semb_wait (sem : Sem) (ok : Bool)
  /-- A call `mmosal_semb_give(sem)`. -/
  | semb_give (sem : Sem)
  /-- A store to `htim4.Instance->CCR<ch>`. -/
  | ccr (ch : Nat) (value : Nat)
  /-- A `printf` of a fixed message. -/
  | printf (msg : String)
  /-- A call `mmosal_task_sleep(ms)`. -/
  | sleep (ms : Nat)
  /-- A call of `HAL_OSPI_Abort`. -/
  | abort (st : HAL_StatusTypeDef)
  /-- A call of `HAL_OSPI_Command`. -/
  | command (cmd : OSPI_RegularCmdTypeDef) (st : HAL_StatusTypeDef)
  /-- A call of `HAL_OSPI_AutoPolling` with its match, mask and interval. -/
  | autopoll (matchv mask interval : Nat) (st : HAL_StatusTypeDef)
  /-- A call of `HAL_OSPI_Transmit` with the bytes handed to the controller. -/
  | transmit (data : List Nat) (st : HAL_StatusTypeDef)
  /-- A call of `HAL_OSPI_MemoryMapped`. -/
  | memmap (st : HAL_StatusTypeDef)
  /-- A call `mmosal_semb_give_from_isr(sem)`. -/
  | semb_give_from_isr (sem : Sem)
  /-- A call `HAL_GPIO_ReadPin(USER_BUTTON_GPIO_Port, USER_BUTTON_Pin)` and the level
  read; the button is pressed while the level is low (`false`). -/
  | gpio_read (level : Bool)
  /-- A call of a function that is not modelled further, by name; `ok` tells whether
  its result counts as success (`true` for a `void` function). -/
  | call (name : String) (ok : Bool)
  /-- A call of `HAL_DCMI_Start_DMA`. -/
  | dcmi_start (mode : DCMI_Mode) (pData length : Nat) (st : HAL_StatusTypeDef)
  /-- A call of `HAL_DCMI_Stop`. -/
  | dcmi_stop (st : HAL_StatusTypeDef)
  /-- A 32-bit load from the memory-mapped flash at `OCTOSPI1_BASE + offset`. -/
  | mapped_read (offset : Nat)
  /-- A call `restfs_write_const(fil, ptr, len)`. -/
  | restfs_write_const (ptr : RestPtr) (len : Nat)
  deriving DecidableEq, Repr

/-- The globals of `peripherals.c` that the persistence code reads, the
environment's answers, and the log of calls made so far. -/
structure World where
  /-- Status returned by the k-th `HAL_OSPI_*` call. -/
  halResult : Nat → HAL_StatusTypeDef
  /-- Result of the k-th `mmosal_semb_wait` call. -/
  semResult : Nat → Bool
  /-- Number of `HAL_OSPI_*` calls made so far. -/
  halCalls : Nat
  /-- Number of `mmosal_semb_wait` calls made so far. -/
  semCalls : Nat
  /-- True when the handle `JPEG_buffer_lock` is not `NULL`. -/
  JPEG_buffer_lock : Bool
  /-- True when the handle `QSPI_flash_lock` is not `NULL`. -/
  QSPI_flash_lock : Bool
  /-- The global `image_data_size` (`uint32_t`). -/
  image_data_size : Nat
  /-- The global `image_data_ptr`; `none` is `NULL`. -/
  image_data_ptr : Option Nat
  /-- Byte stored at each RAM address. -/
  ram : Nat → Nat
  /-- Data length configured in the OSPI handle by the last command with a data phase. -/
  NbData : Nat
  /-- Calls made so far, oldest first. -/
  trace : List Event
  /-- The static `got_sof` of `peripherals.c` (`uint8_t`). -/
  got_sof : Nat := 0
  /-- Address of the array `JPEG_buffer`. -/
  JPEG_buffer : Nat := 0x20000000
  /-- The register `hdcmi.DMA_Handle->Instance->CDAR`, the current DMA destination
  address (`uint32_t`). -/
  CDAR : Nat := 0
  /-- The constant `CAMERA_INSTANCES_NBR`; its header is not among the sources, so it
  is a parameter. -/
  CAMERA_INSTANCES_NBR : Nat := 1
  /-- The frame size `BSP_CAMERA_Start` derives from `Camera_Ctx[Instance]`
  (`BufferSize / 4` for JPEG, `GetSize(Resolution, PixelFormat)` otherwise); the
  enumerators it compares with are in a header that is not among the sources, so the
  value is a parameter. -/
  frame_size : Nat := 8192
  /-- The constant `OCTOSPI1_BASE`, start of the memory-mapped flash window; it comes
  from the device header, so it is a parameter. -/
  OCTOSPI1_BASE : Nat := 0x90000000
  /-- Level returned by the k-th `HAL_GPIO_ReadPin` of the user button. -/
  pinResult : Nat → Bool := fun _ => true
  /-- Number of `HAL_GPIO_ReadPin` calls made so far. -/
  pinReads : Nat := 0
  /-- Status returned by the k-th `HAL_DCMI_*` call. -/
  dcmiResult : Nat → HAL_StatusTypeDef := fun _ => HAL_OK
  /-- Number of `HAL_DCMI_*` calls made so far. -/
  dcmiCalls : Nat := 0
  /-- Success of the k-th call of a function that is not modelled further and whose
  result is used. -/
  callResult : Nat → Bool := fun _ => true
  /-- Number of such calls made so far. -/
  callCount : Nat := 0

/-! ## Constants of `w25q16jv.c` -/

def MEMORY_FLASH_SIZE : Nat := 0x200000
def MEMORY_BLOCK_SIZE : Nat := 0x10000
def MEMORY_SECTOR_SIZE : Nat := 0x1000
def MEMORY_PAGE_SIZE : Nat := 0x100

def WRITE_ENABLE_MATCH_VALUE : Nat := 0x02
def WRITE_ENABLE_MASK_VALUE : Nat := 0x02
def MEMORY_READY_MATCH_VALUE : Nat := 0x00
def MEMORY_READY_MASK_VALUE : Nat := 0x01
def AUTO_POLLING_INTERVAL : Nat := 0x20

def FAST_READ_QUAD_OUT_CMD : Nat := 0x6B
def WRITE_ENABLE_CMD : Nat := 0x06
def READ_STATUS_REG_CMD : Nat := 0x05
def WRITE_STATUS_REG_CMD : Nat := 0x01
def QUAD_IN_FAST_PROG_CMD : Nat := 0x32
def SUBSECTOR_ERASE_CMD : Nat := 0x20
def BLOCK_64K_ERASE_CMD : Nat := 0xD8
def RESET_ENABLE_CMD : Nat := 0x66
def RESET_MEMORY_CMD : Nat := 0x99

/-! ## The environment's primitives -/

/-- Append one event to the log. -/
def World.log (w : World) (e : Event) : World :=
  { w with trace := w.trace ++ [e] }

/-- Model of `HAL_OSPI_Command`: the status comes from the environment; a command with a
data phase leaves its data length in the handle. -/
def HAL_OSPI_Command (cmd : OSPI_RegularCmdTypeDef) (w : World) : HAL_StatusTypeDef × World :=
  let st := w.halResult w.halCalls
  (st, { w with
          halCalls := w.halCalls + 1
          NbData := if cmd.DataMode = DataMode.DATA_NONE then w.NbData else cmd.NbData
          trace := w.trace ++ [Event.command cmd st] })

/-- Model of `HAL_OSPI_AutoPolling`. -/
def HAL_OSPI_AutoPolling (matchv mask interval : Nat) (w : World) : HAL_StatusTypeDef × World :=
  let st := w.halResult w.halCalls
  (st, { w with
          halCalls := w.halCalls + 1
          trace := w.trace ++ [Event.autopoll matchv mask interval st] })

/-- Model of `HAL_OSPI_Transmit(hospi, pData, timeout)`: sends the configured number of
bytes; `pData` gives the byte at each offset from the pointer. -/
def HAL_OSPI_Transmit (pData : Nat → Nat) (w : World) : HAL_StatusTypeDef × World :=
  let st := w.halResult w.halCalls
  (st, { w with
          halCalls := w.halCalls + 1
          trace := w.trace ++ [Event.transmit ((List.range w.NbData).map pData) st] })

/-- Model of `HAL_OSPI_Abort`. -/
def HAL_OSPI_Abort (w : World) : HAL_StatusTypeDef × World :=
  let st := w.halResult w.halCalls
  (st, { w with halCalls := w.halCalls + 1, trace := w.trace ++ [Event.abort st] })

/-- Model of `HAL_OSPI_MemoryMapped`. -/
def HAL_OSPI_MemoryMapped (w : World) : HAL_StatusTypeDef × World :=
  let st := w.halResult w.halCalls
  (st, { w with halCalls := w.halCalls + 1, trace := w.trace ++ [Event.memmap st] })

/-- Model of `mmosal_semb_wait(sem, JPEG_BUFFER_TIMEOUT_MS)`. -/
def mmosal_semb_wait (sem : Sem) (w : World) : Bool × World :=
  let ok := w.semResult w.semCalls
  (ok, { w with semCalls := w.semCalls + 1, trace := w.trace ++ [Event.semb_wait sem ok] })

/-- Model of `mmosal_semb_give(sem)`. -/
def mmosal_semb_give (sem : Sem) (w : World) : World :=
  w.log (Event.semb_give sem)

/-- Model of `mmosal_task_sleep(ms)`. -/
def mmosal_task_sleep (ms : Nat) (w : World) : World :=
  w.log (Event.sleep ms)

/-- Model of `printf(msg)`. -/
def printf (msg : String) (w : World) : World :=
  w.log (Event.printf msg)

/-- The three stores `htim4.Instance->CCR1 = a; CCR2 = b; CCR3 = c`. -/
def set_CCR (a b c : Nat) (w : World) : World :=
  ((w.log (Event.ccr 1 a)).log (Event.ccr 2 b)).log (Event.ccr 3 c)

/-! ## `w25q16jv.c` -/

/-- The status-register read command built by `OSPI_AutoPoll`. -/
def pollCmd (command : Nat) : OSPI_RegularCmdTypeDef :=
  { OperationType := OperationType.COMMON_CFG
    Instruction := command
    AddressMode := AddressMode.ADDRESS_NONE
    Address := 0
    DataMode := DataMode.DATA_1_LINE
    NbData := 2
    DummyCycles := 0 }

/-- Model of `OSPI_AutoPoll(hospi, command, mask, match, match_mode)`; the match mode
is `HAL_OSPI_MATCH_MODE_AND` at both call sites and is not recorded. -/
def OSPI_AutoPoll (command mask matchv : Nat) (w : World) : HAL_StatusTypeDef × World :=
  let (r1, w1) := HAL_OSPI_Command (pollCmd command) w
  if r1 ≠ HAL_OK then (HAL_ERROR, w1)
  else
    let (r2, w2) := HAL_OSPI_AutoPolling matchv mask AUTO_POLLING_INTERVAL w1
    if r2 ≠ HAL_OK then (HAL_ERROR, w2)
    else (HAL_OK, w2)

/-- Model of `OSPI_AutoPollMemoryReady`. -/
def OSPI_AutoPollMemoryReady (w : World) : HAL_StatusTypeDef × World :=
  OSPI_AutoPoll READ_STATUS_REG_CMD MEMORY_READY_MASK_VALUE MEMORY_READY_MATCH_VALUE w

/-- Model of `OSPI_AutoPollWriteEnable`; the source passes the match value in the mask
position and the mask value in the match position. -/
def OSPI_AutoPollWriteEnable (w : World) : HAL_StatusTypeDef × World :=
  OSPI_AutoPoll READ_STATUS_REG_CMD WRITE_ENABLE_MATCH_VALUE WRITE_ENABLE_MASK_VALUE w

/-- A command without address and data phase, as built by `OSPI_ResetChip` and
`QSPI_WriteEnable`. -/
def plainCmd (instruction : Nat) : OSPI_RegularCmdTypeDef :=
  { OperationType := OperationType.COMMON_CFG
    Instruction := instruction
    AddressMode := AddressMode.ADDRESS_NONE
    Address := 0
    DataMode := DataMode.DATA_NONE
    NbData := 0
    DummyCycles := 0 }

/-- Model of `OSPI_ResetChip`. -/
def OSPI_ResetChip (w : World) : HAL_StatusTypeDef × World :=
  let (r1, w1) := HAL_OSPI_Command (plainCmd RESET_ENABLE_CMD) w
  if r1 ≠ HAL_OK then (HAL_ERROR, w1)
  else
    let (r2, w2) := HAL_OSPI_Command (plainCmd RESET_MEMORY_CMD) w1
    if r2 ≠ HAL_OK then (HAL_ERROR, w2)
    else
      let (r3, w3) := OSPI_AutoPollMemoryReady w2
      if r3 ≠ HAL_OK then (HAL_ERROR, w3)
      else (HAL_OK, w3)

/-- Model of `QSPI_WriteEnable`. -/
def QSPI_WriteEnable (w : World) : HAL_StatusTypeDef × World :=
  let (r1, w1) := HAL_OSPI_Command (plainCmd WRITE_ENABLE_CMD) w
  if r1 ≠ HAL_OK then (HAL_ERROR, w1)
  else
    let (r2, w2) := OSPI_AutoPollWriteEnable w1
    if r2 ≠ HAL_OK then (HAL_ERROR, w2)
    else (HAL_OK, w2)

/-- An erase command with a 24-bit address and no data phase. -/
def eraseCmd (instruction address : Nat) : OSPI_RegularCmdTypeDef :=
  { OperationType := OperationType.COMMON_CFG
    Instruction := instruction
    AddressMode := AddressMode.ADDRESS_1_LINE
    Address := address
    DataMode := DataMode.DATA_NONE
    NbData := 0
    DummyCycles := 0 }

/-- Model of `QSPI_EraseSector`. -/
def QSPI_EraseSector (sector_address : Nat) (w : World) : HAL_StatusTypeDef × World :=
  let (r1, w1) := HAL_OSPI_Command (eraseCmd SUBSECTOR_ERASE_CMD sector_address) w
  if r1 ≠ HAL_OK then (HAL_ERROR, w1)
  else
    let (r2, w2) := OSPI_AutoPollMemoryReady w1
    if r2 ≠ HAL_OK then (HAL_ERROR, w2)
    else (HAL_OK, w2)

/-- Model of `QSPI_BlockSectorErase`. -/
def QSPI_BlockSectorErase (block_address : Nat) (w : World) : HAL_StatusTypeDef × World :=
  let (r1, w1) := HAL_OSPI_Command (eraseCmd BLOCK_64K_ERASE_CMD block_address) w
  if r1 ≠ HAL_OK then (HAL_ERROR, w1)
  else
    let (r2, w2) := OSPI_AutoPollMemoryReady w1
    if r2 ≠ HAL_OK then (HAL_ERROR, w2)
    else (HAL_OK, w2)

/-- The command built by `QSPI_ProgramPage`. -/
def programCmd (start_address length : Nat) : OSPI_RegularCmdTypeDef :=
  { OperationType := OperationType.COMMON_CFG
    Instruction := QUAD_IN_FAST_PROG_CMD
    AddressMode := AddressMode.ADDRESS_1_LINE
    Address := start_address
    DataMode := DataMode.DATA_4_LINES
    NbData := length
    DummyCycles := 0 }

/-- Model of `QSPI_ProgramPage(hospi, start_address, data, length)`; `data` gives the byte
at each offset from the pointer. -/
def QSPI_ProgramPage (start_address : Nat) (data : Nat → Nat) (length : Nat) (w : World) :
    HAL_StatusTypeDef × World :=
  let (r1, w1) := HAL_OSPI_Command (programCmd start_address length) w
  if r1 ≠ HAL_OK then (HAL_ERROR, w1)
  else
    let (r2, w2) := HAL_OSPI_Transmit data w1
    if r2 ≠ HAL_OK then (HAL_ERROR, w2)
    else
      let (r3, w3) := OSPI_AutoPollMemoryReady w2
      if r3 ≠ HAL_OK then (HAL_ERROR, w3)
      else (HAL_OK, w3)

/-- The status-register write command built by `QSPI_Configuration`. -/
def writeStatusCmd : OSPI_RegularCmdTypeDef :=
  { OperationType := OperationType.COMMON_CFG
    Instruction := WRITE_STATUS_REG_CMD
    AddressMode := AddressMode.ADDRESS_NONE
    Address := 0
    DataMode := DataMode.DATA_1_LINE
    NbData := 2
    DummyCycles := 0 }

/-- Model of `QSPI_Configuration`; the result of its `QSPI_WriteEnable` call is dropped, and
`regData` is the local array with both bytes set to 2. -/
def QSPI_Configuration (w : World) : HAL_StatusTypeDef × World :=
  let (_, w0) := QSPI_WriteEnable w
  let (r1, w1) := HAL_OSPI_Command writeStatusCmd w0
  if r1 ≠ HAL_OK then (HAL_ERROR, w1)
  else
    let regData : Nat → Nat := fun _ => 2
    let (r2, w2) := HAL_OSPI_Transmit regData w1
    if r2 ≠ HAL_OK then (HAL_ERROR, w2)
    else (HAL_OK, w2)

/-- Model of `QSPI_Init`. -/
def QSPI_Init (w : World) : HAL_StatusTypeDef × World :=
  let (r1, w1) := OSPI_ResetChip w
  if r1 ≠ HAL_OK then (HAL_ERROR, w1)
  else
    let (r2, w2) := OSPI_AutoPollMemoryReady w1
    if r2 ≠ HAL_OK then (HAL_ERROR, w2)
    else
      let (r3, w3) := QSPI_WriteEnable w2
      if r3 ≠ HAL_OK then (HAL_ERROR, w3)
      else
        let (r4, w4) := QSPI_Configuration w3
        if r4 ≠ HAL_OK then (HAL_ERROR, w4)
        else (HAL_OK, w4)

/-- The memory-mapped configuration command of `QSPI_EnableMemoryMappedMode`. -/
def memMapCmd (op : OperationType) (instruction dummy : Nat) : OSPI_RegularCmdTypeDef :=
  { OperationType := op
    Instruction := instruction
    AddressMode := AddressMode.ADDRESS_1_LINE
    Address := 0
    DataMode := DataMode.DATA_4_LINES
    NbData := 0
    DummyCycles := dummy }

/-- Model of `QSPI_EnableMemoryMappedMode`. -/
def QSPI_EnableMemoryMappedMode (w : World) : HAL_StatusTypeDef × World :=
  let (r1, w1) := HAL_OSPI_Command (memMapCmd OperationType.READ_CFG FAST_READ_QUAD_OUT_CMD 8) w
  if r1 ≠ HAL_OK then (HAL_ERROR, w1)
  else
    let (r2, w2) := HAL_OSPI_Command (memMapCmd OperationType.WRITE_CFG QUAD_IN_FAST_PROG_CMD 0) w1
    if r2 ≠ HAL_OK then (HAL_ERROR, w2)
    else
      let (r3, w3) := HAL_OSPI_MemoryMapped w2
      if r3 ≠ HAL_OK then (HAL_ERROR, w3)
      else (HAL_OK, w3)

/-! ## `peripherals.c` -/

/-- Model of `periphs_jpeg_buffer_lock`. -/
def periphs_jpeg_buffer_lock (w : World) : Bool × World :=
  if w.JPEG_buffer_lock then mmosal_semb_wait Sem.JPEG_buffer_lock w
  else (false, w)

/-- Model of `periphs_jpeg_buffer_unlock`. -/
def periphs_jpeg_buffer_unlock (w : World) : World :=
  if w.JPEG_buffer_lock then mmosal_semb_give Sem.JPEG_buffer_lock w
  else w

/-- Model of `periphs_qspi_flash_lock`. -/
def periphs_qspi_flash_lock (w : World) : Bool × World :=
  if w.QSPI_flash_lock then mmosal_semb_wait Sem.QSPI_flash_lock w
  else (false, w)

/-- Model of `periphs_qspi_flash_unlock`. -/
def periphs_qspi_flash_unlock (w : World) : World :=
  if w.QSPI_flash_lock then mmosal_semb_give Sem.QSPI_flash_lock w
  else w

/-- Model of `flash_image_cleanup(lock_jpeg_buff)`. -/
def flash_image_cleanup (lock_jpeg_buff : Bool) (w : World) : World :=
  let (r1, w1) := QSPI_Init w
  let w2 :=
    if r1 ≠ HAL_OK then printf "QSPI init failed\n" w1
    else
      let (r2, w2) := QSPI_EnableMemoryMappedMode w1
      if r2 ≠ HAL_OK then printf "QSPI map failed\n" w2
      else w2
  let w3 := set_CCR 0 0 0 w2
  let w4 := if lock_jpeg_buff then periphs_jpeg_buffer_unlock w3 else w3
  periphs_qspi_flash_unlock w4

/-- Model of `erase_image`. -/
def erase_image (w : World) : World :=
  let (locked, w1) := periphs_qspi_flash_lock w
  if !locked then printf "periphs_qspi_flash_lock failed.\n" w1
  else
    let w2 := set_CCR 0 0 1000 w1
    let (r1, w3) := HAL_OSPI_Abort w2
    if r1 ≠ HAL_OK then
      periphs_qspi_flash_unlock (printf "unable to disable QSPI memory-mapping.\n" w3)
    else
      let (r2, w4) := QSPI_WriteEnable w3
      if r2 ≠ HAL_OK then
        flash_image_cleanup false (printf "[0] QSPI_WriteEnable failed.\n" w4)
      else
        let (r3, w5) := QSPI_BlockSectorErase 0 w4
        if r3 ≠ HAL_OK then
          flash_image_cleanup false (printf "QSPI_EraseSector failed.\n" w5)
        else
          flash_image_cleanup false (set_CCR 0 0 0 (mmosal_task_sleep 800 w5))

/-- The `while (remaining_bytes)` loop of `save_image` together with what follows it
(the success message and the restore step).  `p` is `image_data_ptr`,
`data_to_write` the moving source pointer.  The recursion is on `fuel`; `none`
means the fuel ran out before the loop was left. -/
def save_image_loop (p : Nat) :
    (fuel : Nat) → (data_to_write remaining_bytes : Nat) → World → Option World
  | 0, _, _, _ => none
  | fuel + 1, data_to_write, remaining_bytes, w =>
    if remaining_bytes = 0 then
      some (flash_image_cleanup true (printf "Finished successfully.\n" w))
    else
      let (r1, w1) := QSPI_WriteEnable w
      let w2 := if r1 ≠ HAL_OK then printf "[3] QSPI_WriteEnable failed.\n" w1 else w1
      if remaining_bytes ≥ 256 then
        let (r2, w3) :=
          QSPI_ProgramPage ((4 + (data_to_write - p) % 4294967296) % 4294967296)
            (fun i => w2.ram (data_to_write + i)) 256 w2
        if r2 ≠ HAL_OK then
          some (flash_image_cleanup true (printf "[3] QSPI_ProgramPage failed.\n" w3))
        else
          save_image_loop p fuel (data_to_write + 256) (remaining_bytes - 256) (printf "." w3)
      else
        let (r2, w3) :=
          QSPI_ProgramPage ((4 + (data_to_write - p) % 4294967296) % 4294967296)
            (fun i => w2.ram (data_to_write + i)) remaining_bytes w2
        if r2 ≠ HAL_OK then
          some (flash_image_cleanup true (printf "[4] QSPI_ProgramPage failed.\n" w3))
        else
          some (flash_image_cleanup true (printf "Finished successfully.\n" w3))

/-- The four bytes of a `uint32_t` in memory, least significant first
(the Cortex-M33 of the board is little-endian). -/
def le32 (v : Nat) (i : Nat) : Nat :=
  (v / 256 ^ i) % 256

/-- Model of `save_image`.  The test
`(image_data_size < 256) || (image_data_size > 65532) || image_data_ptr == NULL`
is taken in two steps, the pointer first, so that the rest of the body has the
pointer `p` at hand.  The assignment to `remaining_bytes` before the first page is
overwritten before it is read and is left out.  Pointer differences are converted to
`uint32_t`, hence the reductions modulo `2^32`.  The page loop gets
`remaining_bytes / 256 + 2` units of fuel, which `save_image_loop_steps` shows to be
enough on every path: the result is never `none`. -/
def save_image (w : World) : Option World :=
  match w.image_data_ptr with
  | none => some (printf "No image!\n" w)
  | some p =>
    if w.image_data_size < 256 ∨ w.image_data_size > 65532 then
      some (printf "No image!\n" w)
    else
      let (lockedJ, w1) := periphs_jpeg_buffer_lock w
      if !lockedJ then some (printf "periphs_jpeg_buffer_lock failed.\n" w1)
      else
        let (lockedQ, w2) := periphs_qspi_flash_lock w1
        if !lockedQ then
          some (periphs_jpeg_buffer_unlock (printf "periphs_qspi_flash_lock failed.\n" w2))
        else
          let w3 := set_CCR 1000 1000 1000 w2
          let (r1, w4) := HAL_OSPI_Abort w3
          if r1 ≠ HAL_OK then
            some (periphs_qspi_flash_unlock (periphs_jpeg_buffer_unlock
              (printf "unable to disable QSPI memory-mapping.\n" w4)))
          else
            let (r2, w5) := QSPI_WriteEnable w4
            if r2 ≠ HAL_OK then
              some (flash_image_cleanup true (printf "[0] QSPI_WriteEnable failed.\n" w5))
            else
              let (r3, w6) := QSPI_BlockSectorErase 0 w5
              if r3 ≠ HAL_OK then
                some (flash_image_cleanup true (printf "QSPI_EraseSector failed.\n" w6))
              else
                let (r4, w7) := QSPI_WriteEnable w6
                let w8 := if r4 ≠ HAL_OK then printf "[1] QSPI_WriteEnable failed.\n" w7 else w7
                let (r5, w9) := QSPI_ProgramPage 0 (le32 w8.image_data_size) 4 w8
                let w10 := if r5 ≠ HAL_OK then printf "[1] QSPI_ProgramPage failed.\n" w9 else w9
                let w11 := printf "Write %ld bytes from 0x%lx to external flash:" w10
                let data_to_write := p
                let (r6, w12) := QSPI_WriteEnable w11
                let w13 := if r6 ≠ HAL_OK then printf "[2] QSPI_WriteEnable failed.\n" w12 else w12
                let (r7, w14) :=
                  QSPI_ProgramPage 4 (fun i => w13.ram (data_to_write + i)) (256 - 4) w13
                let w15 := if r7 ≠ HAL_OK then printf "[2] QSPI_ProgramPage failed.\n" w14 else w14
                let data_to_write := data_to_write + (256 - 4)
                let remaining_bytes :=
                  (p + w15.image_data_size + 4294967296 - data_to_write) % 4294967296
                save_image_loop p (remaining_bytes / 256 + 2) data_to_write remaining_bytes w15

/-! ## Reading the log -/

/-- A semaphore call. -/
def Event.isLock : Event → Bool
  | Event.semb_wait _ _ => true
  | Event.semb_give _ => true
  | Event.semb_give_from_isr _ => true
  | _ => false

/-- A call into the OSPI HAL, that is, any activity on the flash bus. -/
def Event.isBus : Event → Bool
  | Event.abort _ => true
  | Event.command _ _ => true
  | Event.autopoll _ _ _ _ => true
  | Event.transmit _ _ => true
  | Event.memmap _ => true
  | _ => false

/-- A store to one of the LED PWM registers `CCR1..CCR3` of timer 4. -/
def Event.isCCR : Event → Bool
  | Event.ccr _ _ => true
  | _ => false

/-- A `HAL_OSPI_Command` carrying a page-program instruction to the flash. -/
def Event.isProgram : Event → Bool
  | Event.command c _ =>
    decide (c.Instruction = QUAD_IN_FAST_PROG_CMD ∧ c.OperationType = OperationType.COMMON_CFG)
  | _ => false

/-- A call that only the restore step makes: the commands of `QSPI_Init` (chip
reset, status-register write) and of `QSPI_EnableMemoryMappedMode` (read and write
configuration, `HAL_OSPI_MemoryMapped`). -/
def Event.isRestore : Event → Bool
  | Event.command c _ =>
    decide (c.Instruction = RESET_ENABLE_CMD ∨ c.Instruction = RESET_MEMORY_CMD ∨
      c.Instruction = WRITE_STATUS_REG_CMD ∨ c.OperationType ≠ OperationType.COMMON_CFG)
  | Event.memmap _ => true
  | _ => false

/-- A call that sets up memory-mapped mode: the read or write configuration command
of `QSPI_EnableMemoryMappedMode`, or `HAL_OSPI_MemoryMapped`. -/
def Event.isMemMapCfg : Event → Bool
  | Event.command c _ => decide (c.OperationType ≠ OperationType.COMMON_CFG)
  | Event.memmap _ => true
  | _ => false

/-- What the erase and program phases of a persistence operation may log:
messages, sleeps, LED stores, and bus traffic other than an abort or a call of the
restore step. -/
def Event.isPersist : Event → Bool
  | Event.printf _ => true
  | Event.sleep _ => true
  | Event.ccr _ _ => true
  | Event.command c st => !(Event.command c st).isRestore
  | Event.autopoll _ _ _ _ => true
  | Event.transmit _ _ => true
  | _ => false

/-- Number of successful waits on `s` in a log. -/
def acquired (s : Sem) (t : List Event) : Nat :=
  t.count (Event.semb_wait s true)

/-- Number of gives of `s` in a log. -/
def released (s : Sem) (t : List Event) : Nat :=
  t.count (Event.semb_give s)

/-- World `w'` is reached from `w` by calls that log only events satisfying `Q`
and leave the globals, the environment and the semaphore-call counter alone. -/
structure Steps (Q : Event → Bool) (w w' : World) : Prop where
  halResult : w'.halResult = w.halResult
  semResult : w'.semResult = w.semResult
  semCalls : w'.semCalls = w.semCalls
  jpegLock : w'.JPEG_buffer_lock = w.JPEG_buffer_lock
  qspiLock : w'.QSPI_flash_lock = w.QSPI_flash_lock
  size : w'.image_data_size = w.image_data_size
  ptr : w'.image_data_ptr = w.image_data_ptr
  ram : w'.ram = w.ram
  trace : ∃ es, w'.trace = w.trace ++ es ∧ ∀ e ∈ es, Q e = true

/-- Predicate `Q` admits the status-register poll of `OSPI_AutoPoll`. -/
def AllowsPoll (Q : Event → Bool) : Prop :=
  (∀ st, Q (Event.command (pollCmd READ_STATUS_REG_CMD) st) = true) ∧
  (∀ m k st, Q (Event.autopoll m k AUTO_POLLING_INTERVAL st) = true)

/-- Predicate `Q` admits everything the erase and program phases of a persistence
operation log once the abort is done. -/
structure AllowsWrite (Q : Event → Bool) : Prop where
  poll : AllowsPoll Q
  writeEnable : ∀ st, Q (Event.command (plainCmd WRITE_ENABLE_CMD) st) = true
  erase : ∀ st, Q (Event.command (eraseCmd BLOCK_64K_ERASE_CMD 0) st) = true
  program : ∀ a len st, Q (Event.command (programCmd a len) st) = true
  transmit : ∀ d st, Q (Event.transmit d st) = true
  printf : ∀ msg, Q (Event.printf msg) = true
  sleep : ∀ ms, Q (Event.sleep ms) = true
  ccr : ∀ ch v, Q (Event.ccr ch v) = true

/-- Predicate `Q` admits everything `QSPI_Init` logs: plain commands, status polls,
the status-register write and its data. -/
structure AllowsInit (Q : Event → Bool) : Prop where
  poll : AllowsPoll Q
  plain : ∀ i st, Q (Event.command (plainCmd i) st) = true
  status : ∀ st, Q (Event.command writeStatusCmd st) = true
  transmit : ∀ d st, Q (Event.transmit d st) = true

/-- Predicate `Q` admits everything the restore step logs before it touches the
LED and the semaphores: messages and bus traffic. -/
structure AllowsRestore (Q : Event → Bool) : Prop where
  command : ∀ c st, Q (Event.command c st) = true
  autopoll : ∀ m k i st, Q (Event.autopoll m k i st) = true
  transmit : ∀ d st, Q (Event.transmit d st) = true
  memmap : ∀ st, Q (Event.memmap st) = true
  printf : ∀ msg, Q (Event.printf msg) = true

/-! ## The hardware the log is sent to -/

/-- Mode of the flash controller. -/
inductive Mode where
  | Command
  | MemoryMapped
  deriving DecidableEq, Repr

/-- Effect of one call on the controller mode: a successful abort leaves
memory-mapped mode, a successful `HAL_OSPI_MemoryMapped` enters it. -/
def Mode.step (m : Mode) : Event → Mode
  | Event.abort HAL_OK => Mode.Command
  | Event.memmap HAL_OK => Mode.MemoryMapped
  | _ => m

/-- Controller mode after a log, starting from mode `m`. -/
def modeAfter (m : Mode) (t : List Event) : Mode :=
  t.foldl Mode.step m

/-- NOR flash device: its bytes, and the address of a page-program command that
is waiting for its data. -/
structure Flash where
  mem : Nat → Nat
  pending : Option Nat

/-- Effect of one call on the device.  A successful 64 KiB block-erase command sets
the block of its address to `0xFF`; a successful page-program command followed by a
successful data transmission stores the transmitted bytes from the command's
address on; nothing else changes the bytes. -/
def Flash.step (f : Flash) : Event → Flash
  | Event.command c HAL_OK =>
    if c.OperationType = OperationType.COMMON_CFG ∧ c.Instruction = BLOCK_64K_ERASE_CMD then
      { mem := fun a => if a / MEMORY_BLOCK_SIZE = c.Address / MEMORY_BLOCK_SIZE then 0xFF
                        else f.mem a
        pending := none }
    else if c.OperationType = OperationType.COMMON_CFG ∧ c.Instruction = QUAD_IN_FAST_PROG_CMD then
      { f with pending := some c.Address }
    else
      { f with pending := none }
  | Event.transmit data HAL_OK =>
    match f.pending with
    | some addr =>
      { mem := fun a => if addr ≤ a ∧ a < addr + data.length then data.getD (a - addr) 0
                        else f.mem a
        pending := none }
    | none => f
  | _ => f

/-- Device after a log, starting from device `f`. -/
def flashAfter (f : Flash) (t : List Event) : Flash :=
  t.foldl Flash.step f

/-- The macro `SAVED_IMAGE_DATA_SIZE`, `*(uint32_t*)OCTOSPI1_BASE`: the little-endian
32-bit word in the first four bytes of the mapped flash. -/
def SAVED_IMAGE_DATA_SIZE (f : Flash) : Nat :=
  f.mem 0 + 256 * f.mem 1 + 65536 * f.mem 2 + 16777216 * f.mem 3

/-- A world in which every semaphore wait and every HAL call succeeds, holding an
image of `n` bytes `0xAA` at address `0x20000000`. -/
def demoWorld (n : Nat) : World :=
  { halResult := fun _ => HAL_OK
    semResult := fun _ => true
    halCalls := 0
    semCalls := 0
    JPEG_buffer_lock := true
    QSPI_flash_lock := true
    image_data_size := n
    image_data_ptr := some 0x20000000
    ram := fun _ => 0xAA
    NbData := 0
    trace := [] }

/-- An erased device. -/
def blankFlash : Flash :=
  { mem := fun _ => 0xFF, pending := none }

/-- Every HAL call succeeds. -/
def AllOK (w : World) : Prop :=
  ∀ k, w.halResult k = HAL_OK

/-- The length header and the first `k` image bytes are in the flash: bytes 0..3 are
the little-endian bytes of `n` and byte `4 + i` is the RAM byte at `p + i`. -/
def Stored (ram : Nat → Nat) (p n k : Nat) (F : Flash) : Prop :=
  (∀ i, i < 4 → F.mem i = le32 n i) ∧ ∀ i, i < k → F.mem (4 + i) = ram (p + i)

/-- The world right after `save_image` has taken both semaphores, switched the LED
to white and called `HAL_OSPI_Abort`, which returned `st`. -/
def save_image_at_abort (w : World) (st : HAL_StatusTypeDef) : World :=
  { w with
    semCalls := w.semCalls + 2
    halCalls := w.halCalls + 1
    trace := w.trace ++ [Event.semb_wait Sem.JPEG_buffer_lock true,
      Event.semb_wait Sem.QSPI_flash_lock true, Event.ccr 1 1000, Event.ccr 2 1000,
      Event.ccr 3 1000, Event.abort st] }

/-- The world right after `erase_image` has taken the flash semaphore, set the LED
and called `HAL_OSPI_Abort`, which returned `st`. -/
def erase_image_at_abort (w : World) (st : HAL_StatusTypeDef) : World :=
  { w with
    semCalls := w.semCalls + 1
    halCalls := w.halCalls + 1
    trace := w.trace ++ [Event.semb_wait Sem.QSPI_flash_lock true, Event.ccr 1 0,
      Event.ccr 2 0, Event.ccr 3 1000, Event.abort st] }

/-- Lock discipline of a log: each semaphore is given exactly as often as it was
obtained, it is obtained at most once, and at no point of the log has it been given
more often than obtained. -/
def Balanced (es : List Event) : Prop :=
  ∀ s, released s es = acquired s es ∧ acquired s es ≤ 1 ∧
    ∀ k, released s (es.take k) ≤ acquired s (es.take k)

/-- A give of a semaphore. -/
def Event.isGive : Event → Bool
  | Event.semb_give _ => true
  | _ => false

/-- The demo world with a 300-byte image in which the first HAL call, the abort of
a persistence operation, fails. -/
def abortFailWorld : World :=
  { demoWorld 300 with halResult := fun k => if k = 0 then HAL_ERROR else HAL_OK }

/-- The demo world with a 300-byte image in which every HAL call fails. -/
def initFailWorld : World :=
  { demoWorld 300 with halResult := fun _ => HAL_ERROR }

/-- The demo world with a 300-byte image in which HAL call number 10 fails: in
`save_image` that is the `HAL_OSPI_Command` of the page program that writes the
4-byte length header (call 0 is the abort, 1..3 and 7..9 are write-enables, 4..6 is
the block erase). -/
def headerFailWorld : World :=
  { demoWorld 300 with halResult := fun k => if k = 10 then HAL_ERROR else HAL_OK }

/-- The demo world with a 300-byte image in which the first semaphore wait times
out. -/
def firstWaitFailWorld : World :=
  { demoWorld 300 with semResult := fun k => if k = 0 then false else true }

/-- The demo world with a 300-byte image in which the second semaphore wait times
out. -/
def secondWaitFailWorld : World :=
  { demoWorld 300 with semResult := fun k => if k = 1 then false else true }

/-- World `w'` is reached from `w` without any call into the OSPI HAL and without
a store to the LED PWM registers. -/
def Untouched (w w' : World) : Prop :=
  w'.halCalls = w.halCalls ∧
    ∃ es, w'.trace = w.trace ++ es ∧ ∀ e ∈ es, e.isBus = false ∧ e.isCCR = false

/-! ## `ekh05_camera.c`: starting and stopping a capture -/

/-- Status codes of the board support package that the camera functions return. -/
inductive BSP_Status where
  | BSP_ERROR_NONE
  | BSP_ERROR_WRONG_PARAM
  | BSP_ERROR_PERIPH_FAILURE
  | BSP_ERROR_COMPONENT_FAILURE
  | BSP_ERROR_FEATURE_NOT_SUPPORTED
  deriving DecidableEq, Repr

/-- Model of `HAL_DCMI_Start_DMA(&hdcmi, mode, pData, length)`: the status comes from
the environment. -/
def HAL_DCMI_Start_DMA (mode : DCMI_Mode) (pData length : Nat) (w : World) :
    HAL_StatusTypeDef × World :=
  let st := w.dcmiResult w.dcmiCalls
  (st, { w with
          dcmiCalls := w.dcmiCalls + 1
          trace := w.trace ++ [Event.dcmi_start mode pData length st] })

/-- Model of `HAL_DCMI_Stop(&hdcmi)`: the status comes from the environment. -/
def HAL_DCMI_Stop (w : World) : HAL_StatusTypeDef × World :=
  let st := w.dcmiResult w.dcmiCalls
  (st, { w with dcmiCalls := w.dcmiCalls + 1, trace := w.trace ++ [Event.dcmi_stop st] })

/-- Model of `BSP_CAMERA_Start(Instance, pBff, Mode)`. -/
def BSP_CAMERA_Start (Instance pBff : Nat) (Mode : DCMI_Mode) (w : World) :
    BSP_Status × World :=
  if Instance ≥ w.CAMERA_INSTANCES_NBR then (BSP_Status.BSP_ERROR_WRONG_PARAM, w)
  else
    let frame_size := w.frame_size
    let (r, w1) := HAL_DCMI_Start_DMA Mode pBff frame_size w
    if r ≠ HAL_OK then (BSP_Status.BSP_ERROR_PERIPH_FAILURE, w1)
    else (BSP_Status.BSP_ERROR_NONE, w1)

/-- Model of `BSP_CAMERA_Stop(Instance)`. -/
def BSP_CAMERA_Stop (Instance : Nat) (w : World) : BSP_Status × World :=
  if Instance ≥ w.CAMERA_INSTANCES_NBR then (BSP_Status.BSP_ERROR_WRONG_PARAM, w)
  else
    let (r, w1) := HAL_DCMI_Stop w
    if r ≠ HAL_OK then (BSP_Status.BSP_ERROR_PERIPH_FAILURE, w1)
    else (BSP_Status.BSP_ERROR_NONE, w1)

/-! ## `peripherals.c`: the capture, the button and the HTTP side -/

/-- Model of `mmosal_semb_give_from_isr(sem)`. -/
def mmosal_semb_give_from_isr (sem : Sem) (w : World) : World :=
  w.log (Event.semb_give_from_isr sem)

/-- Model of `periphs_get_jpeg_buffer`. -/
def periphs_get_jpeg_buffer (w : World) : Nat :=
  w.JPEG_buffer

/-- Model of `periphs_get_live_jpeg_size`. -/
def periphs_get_live_jpeg_size (w : World) : Nat :=
  w.image_data_size

/-- Model of `BSP_CAMERA_VsyncEventCallback(Instance)` of `peripherals.c`.  The
difference `CDAR - (uint32_t)JPEG_buffer` is taken in `uint32_t`. -/
def BSP_CAMERA_VsyncEventCallback (Instance : Nat) (w : World) : World :=
  if w.got_sof ≠ 0 then
    let (_, w1) := BSP_CAMERA_Stop Instance w
    let w2 := { w1 with
      image_data_size :=
        (w1.CDAR % 4294967296 + 4294967296 - w1.JPEG_buffer % 4294967296) % 4294967296 }
    let w3 := { w2 with image_data_ptr := some w2.JPEG_buffer }
    let w4 := { w3 with got_sof := 0 }
    mmosal_semb_give_from_isr Sem.JPEG_buffer_lock w4
  else
    { w with got_sof := 1 }

/-- Model of `HAL_DCMI_VsyncEventCallback` of `ekh05_camera.c`, the interrupt-side
caller of the callback. -/
def HAL_DCMI_VsyncEventCallback (w : World) : World :=
  BSP_CAMERA_VsyncEventCallback 0 w

/-- Model of `HAL_OSPI_GetState(&hospi1)`, as far as the code looks at it: the
controller is in `HAL_OSPI_STATE_BUSY_MEM_MAPPED` after a successful
`HAL_OSPI_MemoryMapped` until a successful `HAL_OSPI_Abort`; `m0` is the mode when
the log started. -/
def HAL_OSPI_GetState (m0 : Mode) (w : World) : Mode :=
  modeAfter m0 w.trace

/-- Model of `periphs_qspi_is_memmap_running`. -/
def periphs_qspi_is_memmap_running (m0 : Mode) (w : World) : Bool :=
  decide (HAL_OSPI_GetState m0 w = Mode.MemoryMapped)

/-- One evaluation of the macro `SAVED_IMAGE_DATA_SIZE`: a load from the mapped flash,
logged, that returns the little-endian word the device holds at offset 0; `f0` is
the device when the log started. -/
def read_SAVED_IMAGE_DATA_SIZE (f0 : Flash) (w : World) : Nat × World :=
  (SAVED_IMAGE_DATA_SIZE (flashAfter f0 w.trace), w.log (Event.mapped_read 0))

/-- Model of `http_file_sent(end_address)`.  Pointers are 32-bit addresses, pointer
arithmetic is addition modulo `2^32`. -/
def http_file_sent (m0 : Mode) (f0 : Flash) (end_address : Nat) (w : World) : World :=
  if end_address = (w.JPEG_buffer + w.image_data_size) % 4294967296 then
    periphs_jpeg_buffer_unlock w
  else if periphs_qspi_is_memmap_running m0 w then
    let (size, w1) := read_SAVED_IMAGE_DATA_SIZE f0 w
    if end_address = (w1.OCTOSPI1_BASE + 4 + size) % 4294967296 then periphs_qspi_flash_unlock w1
    else w1
  else w

/-- Model of `HAL_GPIO_ReadPin(USER_BUTTON_GPIO_Port, USER_BUTTON_Pin)`. -/
def HAL_GPIO_ReadPin (w : World) : Bool × World :=
  let level := w.pinResult w.pinReads
  (level, { w with pinReads := w.pinReads + 1, trace := w.trace ++ [Event.gpio_read level] })

/-- The macro `ERASE_IMAGE_BOTTUN_WAIT_SECONDS(x)`, `(x * 2)`. -/
def ERASE_IMAGE_BOTTUN_WAIT_SECONDS (x : Nat) : Nat :=
  x * 2

/-- A call of a `void` function that is not modelled further: the peripheral
initialisers, the sensor and Bluetooth functions.  The call is logged as one event;
what the callee does to its own peripheral (I2C, BLE, and for the accelerometer the
LED registers) is not modelled.  None of these functions refers to `image_data_size`,
`image_data_ptr`, `got_sof` or the two semaphores, which occur in `peripherals.c`
only, so the globals of the `World` are left as they are. -/
def voidCall (name : String) (w : World) : World :=
  w.log (Event.call name true)

/-- A call of a function that is not modelled further and whose result is used
(`mmosal_semb_create`, `BSP_CAMERA_Init`, `mmosal_task_create`): the result comes
from the environment, `true` stands for success (a non-`NULL` handle,
`BSP_ERROR_NONE`).  As for `voidCall`, the globals of the `World` are left as they
are. -/
def resultCall (name : String) (w : World) : Bool × World :=
  let ok := w.callResult w.callCount
  (ok, { w with callCount := w.callCount + 1, trace := w.trace ++ [Event.call name ok] })

/-- The body of `if (counter++ == 40)` in `periphs_task`, after `counter = 0`: the
arming of a capture. -/
def periphs_task_arm (w : World) : World :=
  let (ok, w1) := mmosal_semb_wait Sem.JPEG_buffer_lock w
  let w2 :=
    if ok then (BSP_CAMERA_Start 0 w1.JPEG_buffer DCMI_Mode.DCMI_MODE_SNAPSHOT w1).2
    else w1
  voidCall "temperature_process" w2

/-- The loop `while (!HAL_GPIO_ReadPin(...) && counter < ERASE_IMAGE_BOTTUN_WAIT_SECONDS(4))`
of `periphs_task`; the pin is read before the counter is compared.  The recursion is
on `fuel`; `none` means the fuel ran out before the loop was left. -/
def periphs_task_hold : (fuel : Nat) → (counter : Nat) → World → Option (Nat × World)
  | 0, _, _ => none
  | fuel + 1, counter, w =>
    let (level, w1) := HAL_GPIO_ReadPin w
    if !level ∧ counter < ERASE_IMAGE_BOTTUN_WAIT_SECONDS 4 then
      let w2 := set_CCR 0 0 0 w1
      let w3 := mmosal_task_sleep 480 w2
      let w4 := set_CCR 1000 1000 1000 w3
      let w5 := mmosal_task_sleep 20 w4
      periphs_task_hold fuel (counter + 1) w5
    else
      some (counter, w1)

/-- The button handling of `periphs_task` from `counter = 0` to the call of
`save_image` or `erase_image`; it is entered when the button was read as pressed.
The hold loop gets 9 units of fuel, one per pin read it can make. -/
def periphs_task_button (w : World) : Option World :=
  match periphs_task_hold 9 0 w with
  | none => none
  | some (counter, w1) =>
    if counter < ERASE_IMAGE_BOTTUN_WAIT_SECONDS 4 then save_image w1
    else some (erase_image w1)

/-- The loop `while (!HAL_GPIO_ReadPin(...));` of `periphs_task`, which spins until
the button is released; `none` means it was still pressed after `fuel` reads. -/
def periphs_task_release : (fuel : Nat) → World → Option World
  | 0, _ => none
  | fuel + 1, w =>
    let (level, w1) := HAL_GPIO_ReadPin w
    if !level then periphs_task_release fuel w1
    else some w1

/-- One iteration of the `while (1)` of `periphs_task`, from the value of `counter`
at its start to the value at its end. -/
def periphs_task_iteration (fuel : Nat) (counter : Nat) (w : World) : Option (Nat × World) :=
  let w1 := voidCall "accelerometer_process" w
  let w2 := voidCall "MX_BlueNRG_2_Process" w1
  let (counter1, w3) :=
    if counter = 40 then (0, periphs_task_arm w2)
    else (counter + 1, w2)
  let (level, w4) := HAL_GPIO_ReadPin w3
  if !level then
    match periphs_task_button w4 with
    | none => none
    | some w5 =>
      match periphs_task_release fuel w5 with
      | none => none
      | some w6 => some (0, mmosal_task_sleep 52 w6)
  else
    some (counter1, mmosal_task_sleep 52 w4)

/-- Model of `periphs_start`.  A failing `MMOSAL_ASSERT` stops the program: `none`. -/
def periphs_start (w : World) : Option World :=
  let w1 := voidCall "mmhal_set_deep_sleep_veto" w
  if w1.JPEG_buffer_lock then none
  else
    let (c1, w2) := resultCall "mmosal_semb_create" w1
    let w3 := { w2 with JPEG_buffer_lock := c1 }
    if w3.QSPI_flash_lock then none
    else
      let (c2, w4) := resultCall "mmosal_semb_create" w3
      let w5 := { w4 with QSPI_flash_lock := c2 }
      let w6 := periphs_qspi_flash_unlock w5
      let w7 := voidCall "MX_TIM4_Init" w6
      let w8 := voidCall "MX_I2C1_Init" w7
      let w9 := voidCall "MX_DCMI_Init" w8
      let w10 := voidCall "MX_OCTOSPI1_Init" w9
      let (r1, w11) := QSPI_Init w10
      let w12 :=
        if r1 ≠ HAL_OK then printf "QSPI init failed\n" w11
        else
          let (r2, w12) := QSPI_EnableMemoryMappedMode w11
          if r2 ≠ HAL_OK then printf "QSPI map failed\n" w12
          else w12
      let w13 := voidCall "accelerometer_init" w12
      let w14 := voidCall "temperature_init" w13
      let w15 := voidCall "MX_BlueNRG_2_Init" w14
      let w16 := voidCall "update_ble_ip_gw" w15
      let (c3, w17) := resultCall "BSP_CAMERA_Init" w16
      let w18 := if !c3 then printf "\n\nFailed to init camera.\n\n" w17 else w17
      let w19 := voidCall "BSP_CAMERA_SetLightMode" w18
      let w20 := (BSP_CAMERA_Start 0 w19.JPEG_buffer DCMI_Mode.DCMI_MODE_SNAPSHOT w19).2
      let w21 := printf "\n\nStarting Sensor Task\n\n" w20
      let (c4, w22) := resultCall "mmosal_task_create" w21
      if !c4 then some (printf "Unable to start sensor task\n\r" w22)
      else some w22

/-! ## `http.c`: the image endpoints -/

/-- Model of `restfs_write_const(fil, ptr, len)`. -/
def restfs_write_const (ptr : RestPtr) (len : Nat) (w : World) : World :=
  w.log (Event.restfs_write_const ptr len)

/-- Model of `rest_ep_success`; the string has 33 characters. -/
def rest_ep_success (w : World) : World :=
  restfs_write_const RestPtr.successhtml 33 w

/-- Model of `rest_ep_failed`; the string has 32 characters. -/
def rest_ep_failed (w : World) : World :=
  restfs_write_const RestPtr.failedhtml 32 w

/-- Model of `rest_ep_get_image`; the cast to `uint16_t` is the reduction modulo
`2^16`. -/
def rest_ep_get_image (w : World) : World :=
  let (locked, w1) := periphs_jpeg_buffer_lock w
  if !locked then rest_ep_failed w1
  else if periphs_get_live_jpeg_size w1 = 0 then periphs_jpeg_buffer_unlock w1
  else
    restfs_write_const (RestPtr.addr (periphs_get_jpeg_buffer w1))
      (periphs_get_live_jpeg_size w1 % 65536) w1

/-- Model of `rest_ep_get_saved_image`.  The test
`!SAVED_IMAGE_DATA_SIZE || !(SAVED_IMAGE_DATA_SIZE < (64 * 1024 - 4))` evaluates
the macro once or twice, the call of `restfs_write_const` once more. -/
def rest_ep_get_saved_image (f0 : Flash) (w : World) : World :=
  let (locked, w1) := periphs_qspi_flash_lock w
  if !locked then rest_ep_failed w1
  else
    let (s1, w2) := read_SAVED_IMAGE_DATA_SIZE f0 w1
    if s1 = 0 then rest_ep_failed (periphs_qspi_flash_unlock w2)
    else
      let (s2, w3) := read_SAVED_IMAGE_DATA_SIZE f0 w2
      if ¬ s2 < 64 * 1024 - 4 then rest_ep_failed (periphs_qspi_flash_unlock w3)
      else
        let (s3, w4) := read_SAVED_IMAGE_DATA_SIZE f0 w3
        restfs_write_const (RestPtr.addr (w4.OCTOSPI1_BASE + 4)) (s3 % 65536) w4

/-- A request to one of the two image endpoints, or a completion callback of the
transport with the end address it finished sending. -/
inductive HttpCall where
  | get_image
  | get_saved_image
  | file_sent (end_address : Nat)
  deriving DecidableEq, Repr

/-- One step of the HTTP side. -/
def httpStep (m0 : Mode) (f0 : Flash) (w : World) : HttpCall → World
  | HttpCall.get_image => rest_ep_get_image w
  | HttpCall.get_saved_image => rest_ep_get_saved_image f0 w
  | HttpCall.file_sent end_address => http_file_sent m0 f0 end_address w

/-- A sequence of requests and completion callbacks, run in order. -/
def httpRun (m0 : Mode) (f0 : Flash) (w : World) (cs : List HttpCall) : World :=
  cs.foldl (httpStep m0 f0) w

/-- A semaphore is held at the end of a log when it was obtained more often than it
was given. -/
def held (s : Sem) (t : List Event) : Bool :=
  decide (released s t < acquired s t)

/-- A device that holds a 300-byte image: header `300`, every other byte `0xAA`. -/
def savedFlash : Flash :=
  { mem := fun a => if a = 0 then 44 else if a = 1 then 1 else if a < 4 then 0 else 0xAA
    pending := none }

/-- A device whose length header reads 100; every other byte is `0xAA`. -/
def smallFlash : Flash :=
  { mem := fun a => if a = 0 then 100 else if a < 4 then 0 else 0xAA
    pending := none }

/-- What one pass of the hold loop's body does after the pin was read: LED off for
480 ms, LED white for 20 ms. -/
def holdBlink (w : World) : World :=
  mmosal_task_sleep 20 (set_CCR 1000 1000 1000 (mmosal_task_sleep 480 (set_CCR 0 0 0 w)))

/-- One polling iteration of the hold loop: a pin read followed by the body. -/
def holdRound (w : World) : World :=
  holdBlink (HAL_GPIO_ReadPin w).2

/-- The first `k` polling iterations of the hold loop. -/
def holdRounds : Nat → World → World
  | 0, w => w
  | k + 1, w => holdRounds k (holdRound w)

/-- A HAL call on the flash bus that did not return `HAL_OK`. -/
def Event.failed : Event → Bool
  | Event.abort st => decide (st ≠ HAL_OK)
  | Event.command _ st => decide (st ≠ HAL_OK)
  | Event.autopoll _ _ _ st => decide (st ≠ HAL_OK)
  | Event.transmit _ st => decide (st ≠ HAL_OK)
  | Event.memmap st => decide (st ≠ HAL_OK)
  | _ => false

/-- The demo world in which HAL call number 9 fails: in `QSPI_Init` that is the
write-enable command sent by `QSPI_Configuration` (calls 0..3 are the chip reset,
4..5 the ready poll, 6..8 the write-enable of `QSPI_Init` itself). -/
def configFailWorld : World :=
  { demoWorld 300 with halResult := fun k => if k = 9 then HAL_ERROR else HAL_OK }

/-- A world at system start: no semaphore created, no image, every call succeeds; the
DMA will have written 300 bytes when a capture ends. -/
def bootWorld : World :=
  { demoWorld 0 with
    JPEG_buffer_lock := false
    QSPI_flash_lock := false
    image_data_ptr := none
    CDAR := 0x20000000 + 300 }

/-- A call that starts or stops the camera DMA. -/
def Event.isDcmi : Event → Bool
  | Event.dcmi_start _ _ _ _ => true
  | Event.dcmi_stop _ => true
  | _ => false

end EKH05

namespace MMConfig

/-! # `mmconfig.c`: string to number conversion -/

/-- Return codes of the MMCONFIG API that `mmconfig.c` uses. -/
inductive MMConfigStatus where
  | MMCONFIG_OK
  | MMCONFIG_ERR_INVALID_KEY
  | MMCONFIG_ERR_FULL
  | MMCONFIG_ERR_NOT_FOUND
  | MMCONFIG_ERR_INCORRECT_TYPE
  | MMCONFIG_ERR_OUT_OF_BOUNDS
  | MMCONFIG_ERR_WILDCARD_KEY
  | MMCONFIG_ERR_INSUFFICIENT_MEMORY
  deriving DecidableEq, Repr

open MMConfigStatus

/-- The hexadecimal loop of `mmconfig_str_to_uint`,
`for (ii = 2; str[ii] != 0; ii++)`, on the characters from index `ii` on.  `num` is
a `uint64_t`, so each update is reduced modulo `2^64`.  The result is `none` when
the loop returns `MMCONFIG_ERR_INCORRECT_TYPE`, otherwise the final `num` and `ii`. -/
def hexLoop : List Char → Nat → Nat → Option (Nat × Nat)
  | [], num, ii => some (num, ii)
  | c :: cs, num, ii =>
    if c.toNat ≥ Char.toNat '0' ∧ c.toNat ≤ Char.toNat '9' then
      hexLoop cs ((num * 16 + (c.toNat - Char.toNat '0')) % 18446744073709551616) (ii + 1)
    else if c.toNat ≥ Char.toNat 'a' ∧ c.toNat ≤ Char.toNat 'f' then
      hexLoop cs ((num * 16 + (c.toNat - Char.toNat 'a' + 10)) % 18446744073709551616) (ii + 1)
    else if c.toNat ≥ Char.toNat 'A' ∧ c.toNat ≤ Char.toNat 'F' then
      hexLoop cs ((num * 16 + (c.toNat - Char.toNat 'A' + 10)) % 18446744073709551616) (ii + 1)
    else none

/-- The decimal loop of `mmconfig_str_to_uint`, `for (ii = 0; str[ii] != 0; ii++)`,
on the characters from index `ii` on. -/
def decLoop : List Char → Nat → Nat → Option (Nat × Nat)
  | [], num, ii => some (num, ii)
  | c :: cs, num, ii =>
    if c.toNat < Char.toNat '0' ∨ c.toNat > Char.toNat '9' then none
    else decLoop cs ((num * 10 + (c.toNat - Char.toNat '0')) % 18446744073709551616) (ii + 1)

/-- Model of `mmconfig_str_to_uint(str, val)`.  `str` is the list of the characters
before the terminating NUL, `val` the value of `*val` before the call; the result is
the return code and the value of `*val` after the call. -/
def mmconfig_str_to_uint (str : List Char) (val : Nat) : MMConfigStatus × Nat :=
  let r :=
    if str[0]? = some '0' ∧ (str[1]? = some 'x' ∨ str[1]? = some 'X') then
      hexLoop (str.drop 2) 0 2
    else
      decLoop str 0 0
  match r with
  | none => (MMCONFIG_ERR_INCORRECT_TYPE, val)
  | some (num, ii) =>
    if ii > 10 ∨ num > 4294967295 then (MMCONFIG_ERR_INCORRECT_TYPE, val)
    else (MMCONFIG_OK, num % 4294967296)

/-! ## What the conversion is meant to compute -/

/-- A decimal digit. -/
def isDecDigit (c : Char) : Bool :=
  decide (Char.toNat '0' ≤ c.toNat ∧ c.toNat ≤ Char.toNat '9')

/-- A hexadecimal digit, in either case. -/
def isHexDigit (c : Char) : Bool :=
  isDecDigit c || decide (Char.toNat 'a' ≤ c.toNat ∧ c.toNat ≤ Char.toNat 'f') ||
    decide (Char.toNat 'A' ≤ c.toNat ∧ c.toNat ≤ Char.toNat 'F')

/-- Value of a digit. -/
def digitValue (c : Char) : Nat :=
  if isDecDigit c then c.toNat - Char.toNat '0'
  else if Char.toNat 'a' ≤ c.toNat ∧ c.toNat ≤ Char.toNat 'f' then c.toNat - Char.toNat 'a' + 10
  else c.toNat - Char.toNat 'A' + 10

/-- The number that a list of digits denotes in a base, read from an accumulator
`n` on. -/
def valueFrom (base : Nat) (n : Nat) (ds : List Char) : Nat :=
  ds.foldl (fun a c => a * base + digitValue c) n

/-- The number that a list of digits denotes in a base. -/
def valueOf (base : Nat) (ds : List Char) : Nat :=
  valueFrom base 0 ds

/-- The digits after a `0x` or `0X` prefix, if the string has one. -/
def hexDigits : List Char → Option (List Char)
  | '0' :: 'x' :: ds => some ds
  | '0' :: 'X' :: ds => some ds
  | _ => none

/-- The number that a string of at most 10 characters represents, if any: a
non-empty string of decimal digits, or `0x` or `0X` followed by at least one
hexadecimal digit, with a value of at most 4294967295. -/
def str_to_uint_spec (s : List Char) : Option Nat :=
  if s.length ≤ 10 then
    match hexDigits s with
    | some ds =>
      if ds ≠ [] ∧ ds.all isHexDigit ∧ valueOf 16 ds ≤ 4294967295 then some (valueOf 16 ds)
      else none
    | none =>
      if s ≠ [] ∧ s.all isDecDigit ∧ valueOf 10 s ≤ 4294967295 then some (valueOf 10 s)
      else none
  else none

open MMConfigStatus

/-- The conversion of a `uint32_t` to `int` on the target (two's complement). -/
def toInt32 (u : Nat) : Int :=
  if u % 4294967296 < 2147483648 then (u % 4294967296 : Nat)
  else ((u % 4294967296 : Nat) : Int) - 4294967296

/-- Model of `mmconfig_str_to_int(str, val)`.  `str` is the list of the characters
before the terminating NUL, `val` the value of `*val` before the call; the result is
the return code and the value of `*val` after the call.  The product `sign * num`
of an `int` and a `uint32_t` is taken in `uint32_t` and converted to `int`. -/
def mmconfig_str_to_int (str : List Char) (val : Int) : MMConfigStatus × Int :=
  let num0 : Nat := 0
  let (sign, str1) : Int × List Char :=
    match str with
    | '-' :: rest => (-1, rest)
    | _ => (1, str)
  let (ret, num) := mmconfig_str_to_uint str1 num0
  if ret = MMCONFIG_OK then
    if sign = -1 ∧ num > 0x80000000 then (MMCONFIG_ERR_INCORRECT_TYPE, val)
    else if sign = 1 ∧ num > 0x7FFFFFFF then (MMCONFIG_ERR_INCORRECT_TYPE, val)
    else (ret, toInt32 ((sign % 4294967296).toNat * num))
  else (ret, val)

/-- The character of a decimal digit. -/
def digitChar (d : Nat) : Char :=
  Char.ofNat (48 + d)

/-- The canonical decimal text of a natural number: its digits, most significant
first, without leading zeros; `0` for zero. -/
def decimalText (k : Nat) : List Char :=
  if k = 0 then ['0'] else ((Nat.digits 10 k).map digitChar).reverse

/-- The canonical decimal text of an integer: a leading `-` for a negative number,
then the canonical decimal text of its absolute value. -/
def intText (n : Int) : List Char :=
  if n < 0 then '-' :: decimalText n.natAbs else decimalText n.natAbs

open MMConfigStatus

/-! ## Keys and the configuration table -/

/-- The C library's `isalpha` in the "C" locale. -/
def isalpha (c : Char) : Bool :=
  decide ((Char.toNat 'A' ≤ c.toNat ∧ c.toNat ≤ Char.toNat 'Z') ∨
    (Char.toNat 'a' ≤ c.toNat ∧ c.toNat ≤ Char.toNat 'z'))

/-- The C library's `isalnum` in the "C" locale. -/
def isalnum (c : Char) : Bool :=
  isalpha c || decide (Char.toNat '0' ≤ c.toNat ∧ c.toNat ≤ Char.toNat '9')

/-- Model of `mmconfig_validate_key_character`. -/
def mmconfig_validate_key_character (character : Char) : MMConfigStatus :=
  if !isalnum character ∧ character ≠ '_' ∧ character ≠ '.' then MMCONFIG_ERR_INVALID_KEY
  else MMCONFIG_OK

/-- The loop `for (i = 1; i < key_len; i++)` of `mmconfig_validate_key`, on the
characters from index `i` on. -/
def validateRest (key_len : Nat) : List Char → Nat → MMConfigStatus
  | [], _ => MMCONFIG_OK
  | c :: cs, i =>
    if i < key_len then
      if mmconfig_validate_key_character c ≠ MMCONFIG_OK then
        if c = '*' ∧ i = key_len - 1 then MMCONFIG_ERR_WILDCARD_KEY
        else MMCONFIG_ERR_INVALID_KEY
      else validateRest key_len cs (i + 1)
    else MMCONFIG_OK

/-- Model of `mmconfig_validate_key(key)`.  `MMCONFIG_MAX_KEYLEN` is defined in
`mmconfig.h`, which is not part of the sources, and is a parameter. -/
def mmconfig_validate_key (MMCONFIG_MAX_KEYLEN : Nat) (key : List Char) : MMConfigStatus :=
  let key_len := min key.length (MMCONFIG_MAX_KEYLEN + 1)
  if key_len > MMCONFIG_MAX_KEYLEN ∨ key_len = 0 then MMCONFIG_ERR_INVALID_KEY
  else if !(match key[0]? with | some c => isalpha c | none => false) then
    MMCONFIG_ERR_INVALID_KEY
  else validateRest key_len (key.drop 1) 1

/-- An entry of the table `mm_configs`; `none` is a `NULL` pointer. -/
structure config_entry_t where
  key : Option (List Char)
  value : Option (List Char)

/-- The loop of `mmconfig_read_data` over the table: it ends at the first entry with a
`NULL` key or value.  The result is the index-independent outcome: the bytes count
`strlen(value) + 1` and the value found, or `none`. -/
def findEntry (key : List Char) : List config_entry_t → Option (Nat × List Char)
  | [] => none
  | e :: es =>
    match e.key, e.value with
    | some k, some v => if key = k then some (v.length + 1, v) else findEntry key es
    | _, _ => none

/-- What `mmconfig_read_data` hands back: a negative error code, or the number of
bytes read together with the data that `*data` then points to. -/
inductive ReadResult where
  | error (code : MMConfigStatus)
  | found (bytes : Nat) (data : List Char)
  deriving DecidableEq, Repr

/-- Model of `mmconfig_read_data(key, data)`. -/
def mmconfig_read_data (MMCONFIG_MAX_KEYLEN : Nat) (mm_configs : List config_entry_t)
    (key : List Char) : ReadResult :=
  if mmconfig_validate_key MMCONFIG_MAX_KEYLEN key ≠ MMCONFIG_OK then
    ReadResult.error MMCONFIG_ERR_INVALID_KEY
  else
    match findEntry key mm_configs with
    | some (bytes, data) => ReadResult.found bytes data
    | none => ReadResult.error MMCONFIG_ERR_NOT_FOUND

/-- An entry of `configs.c`. -/
def entry (key value : String) : config_entry_t :=
  { key := some key.toList, value := some value.toList }

/-- The table `mm_configs` of `configs.c`, with its terminator. -/
def mm_configs : List config_entry_t :=
  [entry "iperf.mode" "udp_server",
   entry "iperf.server" "192.168.1.1",
   entry "iperf.port" "5001",
   entry "iperf.amount" "-10",
   entry "ping.target" "192.168.1.1",
   entry "ping.count" "10",
   entry "ping.interval" "1000",
   entry "ping.size" "56",
   entry "ping.post_ping_delay_ms" "60",
   entry "wlan.wnm_sleep_duration_ms" "20000",
   entry "wlan.ssid" "MorseMicro",
   entry "wlan.password" "12345678",
   entry "wlan.security" "sae",
   entry "wlan.country_code" "US",
   entry "ip.dhcp_enabled" "true",
   entry "ip.ip_addr" "192.168.1.2",
   entry "ip.netmask" "255.255.255.0",
   entry "ip.gateway" "192.168.1.1",
   entry "ip6.autoconfig" "true",
   { key := none, value := none }]

end MMConfig

namespace Shim

/-! # `morselib/with_wpa_supplicant/src/shim_freertos` -/

/-! ## `gettimeofday.c` -/

/-- The fields of `struct timeval` that `_gettimeofday` sets. -/
structure timeval where
  tv_sec : Int
  tv_usec : Int
  deriving DecidableEq, Repr

/-- The conversion of a `uint32_t` to `int` on the target (two's complement). -/
def int_of_uint32 (u : Nat) : Int :=
  if u % 4294967296 < 2147483648 then (u % 4294967296 : Nat)
  else ((u % 4294967296 : Nat) : Int) - 4294967296

/-- Model of `_gettimeofday(tv, ptz)`.  `t` is the value that `mmosal_get_time_ms`
returns, `tv` is `none` for a `NULL` pointer; the result is the return value and the
structure behind `tv` after the call.  The division and the remainder of `int` round
towards zero. -/
def _gettimeofday (t : Nat) (tv : Option timeval) : Int × Option timeval :=
  let time_ms : Int := int_of_uint32 t
  match tv with
  | some _ =>
    (0, some { tv_sec := Int.tdiv time_ms 1000, tv_usec := Int.tmod time_ms 1000 * 1000 })
  | none => (-1, none)

/-! ## `mmhal_wlan_binaries.c` -/

/-- The fields of `struct mmhal_robuf`; `none` is a `NULL` pointer. -/
structure mmhal_robuf where
  buf : Option Nat
  len : Nat
  free_arg : Option Nat
  free_cb : Option Nat
  deriving DecidableEq, Repr

/-- The binaries linked into the image (their addresses and lengths are parameters)
and the static variables `bcf_data`, `bcf_length`. -/
structure Binaries where
  BCF_DATA_3V3 : Nat
  BCF_DATA_3V3_LEN : Nat
  BCF_DATA_4V3 : Nat
  BCF_DATA_4V3_LEN : Nat
  fw_mm6108 : Nat
  fw_mm6108_len : Nat
  bcf_data : Option Nat
  bcf_length : Nat
  printed : List String
  deriving DecidableEq, Repr

/-- Model of `select_bcf_3v3`. -/
def select_bcf_3v3 (b : Binaries) : Binaries :=
  { b with bcf_data := some b.BCF_DATA_3V3, bcf_length := b.BCF_DATA_3V3_LEN % 4294967296 }

/-- Model of `select_bcf_4v3`. -/
def select_bcf_4v3 (b : Binaries) : Binaries :=
  { b with bcf_data := some b.BCF_DATA_4V3, bcf_length := b.BCF_DATA_4V3_LEN % 4294967296 }

/-- Model of `printf(msg)`. -/
def printf (msg : String) (b : Binaries) : Binaries :=
  { b with printed := b.printed ++ [msg] }

/-- Model of `mmhal_wlan_read_bcf_file(offset, requested_len, robuf)`; the `robuf`
argument is the structure before the call, the result holds it after the call. -/
def mmhal_wlan_read_bcf_file (offset requested_len : Nat) (robuf : mmhal_robuf)
    (b : Binaries) : mmhal_robuf × Binaries :=
  let robuf1 : mmhal_robuf := { robuf with buf := none }
  let robuf2 : mmhal_robuf := { robuf1 with len := 0 }
  let robuf3 : mmhal_robuf := { robuf2 with free_arg := none }
  let robuf4 : mmhal_robuf := { robuf3 with free_cb := none }
  let b1 := if b.bcf_data = none then select_bcf_3v3 b else b
  if b1.bcf_length < offset then
    (robuf4, printf "Detected an attempt to start reading off the end of the bcf file.\n" b1)
  else
    let robuf5 : mmhal_robuf := { robuf4 with buf := b1.bcf_data.map (fun p => p + offset) }
    let robuf6 : mmhal_robuf := { robuf5 with len := b1.bcf_length - offset }
    let robuf7 : mmhal_robuf :=
      { robuf6 with len := if robuf6.len < requested_len then robuf6.len else requested_len }
    (robuf7, b1)

/-- Model of `mmhal_wlan_read_fw_file(offset, requested_len, robuf)`. -/
def mmhal_wlan_read_fw_file (offset requested_len : Nat) (robuf : mmhal_robuf)
    (b : Binaries) : mmhal_robuf × Binaries :=
  let firmware_len := b.fw_mm6108_len % 4294967296
  if offset > firmware_len then
    let b1 := printf "Detected an attempt to start read off the end of the firmware file.\n" b
    ({ robuf with buf := none }, b1)
  else
    let robuf1 : mmhal_robuf := { robuf with buf := some (b.fw_mm6108 + offset) }
    let firmware_len := firmware_len - offset
    ({ robuf1 with len := if firmware_len < requested_len then firmware_len else requested_len },
      b)

/-- A linked image with a firmware file of 100 bytes and board configuration files
of 50 and 60 bytes; no file has been selected yet. -/
def demoBinaries : Binaries :=
  { BCF_DATA_3V3 := 0x08010000, BCF_DATA_3V3_LEN := 50
    BCF_DATA_4V3 := 0x08011000, BCF_DATA_4V3_LEN := 60
    fw_mm6108 := 0x08020000, fw_mm6108_len := 100
    bcf_data := none, bcf_length := 0, printed := [] }

/-- A buffer descriptor left over from an earlier read of 5 bytes. -/
def usedRobuf : mmhal_robuf :=
  { buf := some 0x08020000, len := 5, free_arg := none, free_cb := none }

end Shim

namespace EKH05

/-! ## `ekh05_camera.c`: the level setters -/

/-- The levels that `Camera_Ctx[Instance]` keeps. -/
structure CAMERA_Ctx_t where
  Brightness : Int
  Saturation : Int
  Contrast : Int
  HueDegree : Int
  deriving DecidableEq, Repr

/-- The flags of `Camera_Cap` that the level setters test. -/
structure CAMERA_Capabilities_t where
  Brightness : Nat
  Saturation : Nat
  Contrast : Nat
  HueDegree : Nat
  deriving DecidableEq, Repr

/-- A call of the sensor driver through `Camera_Drv`, with the level passed. -/
inductive DrvCall where
  | SetBrightness (level : Int)
  | SetSaturation (level : Int)
  | SetContrast (level : Int)
  | SetHueDegree (level : Int)
  deriving DecidableEq, Repr

/-- The camera side of the board support package: the constants of `ekh05_camera.h`
(not part of the sources, hence parameters), the globals `Camera_Cap` and
`Camera_Ctx`, and the sensor driver, whose results come from the environment and
whose calls are logged. -/
structure Camera where
  CAMERA_INSTANCES_NBR : Nat
  CAMERA_BRIGHTNESS_MIN : Int
  CAMERA_BRIGHTNESS_MAX : Int
  CAMERA_SATURATION_MIN : Int
  CAMERA_SATURATION_MAX : Int
  CAMERA_CONTRAST_MIN : Int
  CAMERA_CONTRAST_MAX : Int
  CAMERA_HUEDEGREE_MIN : Int
  CAMERA_HUEDEGREE_MAX : Int
  Camera_Cap : CAMERA_Capabilities_t
  Camera_Ctx : Nat → CAMERA_Ctx_t
  drvResult : Nat → Int
  drvCalls : List DrvCall

/-- A call of a driver function: its result comes from the environment. -/
def Camera.drv (c : Camera) (call : DrvCall) : Int × Camera :=
  (c.drvResult c.drvCalls.length, { c with drvCalls := c.drvCalls ++ [call] })

/-- Model of `BSP_CAMERA_SetBrightness(Instance, Brightness)`. -/
def BSP_CAMERA_SetBrightness (Instance : Nat) (Brightness : Int) (c : Camera) :
    BSP_Status × Camera :=
  if Instance ≥ c.CAMERA_INSTANCES_NBR ∨
      (Brightness < c.CAMERA_BRIGHTNESS_MIN ∧ Brightness > c.CAMERA_BRIGHTNESS_MAX) then
    (BSP_Status.BSP_ERROR_WRONG_PARAM, c)
  else if c.Camera_Cap.Brightness = 0 then (BSP_Status.BSP_ERROR_FEATURE_NOT_SUPPORTED, c)
  else
    let (r, c1) := c.drv (DrvCall.SetBrightness Brightness)
    if r < 0 then (BSP_Status.BSP_ERROR_COMPONENT_FAILURE, c1)
    else
      (BSP_Status.BSP_ERROR_NONE,
        { c1 with Camera_Ctx := fun i =>
            if i = Instance then { c1.Camera_Ctx i with Brightness := Brightness }
            else c1.Camera_Ctx i })

/-- Model of `BSP_CAMERA_SetSaturation(Instance, Saturation)`. -/
def BSP_CAMERA_SetSaturation (Instance : Nat) (Saturation : Int) (c : Camera) :
    BSP_Status × Camera :=
  if Instance ≥ c.CAMERA_INSTANCES_NBR ∨
      (Saturation < c.CAMERA_SATURATION_MIN ∧ Saturation > c.CAMERA_SATURATION_MAX) then
    (BSP_Status.BSP_ERROR_WRONG_PARAM, c)
  else if c.Camera_Cap.Saturation = 0 then (BSP_Status.BSP_ERROR_FEATURE_NOT_SUPPORTED, c)
  else
    let (r, c1) := c.drv (DrvCall.SetSaturation Saturation)
    if r < 0 then (BSP_Status.BSP_ERROR_COMPONENT_FAILURE, c1)
    else
      (BSP_Status.BSP_ERROR_NONE,
        { c1 with Camera_Ctx := fun i =>
            if i = Instance then { c1.Camera_Ctx i with Saturation := Saturation }
            else c1.Camera_Ctx i })

/-- Model of `BSP_CAMERA_SetContrast(Instance, Contrast)`. -/
def BSP_CAMERA_SetContrast (Instance : Nat) (Contrast : Int) (c : Camera) :
    BSP_Status × Camera :=
  if Instance ≥ c.CAMERA_INSTANCES_NBR ∨
      (Contrast < c.CAMERA_CONTRAST_MIN ∧ Contrast > c.CAMERA_CONTRAST_MAX) then
    (BSP_Status.BSP_ERROR_WRONG_PARAM, c)
  else if c.Camera_Cap.Contrast = 0 then (BSP_Status.BSP_ERROR_FEATURE_NOT_SUPPORTED, c)
  else
    let (r, c1) := c.drv (DrvCall.SetContrast Contrast)
    if r < 0 then (BSP_Status.BSP_ERROR_COMPONENT_FAILURE, c1)
    else
      (BSP_Status.BSP_ERROR_NONE,
        { c1 with Camera_Ctx := fun i =>
            if i = Instance then { c1.Camera_Ctx i with Contrast := Contrast }
            else c1.Camera_Ctx i })

/-- Model of `BSP_CAMERA_SetHueDegree(Instance, HueDegree)`. -/
def BSP_CAMERA_SetHueDegree (Instance : Nat) (HueDegree : Int) (c : Camera) :
    BSP_Status × Camera :=
  if Instance ≥ c.CAMERA_INSTANCES_NBR ∨
      (HueDegree < c.CAMERA_HUEDEGREE_MIN ∧ HueDegree > c.CAMERA_HUEDEGREE_MAX) then
    (BSP_Status.BSP_ERROR_WRONG_PARAM, c)
  else if c.Camera_Cap.HueDegree = 0 then (BSP_Status.BSP_ERROR_FEATURE_NOT_SUPPORTED, c)
  else
    let (r, c1) := c.drv (DrvCall.SetHueDegree HueDegree)
    if r < 0 then (BSP_Status.BSP_ERROR_COMPONENT_FAILURE, c1)
    else
      (BSP_Status.BSP_ERROR_NONE,
        { c1 with Camera_Ctx := fun i =>
            if i = Instance then { c1.Camera_Ctx i with HueDegree := HueDegree }
            else c1.Camera_Ctx i })

/-- A camera with one instance, the documented ranges -4..4, every feature
supported, all levels 0 and a sensor driver that always succeeds. -/
def demoCamera : Camera :=
  { CAMERA_INSTANCES_NBR := 1
    CAMERA_BRIGHTNESS_MIN := -4, CAMERA_BRIGHTNESS_MAX := 4
    CAMERA_SATURATION_MIN := -4, CAMERA_SATURATION_MAX := 4
    CAMERA_CONTRAST_MIN := -4, CAMERA_CONTRAST_MAX := 4
    CAMERA_HUEDEGREE_MIN := -4, CAMERA_HUEDEGREE_MAX := 4
    Camera_Cap := { Brightness := 1, Saturation := 1, Contrast := 1, HueDegree := 1 }
    Camera_Ctx := fun _ => { Brightness := 0, Saturation := 0, Contrast := 0, HueDegree := 0 }
    drvResult := fun _ => 0
    drvCalls := [] }

/-! ## `shared_buffer.c` -/

/-- The macro `BUFFER_SIZE`. -/
def BUFFER_SIZE : Nat := 512

/-- A `SharedBuffer` in memory.  `buffer i` is the byte at offset `i` from the start of
the array `buffer`; offsets from `BUFFER_SIZE` on are the bytes that follow the array
in memory.  `writes` logs every store to the array as the pair of its first offset
and its number of bytes.  The results of the semaphore waits come from the
environment. -/
structure SharedBuffer where
  buffer : Nat → Nat
  currentIndex : Int
  semResult : Nat → Bool
  semCalls : Nat
  writes : List (Nat × Nat)

/-- Model of `shared_buffer_lock`. -/
def shared_buffer_lock (buf : SharedBuffer) : Bool × SharedBuffer :=
  (buf.semResult buf.semCalls, { buf with semCalls := buf.semCalls + 1 })

/-- Model of `shared_buffer_unlock`; giving the semaphore changes nothing that the
model keeps. -/
def shared_buffer_unlock (buf : SharedBuffer) : SharedBuffer :=
  buf

/-- Stores `data` from offset `start` on in the array. -/
def SharedBuffer.store (buf : SharedBuffer) (start : Nat) (data : List Nat) : SharedBuffer :=
  { buf with
    buffer := fun i =>
      if start ≤ i ∧ i < start + data.length then data.getD (i - start) 0 else buf.buffer i
    writes := buf.writes ++ [(start, data.length)] }

/-- Model of `shared_buffer_reset`. -/
def shared_buffer_reset (buf : SharedBuffer) : SharedBuffer :=
  let (locked, b1) := shared_buffer_lock buf
  if locked then
    let b2 := b1.store 0 [0]
    let b3 := { b2 with currentIndex := 0 }
    shared_buffer_unlock b3
  else b1

/-- Model of `shared_buffer_init`; the semaphore it creates is not modelled. -/
def shared_buffer_init (buf : SharedBuffer) : SharedBuffer :=
  let b1 := { buf with currentIndex := 0 }
  let b2 := shared_buffer_unlock b1
  b2.store 0 (List.replicate BUFFER_SIZE 0)

/-- The C library's `strlen` on the array: the offset of the first NUL among the first
`fuel` offsets from `i` on, `none` if there is none. -/
def strlenFrom (mem : Nat → Nat) : (fuel : Nat) → (i : Nat) → Option Nat
  | 0, _ => none
  | fuel + 1, i => if mem i = 0 then some i else strlenFrom mem fuel (i + 1)

/-- The C library's `strcat(buf->buffer, new_data)`: the bytes of `new_data` and a
NUL are stored from the first NUL of the array on.  The search for that NUL looks at
`2 * BUFFER_SIZE` offsets; `none` means it found none. -/
def strcat (buf : SharedBuffer) (new_data : List Nat) : Option SharedBuffer :=
  match strlenFrom buf.buffer (2 * BUFFER_SIZE) 0 with
  | none => none
  | some n => some (buf.store n (new_data ++ [0]))

/-- Model of `shared_buffer_append(buf, new_data)`; `new_data` is the list of the
bytes before the terminating NUL.  `none` means that `strcat` found no NUL. -/
def shared_buffer_append (new_data : List Nat) (buf : SharedBuffer) :
    Option (Bool × SharedBuffer) :=
  let new_data_len : Int := new_data.length
  if new_data_len = 0 then some (true, buf)
  else if new_data_len > (BUFFER_SIZE : Int) - buf.currentIndex then some (false, buf)
  else
    let (locked, b1) := shared_buffer_lock buf
    if locked then
      match strcat b1 new_data with
      | none => none
      | some b2 =>
        let b3 := { b2 with currentIndex := b2.currentIndex + new_data_len }
        let b4 := b3.store b3.currentIndex.toNat [0]
        some (true, shared_buffer_unlock b4)
    else some (true, b1)

/-- A buffer before `shared_buffer_init`: arbitrary content, every wait succeeds. -/
def rawBuffer : SharedBuffer :=
  { buffer := fun _ => 0xAA, currentIndex := 77, semResult := fun _ => true, semCalls := 0
    writes := [] }

/-- The macro `JPEG_BUFFER_SIZE` of `main.h`, the size of `JPEG_buffer`. -/
def JPEG_BUFFER_SIZE : Nat := 32 * 1024

/-- The demo world with a live length of 40000 bytes, above the 32768 bytes of the
capture buffer, in which the first semaphore wait times out. -/
def oversizeWorld : World :=
  { demoWorld 40000 with semResult := fun _ => false }

/-! ## The commands sent to the flash -/

/-- The address and the length of a page-program command: a `HAL_OSPI_Command` with
the instruction `QUAD_IN_FAST_PROG_CMD` and an address phase. -/
def Event.pageProgram : Event → Option (Nat × Nat)
  | Event.command c _ =>
    if c.OperationType = OperationType.COMMON_CFG ∧ c.Instruction = QUAD_IN_FAST_PROG_CMD ∧
        c.AddressMode = AddressMode.ADDRESS_1_LINE then some (c.Address, c.NbData)
    else none
  | _ => none

/-- An erase command: a `HAL_OSPI_Command` with a block-erase or sector-erase
instruction and an address phase. -/
def Event.isEraseCmd : Event → Bool
  | Event.command c _ =>
    decide (c.OperationType = OperationType.COMMON_CFG ∧
      (c.Instruction = BLOCK_64K_ERASE_CMD ∨ c.Instruction = SUBSECTOR_ERASE_CMD) ∧
      c.AddressMode = AddressMode.ADDRESS_1_LINE)
  | _ => false

/-- The write-enable command that `QSPI_WriteEnable` sends. -/
def Event.isWriteEnableCmd : Event → Bool
  | Event.command c _ =>
    decide (c.OperationType = OperationType.COMMON_CFG ∧ c.Instruction = WRITE_ENABLE_CMD)
  | _ => false

/-- The status-register read that starts a status poll. -/
def Event.isStatusReadCmd : Event → Bool
  | Event.command c _ =>
    decide (c.OperationType = OperationType.COMMON_CFG ∧ c.Instruction = READ_STATUS_REG_CMD)
  | _ => false

/-- Any `HAL_OSPI_Command`. -/
def Event.isCommand : Event → Bool
  | Event.command _ _ => true
  | _ => false

/-- The page-program commands of a log, in order, as pairs of address and length. -/
def programs (es : List Event) : List (Nat × Nat) :=
  es.filterMap Event.pageProgram

/-- One step of the check that every erase and page-program command is immediately
preceded by a write-enable.  Only the commands sent to the flash count, and the
status-register reads of the polls are left out.  `armed` tells whether the last
command before this event was a write-enable; an erase or page program needs
`armed` and uses it up; `none` means the check failed. -/
def weStep (armed : Bool) (e : Event) : Option Bool :=
  if e.isWriteEnableCmd then some true
  else if e.isStatusReadCmd then some armed
  else if e.isEraseCmd ∨ e.pageProgram.isSome then (if armed then some false else none)
  else if e.isCommand then some false
  else some armed

/-- The check over a log. -/
def weRun : Bool → List Event → Option Bool
  | armed, [] => some armed
  | armed, e :: es =>
    match weStep armed e with
    | none => none
    | some armed1 => weRun armed1 es

/-- The 256-byte pages that hold `r` bytes from the page-aligned address `a` on, as
pairs of address and length: `r / 256` full pages and, if `r` is not a multiple of
256, a last shorter one. -/
def pagesFrom (a r : Nat) : List (Nat × Nat) :=
  (List.range (r / 256)).map (fun k => (a + 256 * k, 256)) ++
    (if r % 256 = 0 then [] else [(a + 256 * (r / 256), r % 256)])

/-- The page programs that store an image of `n` bytes: the 4-byte header at address
0, the first 252 bytes from address 4 on, and the rest page by page. -/
def imagePages (n : Nat) : List (Nat × Nat) :=
  (0, 4) :: (4, 252) :: pagesFrom 256 (n - 252)

/-- Each command of the list starts where the one before it ended, the first at
`x`. -/
def contiguousFrom : Nat → List (Nat × Nat) → Prop
  | _, [] => True
  | x, (a, len) :: t => a = x ∧ contiguousFrom (x + len) t

/-- World `w'` is reached from `w` by calls whose log passes the write-enable check
from state `a` to state `a'` and holds the page programs `L`; the environment and
the live length are left alone. -/
structure Pages (a a' : Bool) (L : List (Nat × Nat)) (w w' : World) : Prop where
  halResult : w'.halResult = w.halResult
  size : w'.image_data_size = w.image_data_size
  trace : ∃ es, w'.trace = w.trace ++ es ∧ weRun a es = some a' ∧ programs es = L

/-- An event that the write-enable check passes over: no command, or a
status-register read. -/
def Event.keepsArmed (e : Event) : Bool :=
  !e.isCommand || e.isStatusReadCmd

/-- A command that is neither an erase nor a page program. -/
def Event.isHarmless (e : Event) : Bool :=
  !(e.isEraseCmd || e.pageProgram.isSome)

/-- An erase or a page-program command. -/
def Event.needsWriteEnable (e : Event) : Bool :=
  e.isEraseCmd || e.pageProgram.isSome

/-- The commands of a log that are sent to the flash, the status-register reads of the
polls left out. -/
def flashCommands (es : List Event) : List Event :=
  es.filter (fun e => e.isCommand && !e.isStatusReadCmd)

/-- In a sequence of flash commands, every erase and every page program comes directly
after a write-enable command: the first command is neither, and of two commands in a
row the second is an erase or program only if the first is a write-enable. -/
def WriteEnabled (cs : List Event) : Prop :=
  (∀ c ∈ cs.head?, c.needsWriteEnable = false) ∧
    List.Chain' (fun x y => y.needsWriteEnable = true → x.isWriteEnableCmd = true) cs

/-! # Theorems -/

/-! ## Composition of steps -/

theorem Steps.refl (Q : Event → Bool) (w : World) : Steps Q w w :=
  ⟨rfl, rfl, rfl, rfl, rfl, rfl, rfl, rfl, [], by simp, by simp⟩

theorem Steps.trans {Q : Event → Bool} {a b c : World} (h1 : Steps Q a b) (h2 : Steps Q b c) :
    Steps Q a c := by
  obtain ⟨e1, he1, hq1⟩ := h1.trace
  obtain ⟨e2, he2, hq2⟩ := h2.trace
  refine ⟨h2.halResult.trans h1.halResult, h2.semResult.trans h1.semResult,
    h2.semCalls.trans h1.semCalls, h2.jpegLock.trans h1.jpegLock, h2.qspiLock.trans h1.qspiLock,
    h2.size.trans h1.size, h2.ptr.trans h1.ptr, h2.ram.trans h1.ram, e1 ++ e2, ?_, ?_⟩
  · rw [he2, he1, List.append_assoc]
  · intro e he
    rcases List.mem_append.mp he with h | h
    · exact hq1 e h
    · exact hq2 e h

theorem Steps.mono {Q R : Event → Bool} {a b : World} (h : Steps Q a b)
    (hQR : ∀ e, Q e = true → R e = true) : Steps R a b := by
  obtain ⟨es, he, hq⟩ := h.trace
  exact ⟨h.halResult, h.semResult, h.semCalls, h.jpegLock, h.qspiLock, h.size, h.ptr, h.ram,
    es, he, fun e hm => hQR e (hq e hm)⟩

theorem Steps.log {Q : Event → Bool} (w : World) (e : Event) (h : Q e = true) :
    Steps Q w (w.log e) :=
  ⟨rfl, rfl, rfl, rfl, rfl, rfl, rfl, rfl, [e], rfl, by simpa using h⟩

theorem printf_steps {Q : Event → Bool} (msg : String) (w : World)
    (h : Q (Event.printf msg) = true) : Steps Q w (printf msg w) :=
  Steps.log w _ h

theorem mmosal_task_sleep_steps {Q : Event → Bool} (ms : Nat) (w : World)
    (h : Q (Event.sleep ms) = true) : Steps Q w (mmosal_task_sleep ms w) :=
  Steps.log w _ h

theorem set_CCR_steps {Q : Event → Bool} (a b c : Nat) (w : World)
    (h : ∀ ch v, Q (Event.ccr ch v) = true) : Steps Q w (set_CCR a b c w) :=
  ((Steps.log w _ (h 1 a)).trans (Steps.log _ _ (h 2 b))).trans (Steps.log _ _ (h 3 c))

theorem HAL_OSPI_Command_steps {Q : Event → Bool} (cmd : OSPI_RegularCmdTypeDef) (w : World)
    (h : ∀ st, Q (Event.command cmd st) = true) : Steps Q w (HAL_OSPI_Command cmd w).2 :=
  ⟨rfl, rfl, rfl, rfl, rfl, rfl, rfl, rfl, [_], rfl, by simpa using h _⟩

theorem HAL_OSPI_AutoPolling_steps {Q : Event → Bool} (m k i : Nat) (w : World)
    (h : ∀ st, Q (Event.autopoll m k i st) = true) : Steps Q w (HAL_OSPI_AutoPolling m k i w).2 :=
  ⟨rfl, rfl, rfl, rfl, rfl, rfl, rfl, rfl, [_], rfl, by simpa using h _⟩

theorem HAL_OSPI_Transmit_steps {Q : Event → Bool} (pData : Nat → Nat) (w : World)
    (h : ∀ d st, Q (Event.transmit d st) = true) : Steps Q w (HAL_OSPI_Transmit pData w).2 :=
  ⟨rfl, rfl, rfl, rfl, rfl, rfl, rfl, rfl, [_], rfl, by simpa using h _ _⟩

theorem HAL_OSPI_MemoryMapped_steps {Q : Event → Bool} (w : World)
    (h : ∀ st, Q (Event.memmap st) = true) : Steps Q w (HAL_OSPI_MemoryMapped w).2 :=
  ⟨rfl, rfl, rfl, rfl, rfl, rfl, rfl, rfl, [_], rfl, by simpa using h _⟩

theorem HAL_OSPI_Abort_steps {Q : Event → Bool} (w : World)
    (h : ∀ st, Q (Event.abort st) = true) : Steps Q w (HAL_OSPI_Abort w).2 :=
  ⟨rfl, rfl, rfl, rfl, rfl, rfl, rfl, rfl, [_], rfl, by simpa using h _⟩

theorem OSPI_AutoPoll_steps {Q : Event → Bool} (hQ : AllowsPoll Q) (mask matchv : Nat)
    (w : World) : Steps Q w (OSPI_AutoPoll READ_STATUS_REG_CMD mask matchv w).2 := by
  have h1 := HAL_OSPI_Command_steps (pollCmd READ_STATUS_REG_CMD) w hQ.1
  have h2 := HAL_OSPI_AutoPolling_steps matchv mask AUTO_POLLING_INTERVAL
    (HAL_OSPI_Command (pollCmd READ_STATUS_REG_CMD) w).2 (hQ.2 _ _)
  unfold OSPI_AutoPoll
  simp only []
  split
  · exact h1
  · split
    · exact h1.trans h2
    · exact h1.trans h2

theorem OSPI_AutoPollMemoryReady_steps {Q : Event → Bool} (hQ : AllowsPoll Q) (w : World) :
    Steps Q w (OSPI_AutoPollMemoryReady w).2 :=
  OSPI_AutoPoll_steps hQ _ _ w

theorem OSPI_AutoPollWriteEnable_steps {Q : Event → Bool} (hQ : AllowsPoll Q) (w : World) :
    Steps Q w (OSPI_AutoPollWriteEnable w).2 :=
  OSPI_AutoPoll_steps hQ _ _ w

theorem QSPI_WriteEnable_steps {Q : Event → Bool} (hQ : AllowsPoll Q)
    (hc : ∀ st, Q (Event.command (plainCmd WRITE_ENABLE_CMD) st) = true) (w : World) :
    Steps Q w (QSPI_WriteEnable w).2 := by
  have h1 := HAL_OSPI_Command_steps (plainCmd WRITE_ENABLE_CMD) w hc
  have h2 := OSPI_AutoPollWriteEnable_steps hQ (HAL_OSPI_Command (plainCmd WRITE_ENABLE_CMD) w).2
  unfold QSPI_WriteEnable
  simp only []
  split
  · exact h1
  · split
    · exact h1.trans h2
    · exact h1.trans h2

theorem QSPI_BlockSectorErase_steps {Q : Event → Bool} (hQ : AllowsPoll Q) (a : Nat)
    (hc : ∀ st, Q (Event.command (eraseCmd BLOCK_64K_ERASE_CMD a) st) = true) (w : World) :
    Steps Q w (QSPI_BlockSectorErase a w).2 := by
  have h1 := HAL_OSPI_Command_steps (eraseCmd BLOCK_64K_ERASE_CMD a) w hc
  have h2 := OSPI_AutoPollMemoryReady_steps hQ
    (HAL_OSPI_Command (eraseCmd BLOCK_64K_ERASE_CMD a) w).2
  unfold QSPI_BlockSectorErase
  simp only []
  split
  · exact h1
  · split
    · exact h1.trans h2
    · exact h1.trans h2

theorem QSPI_ProgramPage_steps {Q : Event → Bool} (hQ : AllowsPoll Q) (a len : Nat)
    (data : Nat → Nat) (hc : ∀ st, Q (Event.command (programCmd a len) st) = true)
    (ht : ∀ d st, Q (Event.transmit d st) = true) (w : World) :
    Steps Q w (QSPI_ProgramPage a data len w).2 := by
  have h1 := HAL_OSPI_Command_steps (programCmd a len) w hc
  have h2 := HAL_OSPI_Transmit_steps data (HAL_OSPI_Command (programCmd a len) w).2 ht
  have h3 := OSPI_AutoPollMemoryReady_steps hQ
    (HAL_OSPI_Transmit data (HAL_OSPI_Command (programCmd a len) w).2).2
  unfold QSPI_ProgramPage
  simp only []
  split
  · exact h1
  · split
    · exact h1.trans h2
    · split
      · exact (h1.trans h2).trans h3
      · exact (h1.trans h2).trans h3

theorem AllowsRestore.poll {Q : Event → Bool} (hQ : AllowsRestore Q) : AllowsPoll Q :=
  ⟨fun st => hQ.command _ st, fun m k st => hQ.autopoll m k _ st⟩

theorem AllowsRestore.init {Q : Event → Bool} (hQ : AllowsRestore Q) : AllowsInit Q :=
  ⟨hQ.poll, fun _ st => hQ.command _ st, fun st => hQ.command _ st, hQ.transmit⟩

/-- What `OSPI_ResetChip` does after its reset-enable command. -/
theorem OSPI_ResetChip_tail {Q : Event → Bool} (hQ : AllowsInit Q) (w : World) :
    Steps Q (HAL_OSPI_Command (plainCmd RESET_ENABLE_CMD) w).2 (OSPI_ResetChip w).2 := by
  have h2 := HAL_OSPI_Command_steps (plainCmd RESET_MEMORY_CMD)
    (HAL_OSPI_Command (plainCmd RESET_ENABLE_CMD) w).2 (hQ.plain _)
  have h3 := OSPI_AutoPollMemoryReady_steps hQ.poll
    (HAL_OSPI_Command (plainCmd RESET_MEMORY_CMD)
      (HAL_OSPI_Command (plainCmd RESET_ENABLE_CMD) w).2).2
  unfold OSPI_ResetChip
  simp only []
  split
  · exact Steps.refl _ _
  · split
    · exact h2
    · split
      · exact h2.trans h3
      · exact h2.trans h3

theorem OSPI_ResetChip_steps {Q : Event → Bool} (hQ : AllowsInit Q) (w : World) :
    Steps Q w (OSPI_ResetChip w).2 :=
  (HAL_OSPI_Command_steps (plainCmd RESET_ENABLE_CMD) w (hQ.plain _)).trans
    (OSPI_ResetChip_tail hQ w)

theorem QSPI_Configuration_steps {Q : Event → Bool} (hQ : AllowsInit Q) (w : World) :
    Steps Q w (QSPI_Configuration w).2 := by
  unfold QSPI_Configuration
  have h0 := QSPI_WriteEnable_steps hQ.poll (hQ.plain _) w
  rcases hA : QSPI_WriteEnable w with ⟨r0, w0⟩
  rw [hA] at h0
  simp only [] at h0 ⊢
  have h1 := HAL_OSPI_Command_steps writeStatusCmd w0 hQ.status
  rcases hB : HAL_OSPI_Command writeStatusCmd w0 with ⟨r1, w1⟩
  rw [hB] at h1
  simp only [] at h1 ⊢
  have h2 := HAL_OSPI_Transmit_steps (fun _ => 2) w1 hQ.transmit
  rcases hC : HAL_OSPI_Transmit (fun _ => 2) w1 with ⟨r2, w2⟩
  rw [hC] at h2
  simp only [] at h2 ⊢
  split
  · exact h0.trans h1
  · split
    · exact (h0.trans h1).trans h2
    · exact (h0.trans h1).trans h2

/-- What `QSPI_Init` does after `OSPI_ResetChip`. -/
theorem QSPI_Init_tail {Q : Event → Bool} (hQ : AllowsInit Q) (w : World) :
    Steps Q (OSPI_ResetChip w).2 (QSPI_Init w).2 := by
  unfold QSPI_Init
  rcases hA : OSPI_ResetChip w with ⟨r1, w1⟩
  simp only []
  have h2 := OSPI_AutoPollMemoryReady_steps hQ.poll w1
  rcases hB : OSPI_AutoPollMemoryReady w1 with ⟨r2, w2⟩
  rw [hB] at h2
  simp only [] at h2 ⊢
  have h3 := QSPI_WriteEnable_steps hQ.poll (hQ.plain _) w2
  rcases hC : QSPI_WriteEnable w2 with ⟨r3, w3⟩
  rw [hC] at h3
  simp only [] at h3 ⊢
  have h4 := QSPI_Configuration_steps hQ w3
  rcases hD : QSPI_Configuration w3 with ⟨r4, w4⟩
  rw [hD] at h4
  simp only [] at h4 ⊢
  split
  · exact Steps.refl _ _
  · split
    · exact h2
    · split
      · exact h2.trans h3
      · split
        · exact (h2.trans h3).trans h4
        · exact (h2.trans h3).trans h4

theorem QSPI_Init_steps {Q : Event → Bool} (hQ : AllowsInit Q) (w : World) :
    Steps Q w (QSPI_Init w).2 :=
  (OSPI_ResetChip_steps hQ w).trans (QSPI_Init_tail hQ w)

theorem QSPI_EnableMemoryMappedMode_steps {Q : Event → Bool} (hQ : AllowsRestore Q) (w : World) :
    Steps Q w (QSPI_EnableMemoryMappedMode w).2 := by
  have h1 := HAL_OSPI_Command_steps (memMapCmd OperationType.READ_CFG FAST_READ_QUAD_OUT_CMD 8)
    w (hQ.command _)
  have h2 := HAL_OSPI_Command_steps (memMapCmd OperationType.WRITE_CFG QUAD_IN_FAST_PROG_CMD 0)
    (HAL_OSPI_Command (memMapCmd OperationType.READ_CFG FAST_READ_QUAD_OUT_CMD 8) w).2
    (hQ.command _)
  have h3 := HAL_OSPI_MemoryMapped_steps
    (HAL_OSPI_Command (memMapCmd OperationType.WRITE_CFG QUAD_IN_FAST_PROG_CMD 0)
      (HAL_OSPI_Command (memMapCmd OperationType.READ_CFG FAST_READ_QUAD_OUT_CMD 8) w).2).2
    hQ.memmap
  unfold QSPI_EnableMemoryMappedMode
  simp only []
  split
  · exact h1
  · split
    · exact h1.trans h2
    · split
      · exact (h1.trans h2).trans h3
      · exact (h1.trans h2).trans h3

/-- The bus part of the restore step: `QSPI_Init`, then, only when it returned
`HAL_OK`, `QSPI_EnableMemoryMappedMode`, with the message of whichever failed. -/
theorem flash_image_cleanup_shape {Q : Event → Bool} (hQ : AllowsRestore Q) (b : Bool)
    (w : World) :
    ∃ w2, Steps Q w w2 ∧
      flash_image_cleanup b w =
        periphs_qspi_flash_unlock
          (if b then periphs_jpeg_buffer_unlock (set_CCR 0 0 0 w2) else set_CCR 0 0 0 w2) := by
  unfold flash_image_cleanup
  have h1 := QSPI_Init_steps hQ.init w
  rcases hA : QSPI_Init w with ⟨r1, w1⟩
  rw [hA] at h1
  simp only [] at h1 ⊢
  have h2 := QSPI_EnableMemoryMappedMode_steps hQ w1
  rcases hB : QSPI_EnableMemoryMappedMode w1 with ⟨r2, w2⟩
  rw [hB] at h2
  simp only [] at h2 ⊢
  by_cases hr1 : r1 = HAL_OK
  · by_cases hr2 : r2 = HAL_OK
    · refine ⟨w2, h1.trans h2, ?_⟩
      simp only [hr1, hr2, ne_eq, not_true_eq_false, if_false]
    · refine ⟨printf "QSPI map failed\n" w2,
        (h1.trans h2).trans (printf_steps _ _ (hQ.printf _)), ?_⟩
      simp only [hr1, hr2, ne_eq, not_true_eq_false, not_false_eq_true, if_false, if_true]
  · refine ⟨printf "QSPI init failed\n" w1, h1.trans (printf_steps _ _ (hQ.printf _)), ?_⟩
    simp only [hr1, ne_eq, not_false_eq_true, if_true]

/-- The page loop is left after at most `remaining_bytes / 256 + 1` iterations, always
through the restore step, and logs only what `Q` admits before it. -/
theorem save_image_loop_steps {Q : Event → Bool} (hQ : AllowsWrite Q) (p : Nat) :
    ∀ (fuel d r : Nat) (w : World), r / 256 + 2 ≤ fuel →
      ∃ w1, save_image_loop p fuel d r w = some (flash_image_cleanup true w1) ∧ Steps Q w w1 := by
  intro fuel
  induction fuel with
  | zero => intro d r w h; omega
  | succ fuel ih =>
    intro d r w hf
    unfold save_image_loop
    by_cases hr : r = 0
    · rw [if_pos hr]
      exact ⟨_, rfl, printf_steps _ _ (hQ.printf _)⟩
    · rw [if_neg hr]
      have h1 := QSPI_WriteEnable_steps hQ.poll hQ.writeEnable w
      rcases hWE : QSPI_WriteEnable w with ⟨r1, w1⟩
      rw [hWE] at h1
      simp only []
      have h2 : Steps Q w
          (if r1 ≠ HAL_OK then printf "[3] QSPI_WriteEnable failed.\n" w1 else w1) := by
        split
        · exact h1.trans (printf_steps _ _ (hQ.printf _))
        · exact h1
      generalize (if r1 ≠ HAL_OK then printf "[3] QSPI_WriteEnable failed.\n" w1 else w1) = w2
        at h2 ⊢
      by_cases hge : r ≥ 256
      · rw [if_pos hge]
        have h3 := QSPI_ProgramPage_steps hQ.poll ((4 + (d - p) % 4294967296) % 4294967296) 256
          (fun i => w2.ram (d + i)) (hQ.program _ _) hQ.transmit w2
        rcases hPP : QSPI_ProgramPage ((4 + (d - p) % 4294967296) % 4294967296)
          (fun i => w2.ram (d + i)) 256 w2 with ⟨r2, w3⟩
        rw [hPP] at h3
        simp only []
        split
        · exact ⟨_, rfl, (h2.trans h3).trans (printf_steps _ _ (hQ.printf _))⟩
        · obtain ⟨w4, h4, h5⟩ := ih (d + 256) (r - 256) (printf "." w3) (by omega)
          exact ⟨w4, h4, ((h2.trans h3).trans (printf_steps _ _ (hQ.printf _))).trans h5⟩
      · rw [if_neg hge]
        have h3 := QSPI_ProgramPage_steps hQ.poll ((4 + (d - p) % 4294967296) % 4294967296) r
          (fun i => w2.ram (d + i)) (hQ.program _ _) hQ.transmit w2
        rcases hPP : QSPI_ProgramPage ((4 + (d - p) % 4294967296) % 4294967296)
          (fun i => w2.ram (d + i)) r w2 with ⟨r2, w3⟩
        rw [hPP] at h3
        simp only []
        split
        · exact ⟨_, rfl, (h2.trans h3).trans (printf_steps _ _ (hQ.printf _))⟩
        · exact ⟨_, rfl, (h2.trans h3).trans (printf_steps _ _ (hQ.printf _))⟩

theorem if_printf_steps {Q : Event → Bool} (hQ : ∀ msg, Q (Event.printf msg) = true) (c : Prop) [Decidable c] (msg : String) (w : World) :
   Steps Q w (if c then printf msg w else w) := by
  split
  · exact printf_steps _ _ (hQ _)
  · exact Steps.refl _ _

theorem save_image_after_abort {Q : Event → Bool} (hQ : AllowsWrite Q) (w : World) (p : Nat)
    (hp : w.image_data_ptr = some p) (hlo : 256 ≤ w.image_data_size)
    (hhi : w.image_data_size ≤ 65532) (hJ : w.JPEG_buffer_lock = true)
    (hQl : w.QSPI_flash_lock = true) (hsJ : w.semResult w.semCalls = true)
    (hsQ : w.semResult (w.semCalls + 1) = true) (hab : w.halResult w.halCalls = HAL_OK) :
    ∃ w1, save_image w = some (flash_image_cleanup true w1) ∧ Steps Q (save_image_at_abort w HAL_OK) w1 := by
  have hLJ : periphs_jpeg_buffer_lock w = (true, { w with semCalls := w.semCalls + 1, trace := w.trace ++ [Event.semb_wait Sem.JPEG_buffer_lock true] }) := by
    simp [periphs_jpeg_buffer_lock, hJ, mmosal_semb_wait, hsJ]
  have hLQ : periphs_qspi_flash_lock { w with semCalls := w.semCalls + 1, trace := w.trace ++ [Event.semb_wait Sem.JPEG_buffer_lock true] } = (true, { w with semCalls := w.semCalls + 2, trace := w.trace ++ [Event.semb_wait Sem.JPEG_buffer_lock true, Event.semb_wait Sem.QSPI_flash_lock true] }) := by
    simp [periphs_qspi_flash_lock, hQl, mmosal_semb_wait, hsQ]
  have hAb : HAL_OSPI_Abort (set_CCR 1000 1000 1000 { w with semCalls := w.semCalls + 2, trace := w.trace ++ [Event.semb_wait Sem.JPEG_buffer_lock true, Event.semb_wait Sem.QSPI_flash_lock true] }) = (HAL_OK, save_image_at_abort w HAL_OK) := by
    simp [HAL_OSPI_Abort, set_CCR, World.log, hab, save_image_at_abort]
  have e1 : (periphs_jpeg_buffer_lock w).1 = true := by rw [hLJ]
  have e2 : (periphs_qspi_flash_lock (periphs_jpeg_buffer_lock w).2).1 = true := by
    rw [hLJ]; simp only []; rw [hLQ]
  have e3 : HAL_OSPI_Abort (set_CCR 1000 1000 1000
      (periphs_qspi_flash_lock (periphs_jpeg_buffer_lock w).2).2) =
      (HAL_OK, save_image_at_abort w HAL_OK) := by
    rw [hLJ]; simp only []; rw [hLQ]; simp only []; rw [hAb]
  clear hLJ hLQ hAb
  unfold save_image
  split
  · next hn => rw [hp] at hn; cases hn
  next p' hp' =>
  have hpp : p = p' := by rw [hp] at hp'; exact Option.some.inj hp'
  subst hpp
  rw [if_neg (by omega)]
  split
  next lj wj hLJ =>
  rw [hLJ] at e1 e2 e3
  simp only [] at e1 e2 e3
  subst e1
  rw [if_neg (by decide)]
  split
  next lq wq hLQ =>
  rw [hLQ] at e2 e3
  simp only [] at e2 e3
  subst e2
  rw [if_neg (by decide)]
  conv => zeta
  rw [e3]
  split
  next r1 wA' hA =>
  cases hA
  rw [if_neg (by decide)]
  generalize save_image_at_abort w HAL_OK = wA
  have s1 := QSPI_WriteEnable_steps hQ.poll hQ.writeEnable wA
  split
  next r2 w5 h1 =>
  rw [h1] at s1
  split
  · exact ⟨_, rfl, s1.trans (printf_steps _ _ (hQ.printf _))⟩
  have s2 := QSPI_BlockSectorErase_steps hQ.poll 0 hQ.erase w5
  split
  next r3 w6 h2 =>
  rw [h2] at s2
  split
  · exact ⟨_, rfl, (s1.trans s2).trans (printf_steps _ _ (hQ.printf _))⟩
  have s3 := QSPI_WriteEnable_steps hQ.poll hQ.writeEnable w6
  split
  next r4 w7 h3 =>
  rw [h3] at s3
  have s4 := if_printf_steps hQ.printf (r4 ≠ HAL_OK) "[1] QSPI_WriteEnable failed.\n" w7
  generalize (if r4 ≠ HAL_OK then printf "[1] QSPI_WriteEnable failed.\n" w7 else w7) = w8 at s4 ⊢
  have s5 := QSPI_ProgramPage_steps hQ.poll 0 4 (le32 w8.image_data_size) (hQ.program _ _) hQ.transmit w8
  split
  next r5 w9 h5 =>
  rw [h5] at s5
  have s6 := if_printf_steps hQ.printf (r5 ≠ HAL_OK) "[1] QSPI_ProgramPage failed.\n" w9
  generalize (if r5 ≠ HAL_OK then printf "[1] QSPI_ProgramPage failed.\n" w9 else w9) = w10 at s6 ⊢
  have s7 := printf_steps "Write %ld bytes from 0x%lx to external flash:" w10 (hQ.printf _)
  generalize printf "Write %ld bytes from 0x%lx to external flash:" w10 = w11 at s7 ⊢
  have s8 := QSPI_WriteEnable_steps hQ.poll hQ.writeEnable w11
  split
  next r6 w12 h8 =>
  rw [h8] at s8
  have s9 := if_printf_steps hQ.printf (r6 ≠ HAL_OK) "[2] QSPI_WriteEnable failed.\n" w12
  generalize (if r6 ≠ HAL_OK then printf "[2] QSPI_WriteEnable failed.\n" w12 else w12) = w13 at s9 ⊢
  have s10 := QSPI_ProgramPage_steps hQ.poll 4 (256 - 4) (fun i => w13.ram (p + i)) (hQ.program _ _) hQ.transmit w13
  split
  next r7 w14 h10 =>
  rw [h10] at s10
  have s11 := if_printf_steps hQ.printf (r7 ≠ HAL_OK) "[2] QSPI_ProgramPage failed.\n" w14
  generalize (if r7 ≠ HAL_OK then printf "[2] QSPI_ProgramPage failed.\n" w14 else w14) = w15 at s11 ⊢
  obtain ⟨w16, h16, s16⟩ := save_image_loop_steps hQ p
    ((p + w15.image_data_size + 4294967296 - (p + (256 - 4))) % 4294967296 / 256 + 2)
    (p + (256 - 4)) ((p + w15.image_data_size + 4294967296 - (p + (256 - 4))) % 4294967296) w15 (le_refl _)
  exact ⟨w16, h16, ((((((((((s1.trans s2).trans s3).trans s4).trans s5).trans s6).trans s7).trans s8).trans s9).trans s10).trans s11).trans s16⟩


/-! ## Runs in which every HAL call succeeds -/

theorem flashAfter_append (f : Flash) (t u : List Event) :
    flashAfter f (t ++ u) = flashAfter (flashAfter f t) u := by
  simp [flashAfter, List.foldl_append]

theorem AllOK.of_steps {Q : Event → Bool} {w w' : World} (h : AllOK w) (s : Steps Q w w') : AllOK w' := by
  intro k; rw [s.halResult]; exact h k

theorem QSPI_WriteEnable_ok (w : World) (h : AllOK w) :
    (QSPI_WriteEnable w).1 = HAL_OK ∧
    ∀ f, flashAfter f (QSPI_WriteEnable w).2.trace = { flashAfter f w.trace with pending := none } := by
  constructor
  · simp [QSPI_WriteEnable, HAL_OSPI_Command, OSPI_AutoPollWriteEnable, OSPI_AutoPoll,
      HAL_OSPI_AutoPolling, h _]
  · intro f
    simp [QSPI_WriteEnable, HAL_OSPI_Command, OSPI_AutoPollWriteEnable, OSPI_AutoPoll,
      HAL_OSPI_AutoPolling, h _, flashAfter_append]
    simp [flashAfter, Flash.step, plainCmd, pollCmd, WRITE_ENABLE_CMD, BLOCK_64K_ERASE_CMD, QUAD_IN_FAST_PROG_CMD, READ_STATUS_REG_CMD]

theorem QSPI_BlockSectorErase_ok (w : World) (h : AllOK w) :
    (QSPI_BlockSectorErase 0 w).1 = HAL_OK ∧
    ∀ f, flashAfter f (QSPI_BlockSectorErase 0 w).2.trace =
      { mem := fun a => if a / MEMORY_BLOCK_SIZE = 0 then 0xFF else (flashAfter f w.trace).mem a
        pending := none } := by
  constructor
  · simp [QSPI_BlockSectorErase, HAL_OSPI_Command, OSPI_AutoPollMemoryReady, OSPI_AutoPoll,
      HAL_OSPI_AutoPolling, h _]
  · intro f
    simp [QSPI_BlockSectorErase, HAL_OSPI_Command, OSPI_AutoPollMemoryReady, OSPI_AutoPoll,
      HAL_OSPI_AutoPolling, h _, flashAfter_append]
    simp [flashAfter, Flash.step, eraseCmd, pollCmd, BLOCK_64K_ERASE_CMD, QUAD_IN_FAST_PROG_CMD, READ_STATUS_REG_CMD, MEMORY_BLOCK_SIZE]

theorem QSPI_ProgramPage_ok (a len : Nat) (data : Nat → Nat) (w : World) (h : AllOK w) :
    (QSPI_ProgramPage a data len w).1 = HAL_OK ∧
    ∀ f, flashAfter f (QSPI_ProgramPage a data len w).2.trace =
      { mem := fun x => if a ≤ x ∧ x < a + len then data (x - a) else (flashAfter f w.trace).mem x
        pending := none } := by
  constructor
  · simp [QSPI_ProgramPage, HAL_OSPI_Command, HAL_OSPI_Transmit, OSPI_AutoPollMemoryReady, OSPI_AutoPoll,
      HAL_OSPI_AutoPolling, h _]
  · intro f
    simp [QSPI_ProgramPage, HAL_OSPI_Command, HAL_OSPI_Transmit, OSPI_AutoPollMemoryReady, OSPI_AutoPoll,
      HAL_OSPI_AutoPolling, h _, flashAfter_append]
    simp [flashAfter, Flash.step, programCmd, pollCmd, BLOCK_64K_ERASE_CMD, QUAD_IN_FAST_PROG_CMD, READ_STATUS_REG_CMD]
    funext x
    split
    · next hx => 
      rw [List.getElem?_range (by omega)]
      rfl
    · rfl



theorem OSPI_AutoPollMemoryReady_ok (w : World) (h : AllOK w) :
    (OSPI_AutoPollMemoryReady w).1 = HAL_OK ∧
    ∀ f, flashAfter f (OSPI_AutoPollMemoryReady w).2.trace =
      { flashAfter f w.trace with pending := none } := by
  constructor
  · simp [OSPI_AutoPollMemoryReady, OSPI_AutoPoll, HAL_OSPI_Command, HAL_OSPI_AutoPolling, h _]
  · intro f
    simp [OSPI_AutoPollMemoryReady, OSPI_AutoPoll, HAL_OSPI_Command, HAL_OSPI_AutoPolling, h _,
      flashAfter_append]
    simp [flashAfter, Flash.step, pollCmd, BLOCK_64K_ERASE_CMD, QUAD_IN_FAST_PROG_CMD,
      READ_STATUS_REG_CMD]

theorem QSPI_Init_ok (w : World) (h : AllOK w) :
    (QSPI_Init w).1 = HAL_OK ∧
    ∀ f, flashAfter f (QSPI_Init w).2.trace = { flashAfter f w.trace with pending := none } := by
  constructor
  · simp [QSPI_Init, OSPI_ResetChip, QSPI_Configuration, QSPI_WriteEnable, HAL_OSPI_Command, HAL_OSPI_Transmit, OSPI_AutoPollWriteEnable, OSPI_AutoPollMemoryReady, OSPI_AutoPoll,
      HAL_OSPI_AutoPolling, h _]
  · intro f
    simp [QSPI_Init, OSPI_ResetChip, QSPI_Configuration, QSPI_WriteEnable, HAL_OSPI_Command, HAL_OSPI_Transmit, OSPI_AutoPollWriteEnable, OSPI_AutoPollMemoryReady, OSPI_AutoPoll,
      HAL_OSPI_AutoPolling, h _, flashAfter_append]
    simp [flashAfter, Flash.step, plainCmd, pollCmd, writeStatusCmd, WRITE_ENABLE_CMD, BLOCK_64K_ERASE_CMD, QUAD_IN_FAST_PROG_CMD, READ_STATUS_REG_CMD, RESET_ENABLE_CMD, RESET_MEMORY_CMD, WRITE_STATUS_REG_CMD]

theorem QSPI_EnableMemoryMappedMode_ok (w : World) (h : AllOK w) :
    (QSPI_EnableMemoryMappedMode w).1 = HAL_OK ∧
    ∀ f, flashAfter f (QSPI_EnableMemoryMappedMode w).2.trace = { flashAfter f w.trace with pending := none } := by
  constructor
  · simp [QSPI_EnableMemoryMappedMode, HAL_OSPI_Command, HAL_OSPI_MemoryMapped, h _]
  · intro f
    simp [QSPI_EnableMemoryMappedMode, HAL_OSPI_Command, HAL_OSPI_MemoryMapped, h _, flashAfter_append]
    simp [flashAfter, Flash.step, memMapCmd, BLOCK_64K_ERASE_CMD, QUAD_IN_FAST_PROG_CMD]



theorem allowsRestore_true : AllowsRestore (fun _ => true) :=
  ⟨fun _ _ => rfl, fun _ _ _ _ => rfl, fun _ _ => rfl, fun _ => rfl, fun _ => rfl⟩

theorem allowsWrite_true : AllowsWrite (fun _ => true) :=
  ⟨⟨fun _ => rfl, fun _ _ _ => rfl⟩, fun _ => rfl, fun _ => rfl, fun _ _ _ => rfl,
    fun _ _ => rfl, fun _ => rfl, fun _ => rfl, fun _ _ => rfl⟩

theorem flashAfter_log (f : Flash) (w : World) (e : Event) (he : e.isBus = false) :
    flashAfter f (w.log e).trace = flashAfter f w.trace := by
  simp only [World.log, flashAfter_append]
  cases e <;> simp_all [flashAfter, Flash.step, Event.isBus]

theorem flashAfter_printf (f : Flash) (w : World) (msg : String) :
    flashAfter f (printf msg w).trace = flashAfter f w.trace :=
  flashAfter_log f w _ rfl

theorem flashAfter_set_CCR (f : Flash) (w : World) (a b c : Nat) :
    flashAfter f (set_CCR a b c w).trace = flashAfter f w.trace := by
  unfold set_CCR
  rw [flashAfter_log _ _ (Event.ccr 3 c) rfl, flashAfter_log _ _ (Event.ccr 2 b) rfl,
    flashAfter_log _ _ (Event.ccr 1 a) rfl]

theorem flashAfter_jpeg_unlock (f : Flash) (w : World) :
    flashAfter f (periphs_jpeg_buffer_unlock w).trace = flashAfter f w.trace := by
  unfold periphs_jpeg_buffer_unlock
  split
  · exact flashAfter_log f w _ rfl
  · rfl

theorem flashAfter_qspi_unlock (f : Flash) (w : World) :
    flashAfter f (periphs_qspi_flash_unlock w).trace = flashAfter f w.trace := by
  unfold periphs_qspi_flash_unlock
  split
  · exact flashAfter_log f w _ rfl
  · rfl

theorem flash_image_cleanup_ok (b : Bool) (w : World) (h : AllOK w) (f : Flash) :
    (flashAfter f (flash_image_cleanup b w).trace).mem = (flashAfter f w.trace).mem := by
  unfold flash_image_cleanup
  have h1 := QSPI_Init_ok w h
  have s1 := QSPI_Init_steps allowsRestore_true.init w
  rcases hA : QSPI_Init w with ⟨r1, w1⟩
  rw [hA] at h1 s1
  simp only [] at h1 s1 ⊢
  have h2 := QSPI_EnableMemoryMappedMode_ok w1 (h.of_steps s1)
  rcases hB : QSPI_EnableMemoryMappedMode w1 with ⟨r2, w2⟩
  rw [hB] at h2
  simp only [] at h2 ⊢
  rw [h1.1, h2.1]
  simp only [ne_eq, not_true_eq_false, if_false]
  rw [flashAfter_qspi_unlock]
  cases b
  · simp only [Bool.false_eq_true, if_false]
    rw [flashAfter_set_CCR, h2.2, h1.2]
  · simp only [if_true]
    rw [flashAfter_jpeg_unlock, flashAfter_set_CCR, h2.2, h1.2]

theorem save_image_loop_ok (ram : Nat → Nat) (p n : Nat) (hn : n ≤ 65532) :
    ∀ (fuel off r : Nat) (w : World), AllOK w → w.ram = ram → r / 256 + 2 ≤ fuel →
      off + r = n →
      ∃ w', save_image_loop p fuel (p + off) r w = some w' ∧
        ∀ f, Stored ram p n off (flashAfter f w.trace) →
          Stored ram p n n (flashAfter f w'.trace) := by
  intro fuel
  induction fuel with
  | zero => intro off r w _ _ h; omega
  | succ fuel ih =>
    intro off r w hok hram hf hsum
    unfold save_image_loop
    by_cases hr : r = 0
    · rw [if_pos hr]
      refine ⟨_, rfl, fun f hS => ?_⟩
      have hoff : off = n := by omega
      subst hoff
      have hm := flash_image_cleanup_ok true (printf "Finished successfully.\n" w)
        (hok.of_steps (printf_steps (Q := fun _ => true) _ _ rfl)) f
      rw [flashAfter_printf] at hm
      exact ⟨fun i hi => by rw [hm]; exact hS.1 i hi, fun i hi => by rw [hm]; exact hS.2 i hi⟩
    · rw [if_neg hr]
      have h1 := QSPI_WriteEnable_ok w hok
      have s1 := QSPI_WriteEnable_steps (Q := fun _ => true) allowsWrite_true.poll (fun _ => rfl) w
      rcases hWE : QSPI_WriteEnable w with ⟨r1, w1⟩
      rw [hWE] at h1 s1
      simp only [] at h1 s1 ⊢
      rw [h1.1]
      simp only [ne_eq, not_true_eq_false, if_false]
      have ha : (4 + (p + off - p) % 4294967296) % 4294967296 = 4 + off := by omega
      rw [ha, s1.ram, hram]
      by_cases hge : r ≥ 256
      · rw [if_pos hge]
        have h3 := QSPI_ProgramPage_ok (4 + off) 256 (fun i => ram (p + off + i)) w1
          (hok.of_steps s1)
        have s3 := QSPI_ProgramPage_steps (Q := fun _ => true) allowsWrite_true.poll (4 + off) 256
          (fun i => ram (p + off + i)) (fun _ => rfl) (fun _ _ => rfl) w1
        rcases hPP : QSPI_ProgramPage (4 + off) (fun i => ram (p + off + i)) 256 w1 with ⟨r2, w3⟩
        rw [hPP] at h3 s3
        simp only [] at h3 s3 ⊢
        rw [h3.1]
        simp only [ne_eq, not_true_eq_false, if_false]
        have s4 := (s1.trans s3).trans (printf_steps (Q := fun _ => true) "." w3 rfl)
        obtain ⟨w', hw', hS'⟩ := ih (off + 256) (r - 256) (printf "." w3) (hok.of_steps s4)
          (by rw [s4.ram, hram]) (by omega) (by omega)
        rw [show p + off + 256 = p + (off + 256) by omega]
        refine ⟨w', hw', fun f hS => hS' f ?_⟩
        rw [flashAfter_printf, h3.2, h1.2]
        constructor
        · intro i hi
          simp only []
          rw [if_neg (by omega)]
          exact hS.1 i hi
        · intro i hi
          simp only []
          by_cases hi2 : i < off
          · rw [if_neg (by omega)]
            exact hS.2 i hi2
          · rw [if_pos (by omega)]
            congr 1
            omega
      · rw [if_neg hge]
        have h3 := QSPI_ProgramPage_ok (4 + off) r (fun i => ram (p + off + i)) w1
          (hok.of_steps s1)
        have s3 := QSPI_ProgramPage_steps (Q := fun _ => true) allowsWrite_true.poll (4 + off) r
          (fun i => ram (p + off + i)) (fun _ => rfl) (fun _ _ => rfl) w1
        rcases hPP : QSPI_ProgramPage (4 + off) (fun i => ram (p + off + i)) r w1 with ⟨r2, w3⟩
        rw [hPP] at h3 s3
        simp only [] at h3 s3 ⊢
        rw [h3.1]
        simp only [ne_eq, not_true_eq_false, if_false]
        refine ⟨_, rfl, fun f hS => ?_⟩
        have s4 := (s1.trans s3).trans
          (printf_steps (Q := fun _ => true) "Finished successfully.\n" w3 rfl)
        have hm := flash_image_cleanup_ok true (printf "Finished successfully.\n" w3)
          (hok.of_steps s4) f
        rw [flashAfter_printf, h3.2, h1.2] at hm
        constructor
        · intro i hi
          rw [hm]
          simp only []
          rw [if_neg (by omega)]
          exact hS.1 i hi
        · intro i hi
          rw [hm]
          simp only []
          by_cases hi2 : i < off
          · rw [if_neg (by omega)]
            exact hS.2 i hi2
          · rw [if_pos (by omega)]
            congr 1
            omega



theorem le32_sum (n : Nat) (h : n < 4294967296) :
    le32 n 0 + 256 * le32 n 1 + 65536 * le32 n 2 + 16777216 * le32 n 3 = n := by
  simp only [le32]
  norm_num
  omega

/-- C1 (round trip of Save): for an image of `n` bytes at `image_data_ptr`, with
`256 ≤ n ≤ 65532`, if `save_image` obtains both semaphores and every HAL call
succeeds, then on the NOR-flash model (a block erase sets block 0 to `0xFF`, a page
program stores its bytes from the given address on), whatever the flash held before,
the first four flash bytes read back as the little-endian value `n` and flash bytes
`4 .. 4 + n - 1` are the image bytes in order. -/
theorem save_image_round_trip (w : World) (p n : Nat) (f : Flash)
    (hp : w.image_data_ptr = some p) (hsz : w.image_data_size = n)
    (hlo : 256 ≤ n) (hhi : n ≤ 65532)
    (hJ : w.JPEG_buffer_lock = true) (hQl : w.QSPI_flash_lock = true)
    (hsJ : w.semResult w.semCalls = true) (hsQ : w.semResult (w.semCalls + 1) = true)
    (hhal : ∀ k, w.halResult k = HAL_OK) :
    ∃ w', save_image w = some w' ∧
      SAVED_IMAGE_DATA_SIZE (flashAfter f w'.trace) = n ∧
      ∀ i, i < n → (flashAfter f w'.trace).mem (4 + i) = w.ram (p + i) := by
  have hLJ : periphs_jpeg_buffer_lock w = (true, { w with semCalls := w.semCalls + 1, trace := w.trace ++ [Event.semb_wait Sem.JPEG_buffer_lock true] }) := by
    simp [periphs_jpeg_buffer_lock, hJ, mmosal_semb_wait, hsJ]
  have hLQ : periphs_qspi_flash_lock { w with semCalls := w.semCalls + 1, trace := w.trace ++ [Event.semb_wait Sem.JPEG_buffer_lock true] } = (true, { w with semCalls := w.semCalls + 2, trace := w.trace ++ [Event.semb_wait Sem.JPEG_buffer_lock true, Event.semb_wait Sem.QSPI_flash_lock true] }) := by
    simp [periphs_qspi_flash_lock, hQl, mmosal_semb_wait, hsQ]
  have hAb : HAL_OSPI_Abort (set_CCR 1000 1000 1000 { w with semCalls := w.semCalls + 2, trace := w.trace ++ [Event.semb_wait Sem.JPEG_buffer_lock true, Event.semb_wait Sem.QSPI_flash_lock true] }) = (HAL_OK, save_image_at_abort w HAL_OK) := by
    simp [HAL_OSPI_Abort, set_CCR, World.log, hhal _, save_image_at_abort]
  have e1 : (periphs_jpeg_buffer_lock w).1 = true := by rw [hLJ]
  have e2 : (periphs_qspi_flash_lock (periphs_jpeg_buffer_lock w).2).1 = true := by
    rw [hLJ]; simp only []; rw [hLQ]
  have e3 : HAL_OSPI_Abort (set_CCR 1000 1000 1000
      (periphs_qspi_flash_lock (periphs_jpeg_buffer_lock w).2).2) =
      (HAL_OK, save_image_at_abort w HAL_OK) := by
    rw [hLJ]; simp only []; rw [hLQ]; simp only []; rw [hAb]
  clear hLJ hLQ hAb
  have hokA : AllOK (save_image_at_abort w HAL_OK) := hhal
  have hramA : (save_image_at_abort w HAL_OK).ram = w.ram := rfl
  have hszA : (save_image_at_abort w HAL_OK).image_data_size = n := hsz
  have hFA : flashAfter f (save_image_at_abort w HAL_OK).trace = flashAfter f w.trace := by
    simp [save_image_at_abort, flashAfter_append]
    simp [flashAfter, Flash.step]
  unfold save_image
  split
  · next hn => rw [hp] at hn; cases hn
  next p' hp' =>
  have hpp : p = p' := by rw [hp] at hp'; exact Option.some.inj hp'
  subst hpp
  rw [if_neg (by omega)]
  split
  next lj wj hLJ =>
  rw [hLJ] at e1 e2 e3
  simp only [] at e1 e2 e3
  subst e1
  rw [if_neg (by decide)]
  split
  next lq wq hLQ =>
  rw [hLQ] at e2 e3
  simp only [] at e2 e3
  subst e2
  rw [if_neg (by decide)]
  conv => zeta
  rw [e3]
  split
  next r1 wA' hA =>
  cases hA
  rw [if_neg (by decide)]
  generalize save_image_at_abort w HAL_OK = wA at hokA hramA hszA hFA ⊢
  have W := allowsWrite_true
  -- write enable and erase
  have s1 := QSPI_WriteEnable_steps W.poll W.writeEnable wA
  have k1 := QSPI_WriteEnable_ok wA hokA
  split
  next r2 w5 h1 =>
  rw [h1] at s1 k1
  simp only [] at s1 k1
  rw [k1.1, if_neg (by decide)]
  have s2 := QSPI_BlockSectorErase_steps W.poll 0 W.erase w5
  have k2 := QSPI_BlockSectorErase_ok w5 (hokA.of_steps s1)
  split
  next r3 w6 h2 =>
  rw [h2] at s2 k2
  simp only [] at s2 k2
  rw [k2.1, if_neg (by decide)]
  -- header
  have s3 := QSPI_WriteEnable_steps W.poll W.writeEnable w6
  have k3 := QSPI_WriteEnable_ok w6 (hokA.of_steps (s1.trans s2))
  split
  next r4 w7 h3 =>
  rw [h3] at s3 k3
  simp only [] at s3 k3
  rw [k3.1, if_neg (by decide)]
  have t3 := (s1.trans s2).trans s3
  have s5 := QSPI_ProgramPage_steps W.poll 0 4 (le32 w7.image_data_size) (fun _ => rfl) W.transmit w7
  have k5 := QSPI_ProgramPage_ok 0 4 (le32 w7.image_data_size) w7 (hokA.of_steps t3)
  split
  next r5 w9 h5 =>
  rw [h5] at s5 k5
  simp only [] at s5 k5
  rw [k5.1, if_neg (by decide)]
  have t5 := t3.trans s5
  -- first page
  have s7 := printf_steps (Q := fun _ => true)
    "Write %ld bytes from 0x%lx to external flash:" w9 rfl
  have k7 := flashAfter_printf f w9 "Write %ld bytes from 0x%lx to external flash:"
  generalize printf "Write %ld bytes from 0x%lx to external flash:" w9 = w11 at s7 k7 ⊢
  have t7 := t5.trans s7
  have s8 := QSPI_WriteEnable_steps W.poll W.writeEnable w11
  have k8 := QSPI_WriteEnable_ok w11 (hokA.of_steps t7)
  split
  next r6 w12 h8 =>
  rw [h8] at s8 k8
  simp only [] at s8 k8
  rw [k8.1, if_neg (by decide)]
  have t8 := t7.trans s8
  have s10 := QSPI_ProgramPage_steps W.poll 4 (256 - 4) (fun i => w12.ram (p + i)) (fun _ => rfl) W.transmit w12
  have k10 := QSPI_ProgramPage_ok 4 (256 - 4) (fun i => w12.ram (p + i)) w12 (hokA.of_steps t8)
  split
  next r7 w14 h10 =>
  rw [h10] at s10 k10
  simp only [] at s10 k10
  rw [k10.1, if_neg (by decide)]
  have t10 := t8.trans s10
  have hsz14 : w14.image_data_size = n := by rw [t10.size, hszA]
  have hram14 : w14.ram = w.ram := by rw [t10.ram, hramA]
  have hrem : (p + w14.image_data_size + 4294967296 - (p + (256 - 4))) % 4294967296 = n - 252 := by
    rw [hsz14]; omega
  rw [hrem]
  obtain ⟨w', hw', hS⟩ := save_image_loop_ok w.ram p n hhi ((n - 252) / 256 + 2) 252 (n - 252) w14
    (hokA.of_steps t10) hram14 (le_refl _) (by omega)
  refine ⟨w', hw', ?_⟩
  have hSt : Stored w.ram p n n (flashAfter f w'.trace) := by
    apply hS
    rw [k10.2, k8.2, k7, k5.2, k3.2, k2.2, k1.2, hFA, t3.size, hszA, t8.ram, hramA]
    constructor
    · intro i hi
      simp only []
      rw [if_neg (by omega), if_pos (by omega)]
      rfl
    · intro i hi
      simp only []
      rw [if_pos (by omega), Nat.add_sub_cancel_left]
  constructor
  · unfold SAVED_IMAGE_DATA_SIZE
    rw [hSt.1 0 (by omega), hSt.1 1 (by omega), hSt.1 2 (by omega), hSt.1 3 (by omega)]
    exact le32_sum n (by omega)
  · exact hSt.2


/-! ## The exits of `erase_image` and `save_image` -/

theorem erase_image_after_abort {Q : Event → Bool} (hQ : AllowsWrite Q) (w : World)
    (hQl : w.QSPI_flash_lock = true) (hsQ : w.semResult w.semCalls = true)
    (hab : w.halResult w.halCalls = HAL_OK) :
    ∃ w1, erase_image w = flash_image_cleanup false w1 ∧
      Steps Q (erase_image_at_abort w HAL_OK) w1 := by
  have hLQ : periphs_qspi_flash_lock w = (true, { w with
      semCalls := w.semCalls + 1
      trace := w.trace ++ [Event.semb_wait Sem.QSPI_flash_lock true] }) := by
    simp [periphs_qspi_flash_lock, hQl, mmosal_semb_wait, hsQ]
  have hAb : HAL_OSPI_Abort (set_CCR 0 0 1000 { w with
      semCalls := w.semCalls + 1
      trace := w.trace ++ [Event.semb_wait Sem.QSPI_flash_lock true] }) =
      (HAL_OK, erase_image_at_abort w HAL_OK) := by
    simp [HAL_OSPI_Abort, set_CCR, World.log, hab, erase_image_at_abort]
  unfold erase_image
  rw [hLQ]
  simp only [Bool.not_true, Bool.false_eq_true, if_false]
  rw [hAb]
  simp only [ne_eq, not_true_eq_false, if_false]
  generalize erase_image_at_abort w HAL_OK = wA
  have s1 := QSPI_WriteEnable_steps hQ.poll hQ.writeEnable wA
  rcases h1 : QSPI_WriteEnable wA with ⟨r2, w4⟩
  rw [h1] at s1
  simp only [] at s1 ⊢
  have s2 := QSPI_BlockSectorErase_steps hQ.poll 0 hQ.erase w4
  rcases h2 : QSPI_BlockSectorErase 0 w4 with ⟨r3, w5⟩
  rw [h2] at s2
  simp only [] at s2 ⊢
  split
  · exact ⟨_, rfl, s1.trans (printf_steps _ _ (hQ.printf _))⟩
  · split
    · exact ⟨_, rfl, (s1.trans s2).trans (printf_steps _ _ (hQ.printf _))⟩
    · exact ⟨_, rfl, ((s1.trans s2).trans (mmosal_task_sleep_steps _ _ (hQ.sleep _))).trans
        (set_CCR_steps _ _ _ _ hQ.ccr)⟩

/-- Result of `erase_image` when the flash semaphore is not obtained. -/
theorem erase_image_lock_fail (w : World) (h : (periphs_qspi_flash_lock w).1 = false) :
    erase_image w = printf "periphs_qspi_flash_lock failed.\n" (periphs_qspi_flash_lock w).2 := by
  unfold erase_image
  rcases hL : periphs_qspi_flash_lock w with ⟨l, w1⟩
  rw [hL] at h
  simp only [] at h ⊢
  subst h
  rfl

/-- Result of `erase_image` when the abort fails. -/
theorem erase_image_abort_fail (w : World) (st : HAL_StatusTypeDef)
    (hQl : w.QSPI_flash_lock = true) (hsQ : w.semResult w.semCalls = true)
    (hab : w.halResult w.halCalls = st) (hst : st ≠ HAL_OK) :
    erase_image w = { w with
      semCalls := w.semCalls + 1
      halCalls := w.halCalls + 1
      trace := w.trace ++ [Event.semb_wait Sem.QSPI_flash_lock true, Event.ccr 1 0,
        Event.ccr 2 0, Event.ccr 3 1000, Event.abort st,
        Event.printf "unable to disable QSPI memory-mapping.\n",
        Event.semb_give Sem.QSPI_flash_lock] } := by
  simp [erase_image, periphs_qspi_flash_lock, hQl, mmosal_semb_wait, hsQ, HAL_OSPI_Abort, set_CCR,
    World.log, hab, hst, periphs_qspi_flash_unlock, printf, mmosal_semb_give]

/-- Result of `save_image` when the capture-buffer semaphore is not obtained. -/
theorem save_image_jpeg_lock_fail (w : World) (p : Nat) (hp : w.image_data_ptr = some p)
    (hlo : 256 ≤ w.image_data_size) (hhi : w.image_data_size ≤ 65532)
    (h : (periphs_jpeg_buffer_lock w).1 = false) :
    save_image w =
      some (printf "periphs_jpeg_buffer_lock failed.\n" (periphs_jpeg_buffer_lock w).2) := by
  unfold save_image
  split
  · next hn => rw [hp] at hn; cases hn
  next p' hp' =>
  rw [if_neg (by omega)]
  split
  next lj wj hLJ =>
  rw [hLJ] at h
  simp only [] at h
  subst h
  rw [if_pos (by decide), hLJ]

/-- Result of `save_image` when the flash semaphore is not obtained. -/
theorem save_image_qspi_lock_fail (w : World) (p : Nat) (hp : w.image_data_ptr = some p)
    (hlo : 256 ≤ w.image_data_size) (hhi : w.image_data_size ≤ 65532)
    (hj : (periphs_jpeg_buffer_lock w).1 = true)
    (h : (periphs_qspi_flash_lock (periphs_jpeg_buffer_lock w).2).1 = false) :
    save_image w =
      some (periphs_jpeg_buffer_unlock (printf "periphs_qspi_flash_lock failed.\n"
        (periphs_qspi_flash_lock (periphs_jpeg_buffer_lock w).2).2)) := by
  unfold save_image
  split
  · next hn => rw [hp] at hn; cases hn
  next p' hp' =>
  rw [if_neg (by omega)]
  split
  next lj wj hLJ =>
  have e := hLJ
  rw [hLJ] at h hj
  simp only [] at h hj
  subst hj
  rw [if_neg (by decide)]
  split
  next lq wq hLQ =>
  rw [hLQ] at h
  simp only [] at h
  subst h
  rw [if_pos (by decide), hLJ]
  simp only []
  rw [hLQ]

/-- Result of `save_image` when the abort fails. -/
theorem save_image_abort_fail (w : World) (p : Nat) (st : HAL_StatusTypeDef)
    (hp : w.image_data_ptr = some p)
    (hlo : 256 ≤ w.image_data_size) (hhi : w.image_data_size ≤ 65532)
    (hJ : w.JPEG_buffer_lock = true) (hQl : w.QSPI_flash_lock = true)
    (hsJ : w.semResult w.semCalls = true) (hsQ : w.semResult (w.semCalls + 1) = true)
    (hab : w.halResult w.halCalls = st) (hst : st ≠ HAL_OK) :
    save_image w = some { w with
      semCalls := w.semCalls + 2
      halCalls := w.halCalls + 1
      trace := w.trace ++ [Event.semb_wait Sem.JPEG_buffer_lock true,
        Event.semb_wait Sem.QSPI_flash_lock true, Event.ccr 1 1000, Event.ccr 2 1000,
        Event.ccr 3 1000, Event.abort st,
        Event.printf "unable to disable QSPI memory-mapping.\n",
        Event.semb_give Sem.JPEG_buffer_lock, Event.semb_give Sem.QSPI_flash_lock] } := by
  have hLJ : periphs_jpeg_buffer_lock w = (true, { w with
      semCalls := w.semCalls + 1
      trace := w.trace ++ [Event.semb_wait Sem.JPEG_buffer_lock true] }) := by
    simp [periphs_jpeg_buffer_lock, hJ, mmosal_semb_wait, hsJ]
  have hLQ : periphs_qspi_flash_lock { w with
      semCalls := w.semCalls + 1
      trace := w.trace ++ [Event.semb_wait Sem.JPEG_buffer_lock true] } = (true, { w with
      semCalls := w.semCalls + 2
      trace := w.trace ++ [Event.semb_wait Sem.JPEG_buffer_lock true,
        Event.semb_wait Sem.QSPI_flash_lock true] }) := by
    simp [periphs_qspi_flash_lock, hQl, mmosal_semb_wait, hsQ]
  have hAb : HAL_OSPI_Abort (set_CCR 1000 1000 1000 { w with
      semCalls := w.semCalls + 2
      trace := w.trace ++ [Event.semb_wait Sem.JPEG_buffer_lock true,
        Event.semb_wait Sem.QSPI_flash_lock true] }) = (st, save_image_at_abort w st) := by
    simp [HAL_OSPI_Abort, set_CCR, World.log, hab, save_image_at_abort]
  have e1 : (periphs_jpeg_buffer_lock w).1 = true := by rw [hLJ]
  have e2 : (periphs_qspi_flash_lock (periphs_jpeg_buffer_lock w).2).1 = true := by
    rw [hLJ]; simp only []; rw [hLQ]
  have e3 : HAL_OSPI_Abort (set_CCR 1000 1000 1000
      (periphs_qspi_flash_lock (periphs_jpeg_buffer_lock w).2).2) =
      (st, save_image_at_abort w st) := by
    rw [hLJ]; simp only []; rw [hLQ]; simp only []; rw [hAb]
  clear hLJ hLQ hAb
  unfold save_image
  split
  · next hn => rw [hp] at hn; cases hn
  next p' hp' =>
  rw [if_neg (by omega)]
  split
  next lj wj hLJ =>
  rw [hLJ] at e1 e2 e3
  simp only [] at e1 e2 e3
  subst e1
  rw [if_neg (by decide)]
  split
  next lq wq hLQ =>
  rw [hLQ] at e2 e3
  simp only [] at e2 e3
  subst e2
  rw [if_neg (by decide)]
  conv => zeta
  rw [e3]
  split
  next r1 wA' hA =>
  cases hA
  rw [if_pos hst]
  simp [periphs_qspi_flash_unlock, periphs_jpeg_buffer_unlock, printf, mmosal_semb_give,
    World.log, save_image_at_abort, hJ, hQl]


/-! ## Semaphore calls -/

theorem allowsWrite_noLock : AllowsWrite (fun e => !e.isLock) :=
  ⟨⟨fun _ => rfl, fun _ _ _ => rfl⟩, fun _ => rfl, fun _ => rfl, fun _ _ _ => rfl,
    fun _ _ => rfl, fun _ => rfl, fun _ => rfl, fun _ _ => rfl⟩

theorem allowsRestore_noLock : AllowsRestore (fun e => !e.isLock) :=
  ⟨fun _ _ => rfl, fun _ _ _ _ => rfl, fun _ _ => rfl, fun _ => rfl, fun _ => rfl⟩

theorem Steps.no_lock {w w' : World} (h : Steps (fun e => !e.isLock) w w') :
    ∃ es, w'.trace = w.trace ++ es ∧ es.filter Event.isLock = [] := by
  obtain ⟨es, he, hq⟩ := h.trace
  refine ⟨es, he, ?_⟩
  rw [List.filter_eq_nil_iff]
  intro e hm
  have := hq e hm
  simpa using this

/-- The rejected call: one message, nothing else. -/
theorem save_image_reject (w : World)
    (h : w.image_data_size < 256 ∨ w.image_data_size > 65532 ∨ w.image_data_ptr = none) :
    save_image w = some { w with trace := w.trace ++ [Event.printf "No image!\n"] } := by
  unfold save_image
  split
  · rfl
  · next p hp =>
    have h' : w.image_data_size < 256 ∨ w.image_data_size > 65532 := by
      rcases h with h | h | h
      · exact Or.inl h
      · exact Or.inr h
      · rw [hp] at h; cases h
    rw [if_pos h']
    rfl

/-- Semaphore calls of the restore step, when the handles it uses exist. -/
theorem flash_image_cleanup_locks (b : Bool) (w : World)
    (hJ : b = true → w.JPEG_buffer_lock = true) (hQl : w.QSPI_flash_lock = true) :
    ∃ es, (flash_image_cleanup b w).trace = w.trace ++ es ∧
      es.filter Event.isLock =
        (if b then [Event.semb_give Sem.JPEG_buffer_lock] else []) ++
          [Event.semb_give Sem.QSPI_flash_lock] := by
  obtain ⟨w2, s2, h2⟩ := flash_image_cleanup_shape allowsRestore_noLock b w
  obtain ⟨es, he, hf⟩ := s2.no_lock
  have hQ2 : w2.QSPI_flash_lock = true := by rw [s2.qspiLock, hQl]
  rw [h2]
  cases b
  · refine ⟨es ++ [Event.ccr 1 0, Event.ccr 2 0, Event.ccr 3 0,
      Event.semb_give Sem.QSPI_flash_lock], ?_, ?_⟩
    · simp [periphs_qspi_flash_unlock, set_CCR, World.log, mmosal_semb_give, hQ2, he]
    · simp [List.filter_append, hf, Event.isLock]
  · have hJ2 : w2.JPEG_buffer_lock = true := by rw [s2.jpegLock, hJ rfl]
    refine ⟨es ++ [Event.ccr 1 0, Event.ccr 2 0, Event.ccr 3 0,
      Event.semb_give Sem.JPEG_buffer_lock, Event.semb_give Sem.QSPI_flash_lock], ?_, ?_⟩
    · simp [periphs_qspi_flash_unlock, periphs_jpeg_buffer_unlock, set_CCR, World.log,
        mmosal_semb_give, hQ2, hJ2, he]
    · simp [List.filter_append, hf, Event.isLock]

open Sem in
/-- Semaphore calls of `save_image`, in order, on every path. -/
theorem save_image_lock_events (w : World) :
    ∃ w' es, save_image w = some w' ∧ w'.trace = w.trace ++ es ∧
      (es.filter Event.isLock = [] ∨
       es.filter Event.isLock = [Event.semb_wait JPEG_buffer_lock false] ∨
       es.filter Event.isLock =
        [Event.semb_wait JPEG_buffer_lock true, Event.semb_give JPEG_buffer_lock] ∨
       es.filter Event.isLock =
        [Event.semb_wait JPEG_buffer_lock true, Event.semb_wait QSPI_flash_lock false,
          Event.semb_give JPEG_buffer_lock] ∨
       es.filter Event.isLock =
        [Event.semb_wait JPEG_buffer_lock true, Event.semb_wait QSPI_flash_lock true,
          Event.semb_give JPEG_buffer_lock, Event.semb_give QSPI_flash_lock]) := by
  by_cases hv : w.image_data_size < 256 ∨ w.image_data_size > 65532 ∨ w.image_data_ptr = none
  · exact ⟨_, [Event.printf "No image!\n"], save_image_reject w hv, rfl, Or.inl rfl⟩
  have hlo : 256 ≤ w.image_data_size := by omega
  have hhi : w.image_data_size ≤ 65532 := by omega
  obtain ⟨p, hp⟩ : ∃ p, w.image_data_ptr = some p := by
    cases h : w.image_data_ptr with
    | none => exact absurd (Or.inr (Or.inr h)) hv
    | some p => exact ⟨p, rfl⟩
  -- the capture-buffer semaphore
  cases hJ : w.JPEG_buffer_lock with
  | false =>
    refine ⟨_, [Event.printf "periphs_jpeg_buffer_lock failed.\n"],
      save_image_jpeg_lock_fail w p hp hlo hhi (by simp [periphs_jpeg_buffer_lock, hJ]), ?_,
      Or.inl rfl⟩
    simp [periphs_jpeg_buffer_lock, hJ, printf, World.log]
  | true =>
  cases hsJ : w.semResult w.semCalls with
  | false =>
    refine ⟨_, [Event.semb_wait JPEG_buffer_lock false,
        Event.printf "periphs_jpeg_buffer_lock failed.\n"],
      save_image_jpeg_lock_fail w p hp hlo hhi
        (by simp [periphs_jpeg_buffer_lock, hJ, mmosal_semb_wait, hsJ]), ?_,
      Or.inr (Or.inl rfl)⟩
    simp [periphs_jpeg_buffer_lock, hJ, mmosal_semb_wait, hsJ, printf, World.log]
  | true =>
  have hj : (periphs_jpeg_buffer_lock w).1 = true := by
    simp [periphs_jpeg_buffer_lock, hJ, mmosal_semb_wait, hsJ]
  -- the flash semaphore
  cases hQl : w.QSPI_flash_lock with
  | false =>
    refine ⟨_, [Event.semb_wait JPEG_buffer_lock true,
        Event.printf "periphs_qspi_flash_lock failed.\n", Event.semb_give JPEG_buffer_lock],
      save_image_qspi_lock_fail w p hp hlo hhi hj
        (by simp [periphs_jpeg_buffer_lock, periphs_qspi_flash_lock, hJ, hQl, mmosal_semb_wait]),
      ?_, Or.inr (Or.inr (Or.inl rfl))⟩
    simp [periphs_jpeg_buffer_lock, periphs_qspi_flash_lock, periphs_jpeg_buffer_unlock, hJ, hQl,
      mmosal_semb_wait, mmosal_semb_give, hsJ, printf, World.log]
  | true =>
  cases hsQ : w.semResult (w.semCalls + 1) with
  | false =>
    refine ⟨_, [Event.semb_wait JPEG_buffer_lock true, Event.semb_wait QSPI_flash_lock false,
        Event.printf "periphs_qspi_flash_lock failed.\n", Event.semb_give JPEG_buffer_lock],
      save_image_qspi_lock_fail w p hp hlo hhi hj
        (by simp [periphs_jpeg_buffer_lock, periphs_qspi_flash_lock, hJ, hQl, mmosal_semb_wait,
          hsQ]),
      ?_, Or.inr (Or.inr (Or.inr (Or.inl rfl)))⟩
    simp [periphs_jpeg_buffer_lock, periphs_qspi_flash_lock, periphs_jpeg_buffer_unlock, hJ, hQl,
      mmosal_semb_wait, mmosal_semb_give, hsJ, hsQ, printf, World.log]
  | true =>
  -- the abort
  by_cases hab : w.halResult w.halCalls = HAL_OK
  · obtain ⟨w1, h1, s1⟩ := save_image_after_abort allowsWrite_noLock w p hp hlo hhi hJ hQl hsJ
      hsQ hab
    obtain ⟨es1, he1, hf1⟩ := s1.no_lock
    obtain ⟨es2, he2, hf2⟩ := flash_image_cleanup_locks true w1
      (fun _ => by rw [s1.jpegLock]; exact hJ) (by rw [s1.qspiLock]; exact hQl)
    refine ⟨_, [Event.semb_wait JPEG_buffer_lock true, Event.semb_wait QSPI_flash_lock true,
        Event.ccr 1 1000, Event.ccr 2 1000, Event.ccr 3 1000, Event.abort HAL_OK] ++ es1 ++ es2,
      h1, ?_, Or.inr (Or.inr (Or.inr (Or.inr ?_)))⟩
    · rw [he2, he1]
      simp [save_image_at_abort]
    · simp [List.filter_append, hf1, hf2, Event.isLock]
  · exact ⟨_, _, save_image_abort_fail w p _ hp hlo hhi hJ hQl hsJ hsQ rfl hab, rfl,
      Or.inr (Or.inr (Or.inr (Or.inr rfl)))⟩


open Sem in
/-- Semaphore calls of `erase_image`, in order, on every path. -/
theorem erase_image_lock_events (w : World) :
    ∃ es, (erase_image w).trace = w.trace ++ es ∧
      (es.filter Event.isLock = [] ∨
       es.filter Event.isLock = [Event.semb_wait QSPI_flash_lock false] ∨
       es.filter Event.isLock =
        [Event.semb_wait QSPI_flash_lock true, Event.semb_give QSPI_flash_lock]) := by
  cases hQl : w.QSPI_flash_lock with
  | false =>
    refine ⟨[Event.printf "periphs_qspi_flash_lock failed.\n"], ?_, Or.inl rfl⟩
    rw [erase_image_lock_fail w (by simp [periphs_qspi_flash_lock, hQl])]
    simp [periphs_qspi_flash_lock, hQl, printf, World.log]
  | true =>
  cases hsQ : w.semResult w.semCalls with
  | false =>
    refine ⟨[Event.semb_wait QSPI_flash_lock false,
      Event.printf "periphs_qspi_flash_lock failed.\n"], ?_, Or.inr (Or.inl rfl)⟩
    rw [erase_image_lock_fail w (by simp [periphs_qspi_flash_lock, hQl, mmosal_semb_wait, hsQ])]
    simp [periphs_qspi_flash_lock, hQl, mmosal_semb_wait, hsQ, printf, World.log]
  | true =>
  by_cases hab : w.halResult w.halCalls = HAL_OK
  · obtain ⟨w1, h1, s1⟩ := erase_image_after_abort allowsWrite_noLock w hQl hsQ hab
    obtain ⟨es1, he1, hf1⟩ := s1.no_lock
    obtain ⟨es2, he2, hf2⟩ := flash_image_cleanup_locks false w1
      (fun h => by cases h) (by rw [s1.qspiLock]; exact hQl)
    refine ⟨[Event.semb_wait QSPI_flash_lock true, Event.ccr 1 0, Event.ccr 2 0,
      Event.ccr 3 1000, Event.abort HAL_OK] ++ es1 ++ es2, ?_, Or.inr (Or.inr ?_)⟩
    · rw [h1, he2, he1]
      simp [erase_image_at_abort]
    · simp [List.filter_append, hf1, hf2, Event.isLock]
  · refine ⟨[Event.semb_wait QSPI_flash_lock true, Event.ccr 1 0, Event.ccr 2 0,
      Event.ccr 3 1000, Event.abort (w.halResult w.halCalls),
      Event.printf "unable to disable QSPI memory-mapping.\n",
      Event.semb_give QSPI_flash_lock], ?_, Or.inr (Or.inr rfl)⟩
    rw [erase_image_abort_fail w _ hQl hsQ rfl hab]

theorem balanced_of_filter (es : List Event) (h : Balanced (es.filter Event.isLock)) :
    Balanced es := by
  intro s
  obtain ⟨h1, h2, h3⟩ := h s
  have ha : ∀ l : List Event, acquired s (l.filter Event.isLock) = acquired s l := fun l =>
    List.count_filter (by rfl)
  have hr : ∀ l : List Event, released s (l.filter Event.isLock) = released s l := fun l =>
    List.count_filter (by rfl)
  refine ⟨by rw [← ha, ← hr]; exact h1, by rw [← ha]; exact h2, fun k => ?_⟩
  have hp : (es.take k).filter Event.isLock <+: es.filter Event.isLock :=
    (List.take_prefix k es).filter _
  rw [List.prefix_iff_eq_take] at hp
  rw [← ha, ← hr, hp]
  exact h3 _

open Sem in
theorem balanced_cases :
    Balanced [] ∧ Balanced [Event.semb_wait JPEG_buffer_lock false] ∧
    Balanced [Event.semb_wait QSPI_flash_lock false] ∧
    Balanced [Event.semb_wait JPEG_buffer_lock true, Event.semb_give JPEG_buffer_lock] ∧
    Balanced [Event.semb_wait QSPI_flash_lock true, Event.semb_give QSPI_flash_lock] ∧
    Balanced [Event.semb_wait JPEG_buffer_lock true, Event.semb_wait QSPI_flash_lock false,
      Event.semb_give JPEG_buffer_lock] ∧
    Balanced [Event.semb_wait JPEG_buffer_lock true, Event.semb_wait QSPI_flash_lock true,
      Event.semb_give JPEG_buffer_lock, Event.semb_give QSPI_flash_lock] := by
  refine ⟨?_, ?_, ?_, ?_, ?_, ?_, ?_⟩ <;> intro s <;> cases s <;>
    refine ⟨by decide, by decide, fun k => ?_⟩ <;>
    rcases k with _ | _ | _ | _ | _ | k <;> simp [released, acquired, List.count_cons]


/-! ## Controller mode -/

theorem modeAfter_append (m : Mode) (t u : List Event) :
    modeAfter m (t ++ u) = modeAfter (modeAfter m t) u := by
  simp [modeAfter, List.foldl_append]

theorem modeAfter_log (m : Mode) (w : World) (e : Event) (he : e.isBus = false) :
    modeAfter m (w.log e).trace = modeAfter m w.trace := by
  simp only [World.log, modeAfter_append]
  cases e <;> simp_all [modeAfter, Mode.step, Event.isBus]

theorem modeAfter_set_CCR (m : Mode) (w : World) (a b c : Nat) :
    modeAfter m (set_CCR a b c w).trace = modeAfter m w.trace := by
  unfold set_CCR
  rw [modeAfter_log _ _ (Event.ccr 3 c) rfl, modeAfter_log _ _ (Event.ccr 2 b) rfl,
    modeAfter_log _ _ (Event.ccr 1 a) rfl]

theorem modeAfter_jpeg_unlock (m : Mode) (w : World) :
    modeAfter m (periphs_jpeg_buffer_unlock w).trace = modeAfter m w.trace := by
  unfold periphs_jpeg_buffer_unlock
  split
  · exact modeAfter_log m w _ rfl
  · rfl

theorem modeAfter_qspi_unlock (m : Mode) (w : World) :
    modeAfter m (periphs_qspi_flash_unlock w).trace = modeAfter m w.trace := by
  unfold periphs_qspi_flash_unlock
  split
  · exact modeAfter_log m w _ rfl
  · rfl

/-- A successful `QSPI_EnableMemoryMappedMode` ends with a successful
`HAL_OSPI_MemoryMapped`. -/
theorem QSPI_EnableMemoryMappedMode_mode (w : World)
    (h : (QSPI_EnableMemoryMappedMode w).1 = HAL_OK) (m : Mode) :
    modeAfter m (QSPI_EnableMemoryMappedMode w).2.trace = Mode.MemoryMapped := by
  revert h
  unfold QSPI_EnableMemoryMappedMode
  simp only [HAL_OSPI_Command, HAL_OSPI_MemoryMapped]
  split
  · intro h; cases h
  · split
    · intro h; cases h
    · split
      · intro h; cases h
      · next h3 =>
        intro _
        have h3' := not_not.mp h3
        simp only [] at h3' ⊢
        rw [modeAfter_append, h3']
        rfl

/-- If both restore commands succeed, the restore step leaves the controller in
memory-mapped mode. -/
theorem flash_image_cleanup_mode (b : Bool) (w : World) (h1 : (QSPI_Init w).1 = HAL_OK)
    (h2 : (QSPI_EnableMemoryMappedMode (QSPI_Init w).2).1 = HAL_OK) (m : Mode) :
    modeAfter m (flash_image_cleanup b w).trace = Mode.MemoryMapped := by
  have hm := QSPI_EnableMemoryMappedMode_mode (QSPI_Init w).2 h2 m
  unfold flash_image_cleanup
  rcases hA : QSPI_Init w with ⟨r1, w1⟩
  rw [hA] at h1 h2 hm
  simp only [] at h1 h2 hm ⊢
  rcases hB : QSPI_EnableMemoryMappedMode w1 with ⟨r2, w2⟩
  rw [hB] at h2 hm
  simp only [] at h2 hm ⊢
  subst h1
  subst h2
  simp only [ne_eq, not_true_eq_false, if_false]
  rw [modeAfter_qspi_unlock]
  cases b
  · simp only [Bool.false_eq_true, if_false]
    rw [modeAfter_set_CCR, hm]
  · simp only [if_true]
    rw [modeAfter_jpeg_unlock, modeAfter_set_CCR, hm]

theorem allowsWrite_isPersist : AllowsWrite Event.isPersist :=
  ⟨⟨fun _ => rfl, fun _ _ _ => rfl⟩, fun _ => rfl, fun _ => rfl, fun _ _ _ => rfl,
    fun _ _ => rfl, fun _ => rfl, fun _ => rfl, fun _ _ => rfl⟩


/-! ## Hardware left alone -/

theorem untouched_refl (w : World) : Untouched w w :=
  ⟨rfl, [], by simp, by simp⟩

theorem untouched_trans {a b c : World} (h1 : Untouched a b) (h2 : Untouched b c) :
    Untouched a c := by
  obtain ⟨c1, e1, he1, hq1⟩ := h1
  obtain ⟨c2, e2, he2, hq2⟩ := h2
  refine ⟨c2.trans c1, e1 ++ e2, by rw [he2, he1, List.append_assoc], ?_⟩
  intro e he
  rcases List.mem_append.mp he with h | h
  · exact hq1 e h
  · exact hq2 e h

theorem untouched_log (w : World) (e : Event) (h1 : e.isBus = false) (h2 : e.isCCR = false) :
    Untouched w (w.log e) :=
  ⟨rfl, [e], rfl, by simp [h1, h2]⟩

theorem printf_untouched (msg : String) (w : World) : Untouched w (printf msg w) :=
  untouched_log w _ rfl rfl

theorem periphs_jpeg_buffer_lock_untouched (w : World) :
    Untouched w (periphs_jpeg_buffer_lock w).2 := by
  unfold periphs_jpeg_buffer_lock
  split
  · exact ⟨rfl, [_], rfl, by simp [Event.isBus, Event.isCCR]⟩
  · exact untouched_refl w

theorem periphs_qspi_flash_lock_untouched (w : World) :
    Untouched w (periphs_qspi_flash_lock w).2 := by
  unfold periphs_qspi_flash_lock
  split
  · exact ⟨rfl, [_], rfl, by simp [Event.isBus, Event.isCCR]⟩
  · exact untouched_refl w

theorem periphs_jpeg_buffer_unlock_untouched (w : World) :
    Untouched w (periphs_jpeg_buffer_unlock w) := by
  unfold periphs_jpeg_buffer_unlock
  split
  · exact untouched_log w _ rfl rfl
  · exact untouched_refl w

/-! ## The claims -/

/-- C2 (boundary rejection): when `image_data_size` is below 256 or above 65532, or
`image_data_ptr` is `NULL`, `save_image` returns after printing one message: no
semaphore wait and no HAL call is made, so neither lock is acquired and no flash bus
command (abort, write-enable, erase, program, re-initialisation) is issued. -/
theorem save_image_rejects (w : World)
    (h : w.image_data_size < 256 ∨ w.image_data_size > 65532 ∨ w.image_data_ptr = none) :
    ∃ w', save_image w = some w' ∧ w'.trace = w.trace ++ [Event.printf "No image!\n"] ∧
      w'.semCalls = w.semCalls ∧ w'.halCalls = w.halCalls :=
  ⟨_, save_image_reject w h, rfl, rfl, rfl⟩

/-- Witness of C2 at the sizes 255 and 65533 and at a `NULL` image pointer. -/
theorem save_image_rejects_witness :
    (∃ w', save_image (demoWorld 255) = some w' ∧
      w'.trace = (demoWorld 255).trace ++ [Event.printf "No image!\n"] ∧
      w'.semCalls = (demoWorld 255).semCalls ∧ w'.halCalls = (demoWorld 255).halCalls) ∧
    (∃ w', save_image (demoWorld 65533) = some w' ∧
      w'.trace = (demoWorld 65533).trace ++ [Event.printf "No image!\n"] ∧
      w'.semCalls = (demoWorld 65533).semCalls ∧ w'.halCalls = (demoWorld 65533).halCalls) ∧
    (∃ w', save_image { demoWorld 300 with image_data_ptr := none } = some w' ∧
      w'.trace = [] ++ [Event.printf "No image!\n"] ∧
      w'.semCalls = 0 ∧ w'.halCalls = 0) :=
  ⟨save_image_rejects (demoWorld 255) (Or.inl (by decide)),
   save_image_rejects (demoWorld 65533) (Or.inr (Or.inl (by decide))),
   save_image_rejects { demoWorld 300 with image_data_ptr := none } (Or.inr (Or.inr rfl))⟩

/-- C8 (lock timeout leaves hardware untouched): if `save_image`, having accepted the
image, does not obtain the capture-buffer semaphore or does not obtain the flash
semaphore, and if `erase_image` does not obtain the flash semaphore, the operation
returns without any call into the OSPI HAL (no abort, write-enable, erase, program,
re-initialisation or memory-map) and without a store to the LED PWM registers. -/
theorem lock_timeout_untouched (w : World) :
    (∀ p, w.image_data_ptr = some p → 256 ≤ w.image_data_size → w.image_data_size ≤ 65532 →
      ((periphs_jpeg_buffer_lock w).1 = false ∨
        (periphs_qspi_flash_lock (periphs_jpeg_buffer_lock w).2).1 = false) →
      ∃ w', save_image w = some w' ∧ Untouched w w') ∧
    ((periphs_qspi_flash_lock w).1 = false → Untouched w (erase_image w)) := by
  constructor
  · intro p hp hlo hhi h
    cases hj : (periphs_jpeg_buffer_lock w).1 with
    | false =>
      exact ⟨_, save_image_jpeg_lock_fail w p hp hlo hhi hj,
        untouched_trans (periphs_jpeg_buffer_lock_untouched w) (printf_untouched _ _)⟩
    | true =>
      have hq : (periphs_qspi_flash_lock (periphs_jpeg_buffer_lock w).2).1 = false := by
        rcases h with h | h
        · rw [hj] at h; cases h
        · exact h
      exact ⟨_, save_image_qspi_lock_fail w p hp hlo hhi hj hq,
        untouched_trans (untouched_trans (untouched_trans
          (periphs_jpeg_buffer_lock_untouched w) (periphs_qspi_flash_lock_untouched _))
          (printf_untouched _ _)) (periphs_jpeg_buffer_unlock_untouched _)⟩
  · intro h
    rw [erase_image_lock_fail w h]
    exact untouched_trans (periphs_qspi_flash_lock_untouched w) (printf_untouched _ _)

/-- Witness of C8: the first wait of `save_image` times out, the second wait of
`save_image` times out, and the wait of `erase_image` times out. -/
theorem lock_timeout_untouched_witness :
    (∃ w', save_image firstWaitFailWorld = some w' ∧ Untouched firstWaitFailWorld w') ∧
    (∃ w', save_image secondWaitFailWorld = some w' ∧ Untouched secondWaitFailWorld w') ∧
    Untouched firstWaitFailWorld (erase_image firstWaitFailWorld) :=
  ⟨(lock_timeout_untouched firstWaitFailWorld).1 0x20000000 rfl (by decide) (by decide)
      (Or.inl rfl),
   (lock_timeout_untouched secondWaitFailWorld).1 0x20000000 rfl (by decide) (by decide)
      (Or.inr rfl),
   (lock_timeout_untouched firstWaitFailWorld).2 rfl⟩


/-- Witness of C1: 300 bytes of `0xAA` saved to an erased device. -/
theorem save_image_round_trip_witness :
    ∃ w', save_image (demoWorld 300) = some w' ∧
      SAVED_IMAGE_DATA_SIZE (flashAfter blankFlash w'.trace) = 300 ∧
      ∀ i, i < 300 → (flashAfter blankFlash w'.trace).mem (4 + i) = 0xAA :=
  save_image_round_trip (demoWorld 300) 0x20000000 300 blankFlash rfl rfl (by decide)
    (by decide) rfl rfl rfl rfl (fun _ => rfl)

/-- C4 (failure semantics of a persistence operation): in `save_image` and in
`erase_image`, once the semaphores are held and `HAL_OSPI_Abort` has returned
`HAL_OK`, the operation ends, whatever the later write-enable, block-erase and
page-program calls return, with one call of `flash_image_cleanup`: everything logged
between the abort and that call belongs to the erase and program phases (no call of
the restore step, no abort, no semaphore call), and if `QSPI_Init` and
`QSPI_EnableMemoryMappedMode` of that call return `HAL_OK` the controller is in
memory-mapped mode when the operation returns. -/
theorem restore_after_abort (w : World) (hQl : w.QSPI_flash_lock = true)
    (hab : w.halResult w.halCalls = HAL_OK) :
    (∀ p, w.image_data_ptr = some p → 256 ≤ w.image_data_size → w.image_data_size ≤ 65532 →
      w.JPEG_buffer_lock = true → w.semResult w.semCalls = true →
      w.semResult (w.semCalls + 1) = true →
      ∃ w1 mid, save_image w = some (flash_image_cleanup true w1) ∧
        w1.trace = (save_image_at_abort w HAL_OK).trace ++ mid ∧
        (∀ e ∈ mid, e.isPersist = true) ∧
        ((QSPI_Init w1).1 = HAL_OK →
          (QSPI_EnableMemoryMappedMode (QSPI_Init w1).2).1 = HAL_OK →
          ∀ m, modeAfter m (flash_image_cleanup true w1).trace = Mode.MemoryMapped)) ∧
    (w.semResult w.semCalls = true →
      ∃ w1 mid, erase_image w = flash_image_cleanup false w1 ∧
        w1.trace = (erase_image_at_abort w HAL_OK).trace ++ mid ∧
        (∀ e ∈ mid, e.isPersist = true) ∧
        ((QSPI_Init w1).1 = HAL_OK →
          (QSPI_EnableMemoryMappedMode (QSPI_Init w1).2).1 = HAL_OK →
          ∀ m, modeAfter m (flash_image_cleanup false w1).trace = Mode.MemoryMapped)) := by
  constructor
  · intro p hp hlo hhi hJ hsJ hsQ
    obtain ⟨w1, h1, s1⟩ :=
      save_image_after_abort allowsWrite_isPersist w p hp hlo hhi hJ hQl hsJ hsQ hab
    obtain ⟨mid, hm, hq⟩ := s1.trace
    exact ⟨w1, mid, h1, hm, hq, fun a b m => flash_image_cleanup_mode true w1 a b m⟩
  · intro hsQ
    obtain ⟨w1, h1, s1⟩ := erase_image_after_abort allowsWrite_isPersist w hQl hsQ hab
    obtain ⟨mid, hm, hq⟩ := s1.trace
    exact ⟨w1, mid, h1, hm, hq, fun a b m => flash_image_cleanup_mode false w1 a b m⟩

/-- Witness of C4: the demo world, where every call succeeds. -/
theorem restore_after_abort_witness :
    (∃ w1 mid, save_image (demoWorld 300) = some (flash_image_cleanup true w1) ∧
        w1.trace = (save_image_at_abort (demoWorld 300) HAL_OK).trace ++ mid ∧
        (∀ e ∈ mid, e.isPersist = true) ∧
        ((QSPI_Init w1).1 = HAL_OK →
          (QSPI_EnableMemoryMappedMode (QSPI_Init w1).2).1 = HAL_OK →
          ∀ m, modeAfter m (flash_image_cleanup true w1).trace = Mode.MemoryMapped)) ∧
    (∃ w1 mid, erase_image (demoWorld 300) = flash_image_cleanup false w1 ∧
        w1.trace = (erase_image_at_abort (demoWorld 300) HAL_OK).trace ++ mid ∧
        (∀ e ∈ mid, e.isPersist = true) ∧
        ((QSPI_Init w1).1 = HAL_OK →
          (QSPI_EnableMemoryMappedMode (QSPI_Init w1).2).1 = HAL_OK →
          ∀ m, modeAfter m (flash_image_cleanup false w1).trace = Mode.MemoryMapped)) :=
  ⟨(restore_after_abort (demoWorld 300) rfl rfl).1 0x20000000 rfl (by decide) (by decide) rfl
      rfl rfl,
   (restore_after_abort (demoWorld 300) rfl rfl).2 rfl⟩

open Sem in
/-- Counterexample to C5: with a 300-byte image and both semaphores obtained, let
`HAL_OSPI_Abort` fail.  `save_image` and `erase_image` then print the failure, give
the semaphores back and return; their logs contain no call of the restore step
(no `QSPI_Init`, no `QSPI_EnableMemoryMappedMode`). -/
theorem abort_failure_skips_restore :
    (save_image abortFailWorld).map World.trace =
      some [Event.semb_wait JPEG_buffer_lock true, Event.semb_wait QSPI_flash_lock true,
        Event.ccr 1 1000, Event.ccr 2 1000, Event.ccr 3 1000, Event.abort HAL_ERROR,
        Event.printf "unable to disable QSPI memory-mapping.\n",
        Event.semb_give JPEG_buffer_lock, Event.semb_give QSPI_flash_lock] ∧
    (erase_image abortFailWorld).trace =
      [Event.semb_wait QSPI_flash_lock true, Event.ccr 1 0, Event.ccr 2 0, Event.ccr 3 1000,
        Event.abort HAL_ERROR, Event.printf "unable to disable QSPI memory-mapping.\n",
        Event.semb_give QSPI_flash_lock] ∧
    (save_image abortFailWorld).map (fun w => w.trace.any Event.isRestore) = some false ∧
    (erase_image abortFailWorld).trace.any Event.isRestore = false := by
  decide

open Sem in
/-- C5 as amended: when `HAL_OSPI_Abort` does not return `HAL_OK`, `save_image` and
`erase_image` print the failure, give back the semaphores they hold and return; the
failed abort is their only HAL call, so the restore step is not run. -/
theorem abort_failure_returns (w : World) (st : HAL_StatusTypeDef)
    (hQl : w.QSPI_flash_lock = true) (hab : w.halResult w.halCalls = st) (hst : st ≠ HAL_OK) :
    (∀ p, w.image_data_ptr = some p → 256 ≤ w.image_data_size → w.image_data_size ≤ 65532 →
      w.JPEG_buffer_lock = true → w.semResult w.semCalls = true →
      w.semResult (w.semCalls + 1) = true →
      ∃ w', save_image w = some w' ∧ w'.halCalls = w.halCalls + 1 ∧
        w'.trace = w.trace ++ [Event.semb_wait JPEG_buffer_lock true,
          Event.semb_wait QSPI_flash_lock true, Event.ccr 1 1000, Event.ccr 2 1000,
          Event.ccr 3 1000, Event.abort st,
          Event.printf "unable to disable QSPI memory-mapping.\n",
          Event.semb_give JPEG_buffer_lock, Event.semb_give QSPI_flash_lock]) ∧
    (w.semResult w.semCalls = true →
      (erase_image w).halCalls = w.halCalls + 1 ∧
      (erase_image w).trace = w.trace ++ [Event.semb_wait QSPI_flash_lock true,
        Event.ccr 1 0, Event.ccr 2 0, Event.ccr 3 1000, Event.abort st,
        Event.printf "unable to disable QSPI memory-mapping.\n",
        Event.semb_give QSPI_flash_lock]) := by
  constructor
  · intro p hp hlo hhi hJ hsJ hsQ
    exact ⟨_, save_image_abort_fail w p st hp hlo hhi hJ hQl hsJ hsQ hab hst, rfl, rfl⟩
  · intro hsQ
    rw [erase_image_abort_fail w st hQl hsQ hab hst]
    exact ⟨rfl, rfl⟩

open Sem in
/-- Witness of the amended C5 in the world whose abort fails. -/
theorem abort_failure_returns_witness :
    (∃ w', save_image abortFailWorld = some w' ∧ w'.halCalls = 0 + 1 ∧
        w'.trace = [] ++ [Event.semb_wait JPEG_buffer_lock true,
          Event.semb_wait QSPI_flash_lock true, Event.ccr 1 1000, Event.ccr 2 1000,
          Event.ccr 3 1000, Event.abort HAL_ERROR,
          Event.printf "unable to disable QSPI memory-mapping.\n",
          Event.semb_give JPEG_buffer_lock, Event.semb_give QSPI_flash_lock]) ∧
    ((erase_image abortFailWorld).halCalls = 0 + 1 ∧
      (erase_image abortFailWorld).trace = [] ++ [Event.semb_wait QSPI_flash_lock true,
        Event.ccr 1 0, Event.ccr 2 0, Event.ccr 3 1000, Event.abort HAL_ERROR,
        Event.printf "unable to disable QSPI memory-mapping.\n",
        Event.semb_give QSPI_flash_lock]) :=
  ⟨(abort_failure_returns abortFailWorld HAL_ERROR rfl rfl (by decide)).1 0x20000000 rfl
      (by decide) (by decide) rfl rfl rfl,
   (abort_failure_returns abortFailWorld HAL_ERROR rfl rfl (by decide)).2 rfl⟩


theorem periphs_jpeg_buffer_unlock_steps {Q : Event → Bool} (w : World)
    (h : ∀ s, Q (Event.semb_give s) = true) : Steps Q w (periphs_jpeg_buffer_unlock w) := by
  unfold periphs_jpeg_buffer_unlock
  split
  · exact Steps.log w _ (h _)
  · exact Steps.refl Q w

theorem periphs_qspi_flash_unlock_steps {Q : Event → Bool} (w : World)
    (h : ∀ s, Q (Event.semb_give s) = true) : Steps Q w (periphs_qspi_flash_unlock w) := by
  unfold periphs_qspi_flash_unlock
  split
  · exact Steps.log w _ (h _)
  · exact Steps.refl Q w

/-- What the restore step does after its bus part: LED off, semaphores given. -/
theorem cleanup_tail_steps (b : Bool) (w : World) :
    Steps (fun e => !e.isBus) w
      (periphs_qspi_flash_unlock
        (if b then periphs_jpeg_buffer_unlock (set_CCR 0 0 0 w) else set_CCR 0 0 0 w)) := by
  have h1 : Steps (fun e => !e.isBus) w (set_CCR 0 0 0 w) := set_CCR_steps _ _ _ _ (fun _ _ => rfl)
  cases b
  · exact h1.trans (periphs_qspi_flash_unlock_steps _ (fun _ => rfl))
  · exact (h1.trans (periphs_jpeg_buffer_unlock_steps _ (fun _ => rfl))).trans
      (periphs_qspi_flash_unlock_steps _ (fun _ => rfl))

theorem allowsInit_noMemMap : AllowsInit (fun e => !e.isMemMapCfg) :=
  ⟨⟨fun _ => rfl, fun _ _ _ => rfl⟩, fun _ _ => rfl, fun _ => rfl, fun _ _ => rfl⟩

/-- The log of `QSPI_Init` starts with the reset-enable command and holds no
memory-mapped configuration. -/
theorem QSPI_Init_events (w : World) :
    ∃ rest, (QSPI_Init w).2.trace =
        w.trace ++ Event.command (plainCmd RESET_ENABLE_CMD) (w.halResult w.halCalls) :: rest ∧
      ∀ e ∈ rest, e.isMemMapCfg = false := by
  have s := (OSPI_ResetChip_tail allowsInit_noMemMap w).trans
    (QSPI_Init_tail allowsInit_noMemMap w)
  obtain ⟨rest, he, hq⟩ := s.trace
  refine ⟨rest, ?_, fun e hm => by simpa using hq e hm⟩
  rw [he]
  simp [HAL_OSPI_Command]

/-- The log of `QSPI_EnableMemoryMappedMode` starts with the read configuration
command. -/
theorem QSPI_EnableMemoryMappedMode_events (w : World) :
    ∃ rest, (QSPI_EnableMemoryMappedMode w).2.trace =
      w.trace ++ Event.command (memMapCmd OperationType.READ_CFG FAST_READ_QUAD_OUT_CMD 8)
        (w.halResult w.halCalls) :: rest := by
  unfold QSPI_EnableMemoryMappedMode
  simp only [HAL_OSPI_Command, HAL_OSPI_MemoryMapped]
  split
  · exact ⟨[], rfl⟩
  · split
    · exact ⟨_, List.append_assoc _ _ _⟩
    · split
      · exact ⟨_, (List.append_assoc _ _ _).trans (List.append_assoc _ _ _)⟩
      · exact ⟨_, (List.append_assoc _ _ _).trans (List.append_assoc _ _ _)⟩

open Sem in
/-- Counterexample to C6: when the first HAL call of `QSPI_Init` fails, the restore
step logs that one reset-enable command, the failure message, the LED stores and the
gives; `QSPI_EnableMemoryMappedMode` is not called, so no memory-mapped configuration
is issued. -/
theorem cleanup_skips_memmap_after_init_failure :
    (flash_image_cleanup true initFailWorld).trace =
      [Event.command (plainCmd RESET_ENABLE_CMD) HAL_ERROR, Event.printf "QSPI init failed\n",
        Event.ccr 1 0, Event.ccr 2 0, Event.ccr 3 0,
        Event.semb_give JPEG_buffer_lock, Event.semb_give QSPI_flash_lock] ∧
    (flash_image_cleanup true initFailWorld).trace.any Event.isMemMapCfg = false := by
  decide

/-- C6 as amended: every invocation of the restore step `flash_image_cleanup`
re-initialises the flash controller, its first call being the reset-enable command
of `QSPI_Init`, and it issues the memory-mapped configuration
(`QSPI_EnableMemoryMappedMode`) exactly when `QSPI_Init` returned `HAL_OK`; when
`QSPI_Init` failed no memory-mapped configuration is issued. -/
theorem cleanup_memmap_only_after_init (b : Bool) (w : World) :
    ∃ rest, (flash_image_cleanup b w).trace =
        w.trace ++ Event.command (plainCmd RESET_ENABLE_CMD) (w.halResult w.halCalls) :: rest ∧
      (rest.any Event.isMemMapCfg = true ↔ (QSPI_Init w).1 = HAL_OK) := by
  have key : ∀ {a c : World}, Steps (fun e => !e.isBus) a c →
      ∃ es, c.trace = a.trace ++ es ∧ ∀ e ∈ es, e.isMemMapCfg = false := by
    intro a c h
    obtain ⟨es, he, hq⟩ := h.trace
    refine ⟨es, he, fun e hm => ?_⟩
    have := hq e hm
    cases e <;> simp_all [Event.isBus, Event.isMemMapCfg]
  obtain ⟨r0, hi, hr0⟩ := QSPI_Init_events w
  obtain ⟨r1, hm⟩ := QSPI_EnableMemoryMappedMode_events (QSPI_Init w).2
  unfold flash_image_cleanup
  rcases hA : QSPI_Init w with ⟨s1, w1⟩
  rw [hA] at hi hm
  simp only [] at hi hm ⊢
  rcases hB : QSPI_EnableMemoryMappedMode w1 with ⟨s2, w2⟩
  rw [hB] at hm
  simp only [] at hm ⊢
  by_cases h1 : s1 = HAL_OK
  · subst h1
    simp only [ne_eq, not_true_eq_false, if_false]
    by_cases h2 : s2 = HAL_OK
    · simp only [h2, not_true_eq_false, if_false]
      obtain ⟨es, he, _⟩ := key (cleanup_tail_steps b w2)
      refine ⟨r0 ++ Event.command (memMapCmd OperationType.READ_CFG FAST_READ_QUAD_OUT_CMD 8)
        (w1.halResult w1.halCalls) :: r1 ++ es, ?_, ?_⟩
      · rw [he, hm, hi]; simp
      · simp [Event.isMemMapCfg, memMapCmd]
    · simp only [h2, not_false_eq_true, if_true]
      obtain ⟨es, he, _⟩ := key ((printf_steps "QSPI map failed\n" w2 rfl).trans
        (cleanup_tail_steps b _))
      refine ⟨r0 ++ Event.command (memMapCmd OperationType.READ_CFG FAST_READ_QUAD_OUT_CMD 8)
        (w1.halResult w1.halCalls) :: r1 ++ es, ?_, ?_⟩
      · rw [he, hm, hi]; simp
      · simp [Event.isMemMapCfg, memMapCmd]
  · simp only [ne_eq, h1, not_false_eq_true, if_true, iff_false, Bool.not_eq_true]
    obtain ⟨es, he, hes⟩ := key ((printf_steps "QSPI init failed\n" w1 rfl).trans
      (cleanup_tail_steps b _))
    refine ⟨r0 ++ es, ?_, ?_⟩
    · rw [he, hi]; simp
    · rw [List.any_eq_false]
      intro e hmem
      rcases List.mem_append.mp hmem with h | h
      · simp [hr0 e h]
      · simp [hes e h]

/-- C7, the code at a failing input: the page program of the length header fails
(HAL call 10), and `save_image` still issues the page programs of the first page
(address 4, 252 bytes) and of the rest (address 256, 48 bytes) and reports
success before it reaches the restore step. -/
theorem save_image_continues_after_header_failure :
    (save_image headerFailWorld).map (fun w => w.trace.filter Event.isProgram) =
      some [Event.command (programCmd 0 4) HAL_ERROR, Event.command (programCmd 4 252) HAL_OK,
        Event.command (programCmd 256 48) HAL_OK] ∧
    (save_image headerFailWorld).map
        (fun w => w.trace.filter (fun e =>
          match e with
          | Event.printf _ => true
          | _ => false)) =
      some [Event.printf "[1] QSPI_ProgramPage failed.\n",
        Event.printf "Write %ld bytes from 0x%lx to external flash:",
        Event.printf "Finished successfully.\n"] := by
  decide

open Sem in
/-- C9 (lock balance of a persistence operation): on every path, whatever the
semaphore waits and the HAL calls return, the log of `save_image` and the log of
`erase_image` are balanced: each semaphore is given exactly as often as it was
obtained, which is at most once, and never before it was obtained; `erase_image`
neither obtains nor gives the capture-buffer semaphore. -/
theorem lock_balance (w : World) :
    (∃ w' es, save_image w = some w' ∧ w'.trace = w.trace ++ es ∧ Balanced es) ∧
    (∃ es, (erase_image w).trace = w.trace ++ es ∧ Balanced es ∧
      acquired JPEG_buffer_lock es = 0 ∧ released JPEG_buffer_lock es = 0) := by
  obtain ⟨b0, b1, b2, b3, b4, b5, b6⟩ := balanced_cases
  constructor
  · obtain ⟨w', es, h1, h2, h3⟩ := save_image_lock_events w
    refine ⟨w', es, h1, h2, balanced_of_filter es ?_⟩
    rcases h3 with h | h | h | h | h <;> rw [h] <;> assumption
  · obtain ⟨es, h2, h3⟩ := erase_image_lock_events w
    have ha : acquired JPEG_buffer_lock (es.filter Event.isLock) =
        acquired JPEG_buffer_lock es := List.count_filter (by rfl)
    have hr : released JPEG_buffer_lock (es.filter Event.isLock) =
        released JPEG_buffer_lock es := List.count_filter (by rfl)
    refine ⟨es, h2, balanced_of_filter es ?_, ?_, ?_⟩
    · rcases h3 with h | h | h <;> rw [h] <;> assumption
    · rw [← ha]; rcases h3 with h | h | h <;> rw [h] <;> decide
    · rw [← hr]; rcases h3 with h | h | h <;> rw [h] <;> decide

open Sem in
/-- Counterexample to C10: in the run where everything succeeds `save_image` gives
the capture-buffer semaphore first and the flash semaphore second, so the flash
lock is not released before the capture-buffer lock. -/
theorem save_image_gives_in_acquisition_order :
    (save_image (demoWorld 300)).map (fun w => w.trace.filter Event.isLock) =
      some [Event.semb_wait JPEG_buffer_lock true, Event.semb_wait QSPI_flash_lock true,
        Event.semb_give JPEG_buffer_lock, Event.semb_give QSPI_flash_lock] := by
  decide

open Sem in
/-- C10 as amended: on every path on which `save_image` gives both semaphores, it
gives them in acquisition order: its semaphore calls are, in order, the wait on the
capture-buffer semaphore, the wait on the flash semaphore, the give of the
capture-buffer semaphore and the give of the flash semaphore. -/
theorem save_image_release_order (w w' : World) (es : List Event)
    (h : save_image w = some w') (ht : w'.trace = w.trace ++ es)
    (hJ : 0 < released JPEG_buffer_lock es) (hQ : 0 < released QSPI_flash_lock es) :
    es.filter Event.isLock =
      [Event.semb_wait JPEG_buffer_lock true, Event.semb_wait QSPI_flash_lock true,
        Event.semb_give JPEG_buffer_lock, Event.semb_give QSPI_flash_lock] := by
  obtain ⟨w'', es', h1, h2, h3⟩ := save_image_lock_events w
  rw [h] at h1
  cases h1
  have hes : es' = es := List.append_cancel_left (h2.symm.trans ht)
  subst hes
  have hr : released QSPI_flash_lock (es'.filter Event.isLock) =
      released QSPI_flash_lock es' := List.count_filter (by rfl)
  rw [← hr] at hQ
  rcases h3 with h | h | h | h | h
  · rw [h] at hQ; exact absurd hQ (by decide)
  · rw [h] at hQ; exact absurd hQ (by decide)
  · rw [h] at hQ; exact absurd hQ (by decide)
  · rw [h] at hQ; exact absurd hQ (by decide)
  · exact h

open Sem in
/-- Witness of the amended C10 in the run where everything succeeds. -/
theorem save_image_release_order_witness :
    ∃ w', save_image (demoWorld 300) = some w' ∧
      w'.trace.filter Event.isLock =
        [Event.semb_wait JPEG_buffer_lock true, Event.semb_wait QSPI_flash_lock true,
          Event.semb_give JPEG_buffer_lock, Event.semb_give QSPI_flash_lock] := by
  have hd : (save_image (demoWorld 300)).map
      (fun w => (released JPEG_buffer_lock w.trace, released QSPI_flash_lock w.trace)) =
      some (1, 1) := by decide
  cases h : save_image (demoWorld 300) with
  | none => rw [h] at hd; cases hd
  | some w' =>
    rw [h] at hd
    have h1 : released JPEG_buffer_lock w'.trace = 1 := congrArg Prod.fst (Option.some.inj hd)
    have h2 : released QSPI_flash_lock w'.trace = 1 := congrArg Prod.snd (Option.some.inj hd)
    exact ⟨w', rfl, save_image_release_order (demoWorld 300) w' w'.trace h rfl
      (by rw [h1]; decide) (by rw [h2]; decide)⟩

/-- C12 (two-edge delimiting): a frame-sync edge that arrives while `got_sof` is 0
completes nothing.  `BSP_CAMERA_VsyncEventCallback` only sets `got_sof` to 1:
`image_data_size` and `image_data_ptr` keep their values, nothing is logged (so
`HAL_DCMI_Stop` is not called and the capture-buffer semaphore is not given) and no
DCMI call is counted. -/
theorem vsync_first_edge_completes_nothing (Instance : Nat) (w : World) (h : w.got_sof = 0) :
    BSP_CAMERA_VsyncEventCallback Instance w = { w with got_sof := 1 } ∧
      (BSP_CAMERA_VsyncEventCallback Instance w).image_data_size = w.image_data_size ∧
      (BSP_CAMERA_VsyncEventCallback Instance w).image_data_ptr = w.image_data_ptr ∧
      (BSP_CAMERA_VsyncEventCallback Instance w).trace = w.trace ∧
      (BSP_CAMERA_VsyncEventCallback Instance w).dcmiCalls = w.dcmiCalls ∧
      (BSP_CAMERA_VsyncEventCallback Instance w).got_sof = 1 := by
  have e : BSP_CAMERA_VsyncEventCallback Instance w = { w with got_sof := 1 } := by
    unfold BSP_CAMERA_VsyncEventCallback
    rw [if_neg (by simp [h])]
  rw [e]
  exact ⟨rfl, rfl, rfl, rfl, rfl, rfl⟩

theorem vsync_first_edge_completes_nothing_witness :
    (demoWorld 300).got_sof = 0 ∧
      (BSP_CAMERA_VsyncEventCallback 0 (demoWorld 300)).image_data_size = 300 ∧
      (BSP_CAMERA_VsyncEventCallback 0 (demoWorld 300)).trace = [] :=
  ⟨rfl, (vsync_first_edge_completes_nothing 0 (demoWorld 300) rfl).2.1,
    (vsync_first_edge_completes_nothing 0 (demoWorld 300) rfl).2.2.2.1⟩

open Sem in
/-- Log of `rest_ep_get_saved_image` when the flash semaphore is obtained, by the
value of the length header. -/
theorem rest_ep_get_saved_image_locked (f0 : Flash) (w : World)
    (hQl : w.QSPI_flash_lock = true) (hs : w.semResult w.semCalls = true) :
    (rest_ep_get_saved_image f0 w).trace = w.trace ++
      (if SAVED_IMAGE_DATA_SIZE (flashAfter f0 w.trace) = 0 then
        [Event.semb_wait QSPI_flash_lock true, Event.mapped_read 0,
          Event.semb_give QSPI_flash_lock, Event.restfs_write_const RestPtr.failedhtml 32]
      else if SAVED_IMAGE_DATA_SIZE (flashAfter f0 w.trace) < 65532 then
        [Event.semb_wait QSPI_flash_lock true, Event.mapped_read 0, Event.mapped_read 0,
          Event.mapped_read 0,
          Event.restfs_write_const (RestPtr.addr (w.OCTOSPI1_BASE + 4))
            (SAVED_IMAGE_DATA_SIZE (flashAfter f0 w.trace) % 65536)]
      else
        [Event.semb_wait QSPI_flash_lock true, Event.mapped_read 0, Event.mapped_read 0,
          Event.semb_give QSPI_flash_lock, Event.restfs_write_const RestPtr.failedhtml 32]) := by
  have hf : ∀ es : List Event, (∀ e ∈ es, e.isBus = false) →
      flashAfter f0 (w.trace ++ es) = flashAfter f0 w.trace := by
    intro es
    induction es using List.reverseRecOn with
    | nil => intro _; simp
    | append_singleton l e ih =>
      intro h
      rw [← List.append_assoc, flashAfter_append, ih (fun x hx => h x (by simp [hx]))]
      have he := h e (by simp)
      cases e <;> simp_all [flashAfter, Flash.step, Event.isBus]
  unfold rest_ep_get_saved_image
  simp only [periphs_qspi_flash_lock, hQl, if_true, mmosal_semb_wait, hs, Bool.not_true,
    Bool.false_eq_true, if_false, read_SAVED_IMAGE_DATA_SIZE, World.log, List.append_assoc,
    List.singleton_append, List.cons_append, List.nil_append]
  rw [hf _ (by simp [Event.isBus]), hf _ (by simp [Event.isBus]), hf _ (by simp [Event.isBus])]
  by_cases h0 : SAVED_IMAGE_DATA_SIZE (flashAfter f0 w.trace) = 0
  · simp [h0, rest_ep_failed, restfs_write_const, periphs_qspi_flash_unlock, hQl,
      mmosal_semb_give, World.log]
  · by_cases h1 : SAVED_IMAGE_DATA_SIZE (flashAfter f0 w.trace) < 65532
    · simp [h0, h1, restfs_write_const, World.log]
    · simp [h0, h1, rest_ep_failed, restfs_write_const, periphs_qspi_flash_unlock, hQl,
        mmosal_semb_give, World.log]

/-- Log of `rest_ep_get_saved_image` when the flash semaphore is not obtained. -/
theorem rest_ep_get_saved_image_unlocked (f0 : Flash) (w : World)
    (h : (periphs_qspi_flash_lock w).1 = false) :
    (rest_ep_get_saved_image f0 w).trace =
      (periphs_qspi_flash_lock w).2.trace ++ [Event.restfs_write_const RestPtr.failedhtml 32] := by
  unfold rest_ep_get_saved_image
  rcases hL : periphs_qspi_flash_lock w with ⟨l, w1⟩
  rw [hL] at h
  simp only [] at h ⊢
  subst h
  rfl

/-- Log of `http_file_sent`, case by case. -/
theorem http_file_sent_cases (m0 : Mode) (f0 : Flash) (end_address : Nat) (w : World) :
    (end_address = (w.JPEG_buffer + w.image_data_size) % 4294967296 →
      http_file_sent m0 f0 end_address w = periphs_jpeg_buffer_unlock w) ∧
    (end_address ≠ (w.JPEG_buffer + w.image_data_size) % 4294967296 →
      periphs_qspi_is_memmap_running m0 w = true →
      end_address = (w.OCTOSPI1_BASE + 4 + SAVED_IMAGE_DATA_SIZE (flashAfter f0 w.trace)) % 4294967296 →
      http_file_sent m0 f0 end_address w
        = periphs_qspi_flash_unlock (w.log (Event.mapped_read 0))) ∧
    (end_address ≠ (w.JPEG_buffer + w.image_data_size) % 4294967296 →
      periphs_qspi_is_memmap_running m0 w = true →
      end_address ≠ (w.OCTOSPI1_BASE + 4 + SAVED_IMAGE_DATA_SIZE (flashAfter f0 w.trace)) % 4294967296 →
      http_file_sent m0 f0 end_address w = w.log (Event.mapped_read 0)) ∧
    (end_address ≠ (w.JPEG_buffer + w.image_data_size) % 4294967296 →
      periphs_qspi_is_memmap_running m0 w = false →
      http_file_sent m0 f0 end_address w = w) := by
  refine ⟨fun h => ?_, fun h hm he => ?_, fun h hm he => ?_, fun h hm => ?_⟩
  · unfold http_file_sent
    rw [if_pos h]
  · unfold http_file_sent
    rw [if_neg h, if_pos hm]
    simp only [read_SAVED_IMAGE_DATA_SIZE]
    rw [if_pos (by simpa [World.log] using he)]
  · unfold http_file_sent
    rw [if_neg h, if_pos hm]
    simp only [read_SAVED_IMAGE_DATA_SIZE]
    rw [if_neg (by simpa [World.log] using he)]
  · unfold http_file_sent
    rw [if_neg h, if_neg (by simp [hm])]

open Sem in
/-- C18 (completion callback): with both semaphores created, `http_file_sent(end)`
gives the capture-buffer semaphore, and logs nothing else, when
`end = JPEG_buffer + image_data_size`; otherwise, when memory-mapped mode is running, it
reads the stored size from the mapped flash and gives the flash semaphore exactly
when `end = OCTOSPI1_BASE + 4 + stored size` (both sums in 32-bit pointer
arithmetic); otherwise, when memory-mapped mode is
not running, it returns the world unchanged, so it gives nothing and does not read
the mapped flash.  No case gives both semaphores. -/
theorem http_file_sent_decides_lock (m0 : Mode) (f0 : Flash) (end_address : Nat) (w : World)
    (hJ : w.JPEG_buffer_lock = true) (hQl : w.QSPI_flash_lock = true) :
    (end_address = (w.JPEG_buffer + w.image_data_size) % 4294967296 →
      (http_file_sent m0 f0 end_address w).trace
        = w.trace ++ [Event.semb_give JPEG_buffer_lock]) ∧
    (end_address ≠ (w.JPEG_buffer + w.image_data_size) % 4294967296 →
      periphs_qspi_is_memmap_running m0 w = true →
      end_address = (w.OCTOSPI1_BASE + 4 + SAVED_IMAGE_DATA_SIZE (flashAfter f0 w.trace)) % 4294967296 →
      (http_file_sent m0 f0 end_address w).trace
        = w.trace ++ [Event.mapped_read 0, Event.semb_give QSPI_flash_lock]) ∧
    (end_address ≠ (w.JPEG_buffer + w.image_data_size) % 4294967296 →
      periphs_qspi_is_memmap_running m0 w = true →
      end_address ≠ (w.OCTOSPI1_BASE + 4 + SAVED_IMAGE_DATA_SIZE (flashAfter f0 w.trace)) % 4294967296 →
      (http_file_sent m0 f0 end_address w).trace = w.trace ++ [Event.mapped_read 0]) ∧
    (end_address ≠ (w.JPEG_buffer + w.image_data_size) % 4294967296 →
      periphs_qspi_is_memmap_running m0 w = false →
      http_file_sent m0 f0 end_address w = w) := by
  obtain ⟨c1, c2, c3, c4⟩ := http_file_sent_cases m0 f0 end_address w
  refine ⟨fun h => ?_, fun h hm he => ?_, fun h hm he => ?_, c4⟩
  · rw [c1 h]
    simp [periphs_jpeg_buffer_unlock, hJ, mmosal_semb_give, World.log]
  · rw [c2 h hm he]
    simp [periphs_qspi_flash_unlock, hQl, mmosal_semb_give, World.log]
  · rw [c3 h hm he]
    simp [World.log]

theorem http_file_sent_decides_lock_witness :
    (http_file_sent Mode.MemoryMapped savedFlash (0x20000000 + 300) (demoWorld 300)).trace
      = [Event.semb_give Sem.JPEG_buffer_lock] :=
  (http_file_sent_decides_lock Mode.MemoryMapped savedFlash (0x20000000 + 300) (demoWorld 300)
    rfl rfl).1 rfl

open Sem in
/-- C17, amended: with the flash semaphore obtained, `rest_ep_get_saved_image` serves
the stored image, `size` bytes from `OCTOSPI1_BASE + 4`, keeping the semaphore, when
the header value `size` satisfies `0 < size < 65532`; it gives the semaphore back
and serves the failure page when the header value is 0 or greater than 65532.  On
the other side `save_image` rejects every live length below 256 or above 65532, so
it stores only headers from 256 to 65532. -/
theorem saved_image_served_range (f0 : Flash) (w : World)
    (hQl : w.QSPI_flash_lock = true) (hs : w.semResult w.semCalls = true) :
    (0 < SAVED_IMAGE_DATA_SIZE (flashAfter f0 w.trace) ∧
        SAVED_IMAGE_DATA_SIZE (flashAfter f0 w.trace) < 65532 →
      (rest_ep_get_saved_image f0 w).trace = w.trace ++
        [Event.semb_wait QSPI_flash_lock true, Event.mapped_read 0, Event.mapped_read 0,
          Event.mapped_read 0,
          Event.restfs_write_const (RestPtr.addr (w.OCTOSPI1_BASE + 4))
            (SAVED_IMAGE_DATA_SIZE (flashAfter f0 w.trace))]) ∧
    (SAVED_IMAGE_DATA_SIZE (flashAfter f0 w.trace) = 0 →
      (rest_ep_get_saved_image f0 w).trace = w.trace ++
        [Event.semb_wait QSPI_flash_lock true, Event.mapped_read 0,
          Event.semb_give QSPI_flash_lock, Event.restfs_write_const RestPtr.failedhtml 32]) ∧
    (65532 < SAVED_IMAGE_DATA_SIZE (flashAfter f0 w.trace) →
      (rest_ep_get_saved_image f0 w).trace = w.trace ++
        [Event.semb_wait QSPI_flash_lock true, Event.mapped_read 0, Event.mapped_read 0,
          Event.semb_give QSPI_flash_lock, Event.restfs_write_const RestPtr.failedhtml 32]) ∧
    (∀ w0 : World, w0.image_data_size < 256 ∨ w0.image_data_size > 65532 →
      save_image w0 = some { w0 with trace := w0.trace ++ [Event.printf "No image!\n"] }) := by
  have e := rest_ep_get_saved_image_locked f0 w hQl hs
  refine ⟨fun h => ?_, fun h => ?_, fun h => ?_, fun w0 h => ?_⟩
  · rw [e, if_neg (by omega), if_pos h.2, Nat.mod_eq_of_lt (by omega)]
  · rw [e, if_pos h]
  · rw [e, if_neg (by omega), if_neg (by omega)]
  · exact save_image_reject w0 (h.elim Or.inl (fun h2 => Or.inr (Or.inl h2)))

theorem saved_image_served_range_witness :
    (rest_ep_get_saved_image savedFlash (demoWorld 0)).trace =
      [Event.semb_wait Sem.QSPI_flash_lock true, Event.mapped_read 0, Event.mapped_read 0,
        Event.mapped_read 0, Event.restfs_write_const (RestPtr.addr (0x90000000 + 4)) 300] :=
  (saved_image_served_range savedFlash (demoWorld 0) rfl rfl).1 ⟨by decide, by decide⟩

/-- C17, counterexample: a stored image whose header reads 100, below 256, is
served: `rest_ep_get_saved_image` hands 100 bytes from `OCTOSPI1_BASE + 4` to
`restfs_write_const` and keeps the flash semaphore. -/
theorem saved_image_of_100_bytes_is_served :
    SAVED_IMAGE_DATA_SIZE smallFlash = 100 ∧
      (rest_ep_get_saved_image smallFlash (demoWorld 0)).trace =
        [Event.semb_wait Sem.QSPI_flash_lock true, Event.mapped_read 0, Event.mapped_read 0,
          Event.mapped_read 0, Event.restfs_write_const (RestPtr.addr (0x90000000 + 4)) 100] := by
  decide

/-- The restore step changes no global and no part of the environment. -/
theorem flash_image_cleanup_steps_any (b : Bool) (w : World) :
    Steps (fun _ => true) w (flash_image_cleanup b w) := by
  obtain ⟨w2, s2, h2⟩ := flash_image_cleanup_shape allowsRestore_true b w
  rw [h2]
  exact s2.trans ((cleanup_tail_steps b w2).mono (fun _ _ => rfl))

/-- An `erase_image` that obtains the semaphore and in which every HAL call succeeds
sets block 0 of the device to `0xFF`, leaves the other bytes alone and makes one
semaphore wait. -/
theorem erase_image_ok (w : World) (hQl : w.QSPI_flash_lock = true)
    (hsQ : w.semResult w.semCalls = true) (h : AllOK w) (f : Flash) :
    (flashAfter f (erase_image w).trace).mem
        = (fun a => if a / MEMORY_BLOCK_SIZE = 0 then 0xFF else (flashAfter f w.trace).mem a) ∧
      (erase_image w).QSPI_flash_lock = true ∧
      (erase_image w).semResult = w.semResult ∧
      (erase_image w).semCalls = w.semCalls + 1 := by
  have hLQ : periphs_qspi_flash_lock w = (true, { w with
      semCalls := w.semCalls + 1
      trace := w.trace ++ [Event.semb_wait Sem.QSPI_flash_lock true] }) := by
    simp [periphs_qspi_flash_lock, hQl, mmosal_semb_wait, hsQ]
  have hAb : HAL_OSPI_Abort (set_CCR 0 0 1000 { w with
      semCalls := w.semCalls + 1
      trace := w.trace ++ [Event.semb_wait Sem.QSPI_flash_lock true] }) =
      (HAL_OK, erase_image_at_abort w HAL_OK) := by
    simp [HAL_OSPI_Abort, set_CCR, World.log, h _, erase_image_at_abort]
  have hA : AllOK (erase_image_at_abort w HAL_OK) := h
  have hfA : flashAfter f (erase_image_at_abort w HAL_OK).trace = flashAfter f w.trace := by
    simp [erase_image_at_abort, flashAfter_append]
    simp [flashAfter, Flash.step]
  have hqA : (erase_image_at_abort w HAL_OK).QSPI_flash_lock = true := hQl
  have hrA : (erase_image_at_abort w HAL_OK).semResult = w.semResult := rfl
  have hcA : (erase_image_at_abort w HAL_OK).semCalls = w.semCalls + 1 := rfl
  unfold erase_image
  rw [hLQ]
  simp only [Bool.not_true, Bool.false_eq_true, if_false]
  rw [hAb]
  simp only [ne_eq, not_true_eq_false, if_false]
  revert hA hfA hqA hrA hcA
  generalize erase_image_at_abort w HAL_OK = wA
  intro hA hfA hqA hrA hcA
  have o1 := QSPI_WriteEnable_ok wA hA
  have s1 := QSPI_WriteEnable_steps allowsWrite_true.poll allowsWrite_true.writeEnable wA
  rcases h1 : QSPI_WriteEnable wA with ⟨r2, w4⟩
  rw [h1] at s1 o1
  simp only [] at s1 o1 ⊢
  have o2 := QSPI_BlockSectorErase_ok w4 (hA.of_steps s1)
  have s2 := QSPI_BlockSectorErase_steps allowsWrite_true.poll 0 allowsWrite_true.erase w4
  rcases h2 : QSPI_BlockSectorErase 0 w4 with ⟨r3, w5⟩
  rw [h2] at s2 o2
  simp only [] at s2 o2 ⊢
  rw [o1.1, o2.1]
  simp only [not_true_eq_false, if_false]
  have s3 : Steps (fun _ => true) w5 (set_CCR 0 0 0 (mmosal_task_sleep 800 w5)) :=
    (mmosal_task_sleep_steps _ _ rfl).trans (set_CCR_steps _ _ _ _ (fun _ _ => rfl))
  have s4 := flash_image_cleanup_steps_any false (set_CCR 0 0 0 (mmosal_task_sleep 800 w5))
  have sAll := ((s1.trans s2).trans s3).trans s4
  refine ⟨?_, by rw [sAll.qspiLock, hqA], by rw [sAll.semResult, hrA],
    by rw [sAll.semCalls, hcA]⟩
  rw [flash_image_cleanup_ok false _ ((hA.of_steps (s1.trans s2)).of_steps s3) f,
    flashAfter_set_CCR, mmosal_task_sleep, flashAfter_log _ _ (Event.sleep 800) rfl, o2.2 f,
    o1.2 f, hfA]

open Sem in
/-- C16 (erase makes the stored image absent): after an `erase_image` that obtains the
flash semaphore and in which every HAL call succeeds, the length header of the
device reads `0xFFFFFFFF`, and a following `rest_ep_get_saved_image` hands no flash
bytes to `restfs_write_const`: if it obtains the semaphore it gives it back and then
serves the failure page, if its wait times out it serves the failure page.  A
header that reads 0 is rejected in the same way. -/
theorem erase_makes_saved_image_absent (f0 : Flash) (w : World)
    (hQl : w.QSPI_flash_lock = true) (hsQ : w.semResult w.semCalls = true) (h : AllOK w) :
    SAVED_IMAGE_DATA_SIZE (flashAfter f0 (erase_image w).trace) = 0xFFFFFFFF ∧
    (w.semResult (w.semCalls + 1) = true →
      (rest_ep_get_saved_image f0 (erase_image w)).trace = (erase_image w).trace ++
        [Event.semb_wait QSPI_flash_lock true, Event.mapped_read 0, Event.mapped_read 0,
          Event.semb_give QSPI_flash_lock, Event.restfs_write_const RestPtr.failedhtml 32]) ∧
    (w.semResult (w.semCalls + 1) = false →
      (rest_ep_get_saved_image f0 (erase_image w)).trace = (erase_image w).trace ++
        [Event.semb_wait QSPI_flash_lock false,
          Event.restfs_write_const RestPtr.failedhtml 32]) ∧
    (∀ w0 : World, w0.QSPI_flash_lock = true → w0.semResult w0.semCalls = true →
      SAVED_IMAGE_DATA_SIZE (flashAfter f0 w0.trace) = 0 →
      (rest_ep_get_saved_image f0 w0).trace = w0.trace ++
        [Event.semb_wait QSPI_flash_lock true, Event.mapped_read 0,
          Event.semb_give QSPI_flash_lock, Event.restfs_write_const RestPtr.failedhtml 32]) := by
  obtain ⟨hm, hq, hr, hc⟩ := erase_image_ok w hQl hsQ h f0
  have hS : SAVED_IMAGE_DATA_SIZE (flashAfter f0 (erase_image w).trace) = 0xFFFFFFFF := by
    unfold SAVED_IMAGE_DATA_SIZE
    rw [hm]
    simp [MEMORY_BLOCK_SIZE]
  refine ⟨hS, fun hs => ?_, fun hs => ?_, fun w0 h0 h1 h2 => ?_⟩
  · rw [rest_ep_get_saved_image_locked f0 _ hq (by rw [hr, hc]; exact hs), hS]
    rfl
  · rw [rest_ep_get_saved_image_unlocked f0 _
      (by simp [periphs_qspi_flash_lock, hq, mmosal_semb_wait, hr, hc, hs])]
    simp [periphs_qspi_flash_lock, hq, mmosal_semb_wait, hr, hc, hs]
  · rw [rest_ep_get_saved_image_locked f0 _ h0 h1, if_pos h2]

theorem erase_makes_saved_image_absent_witness :
    SAVED_IMAGE_DATA_SIZE (flashAfter savedFlash (erase_image (demoWorld 300)).trace)
      = 0xFFFFFFFF :=
  (erase_makes_saved_image_absent savedFlash (demoWorld 300) rfl rfl (fun _ => rfl)).1

open Sem in
/-- Semaphore calls of `rest_ep_get_image`, in order, on every path. -/
theorem rest_ep_get_image_lock_events (w : World) :
    ∃ es, (rest_ep_get_image w).trace = w.trace ++ es ∧
      (es.filter Event.isLock = [] ∨
       es.filter Event.isLock = [Event.semb_wait JPEG_buffer_lock false] ∨
       es.filter Event.isLock = [Event.semb_wait JPEG_buffer_lock true] ∨
       es.filter Event.isLock =
        [Event.semb_wait JPEG_buffer_lock true, Event.semb_give JPEG_buffer_lock]) := by
  cases hJ : w.JPEG_buffer_lock with
  | false =>
    exact ⟨[Event.restfs_write_const RestPtr.failedhtml 32],
      by simp [rest_ep_get_image, periphs_jpeg_buffer_lock, hJ, rest_ep_failed,
        restfs_write_const, World.log], Or.inl rfl⟩
  | true =>
  cases hs : w.semResult w.semCalls with
  | false =>
    exact ⟨[Event.semb_wait JPEG_buffer_lock false,
      Event.restfs_write_const RestPtr.failedhtml 32],
      by simp [rest_ep_get_image, periphs_jpeg_buffer_lock, hJ, mmosal_semb_wait, hs,
        rest_ep_failed, restfs_write_const, World.log], Or.inr (Or.inl rfl)⟩
  | true =>
  by_cases h0 : w.image_data_size = 0
  · exact ⟨[Event.semb_wait JPEG_buffer_lock true, Event.semb_give JPEG_buffer_lock],
      by simp [rest_ep_get_image, periphs_jpeg_buffer_lock, hJ, mmosal_semb_wait, hs,
        periphs_get_live_jpeg_size, h0, periphs_jpeg_buffer_unlock, mmosal_semb_give,
        World.log], Or.inr (Or.inr (Or.inr rfl))⟩
  · exact ⟨[Event.semb_wait JPEG_buffer_lock true,
      Event.restfs_write_const (RestPtr.addr w.JPEG_buffer) (w.image_data_size % 65536)],
      by simp [rest_ep_get_image, periphs_jpeg_buffer_lock, hJ, mmosal_semb_wait, hs,
        periphs_get_live_jpeg_size, h0, periphs_get_jpeg_buffer, restfs_write_const,
        World.log], Or.inr (Or.inr (Or.inl rfl))⟩

open Sem in
/-- Semaphore calls of `rest_ep_get_saved_image`, in order, on every path. -/
theorem rest_ep_get_saved_image_lock_events (f0 : Flash) (w : World) :
    ∃ es, (rest_ep_get_saved_image f0 w).trace = w.trace ++ es ∧
      (es.filter Event.isLock = [] ∨
       es.filter Event.isLock = [Event.semb_wait QSPI_flash_lock false] ∨
       es.filter Event.isLock = [Event.semb_wait QSPI_flash_lock true] ∨
       es.filter Event.isLock =
        [Event.semb_wait QSPI_flash_lock true, Event.semb_give QSPI_flash_lock]) := by
  cases hQl : w.QSPI_flash_lock with
  | false =>
    refine ⟨[Event.restfs_write_const RestPtr.failedhtml 32], ?_, Or.inl rfl⟩
    rw [rest_ep_get_saved_image_unlocked f0 w (by simp [periphs_qspi_flash_lock, hQl])]
    simp [periphs_qspi_flash_lock, hQl]
  | true =>
  cases hs : w.semResult w.semCalls with
  | false =>
    refine ⟨[Event.semb_wait QSPI_flash_lock false,
      Event.restfs_write_const RestPtr.failedhtml 32], ?_, Or.inr (Or.inl rfl)⟩
    rw [rest_ep_get_saved_image_unlocked f0 w
      (by simp [periphs_qspi_flash_lock, hQl, mmosal_semb_wait, hs])]
    simp [periphs_qspi_flash_lock, hQl, mmosal_semb_wait, hs]
  | true =>
  refine ⟨_, rest_ep_get_saved_image_locked f0 w hQl hs, ?_⟩
  split
  · exact Or.inr (Or.inr (Or.inr rfl))
  · split
    · exact Or.inr (Or.inr (Or.inl rfl))
    · exact Or.inr (Or.inr (Or.inr rfl))

open Sem in
/-- Semaphore calls of `http_file_sent` on every path: it waits on nothing and gives
at most one semaphore. -/
theorem http_file_sent_lock_events (m0 : Mode) (f0 : Flash) (end_address : Nat) (w : World) :
    ∃ es, (http_file_sent m0 f0 end_address w).trace = w.trace ++ es ∧
      (es.filter Event.isLock = [] ∨
       es.filter Event.isLock = [Event.semb_give JPEG_buffer_lock] ∨
       es.filter Event.isLock = [Event.semb_give QSPI_flash_lock]) := by
  obtain ⟨c1, c2, c3, c4⟩ := http_file_sent_cases m0 f0 end_address w
  by_cases h : end_address = (w.JPEG_buffer + w.image_data_size) % 4294967296
  · rw [c1 h]
    cases hJ : w.JPEG_buffer_lock with
    | false => exact ⟨[], by simp [periphs_jpeg_buffer_unlock, hJ], Or.inl rfl⟩
    | true =>
      exact ⟨[Event.semb_give JPEG_buffer_lock],
        by simp [periphs_jpeg_buffer_unlock, hJ, mmosal_semb_give, World.log],
        Or.inr (Or.inl rfl)⟩
  · cases hm : periphs_qspi_is_memmap_running m0 w with
    | false => exact ⟨[], by rw [c4 h hm]; simp, Or.inl rfl⟩
    | true =>
      by_cases he : end_address
          = (w.OCTOSPI1_BASE + 4 + SAVED_IMAGE_DATA_SIZE (flashAfter f0 w.trace)) % 4294967296
      · rw [c2 h hm he]
        cases hQl : w.QSPI_flash_lock with
        | false =>
          exact ⟨[Event.mapped_read 0],
            by simp [periphs_qspi_flash_unlock, hQl, World.log], Or.inl rfl⟩
        | true =>
          exact ⟨[Event.mapped_read 0, Event.semb_give QSPI_flash_lock],
            by simp [periphs_qspi_flash_unlock, hQl, mmosal_semb_give, World.log],
            Or.inr (Or.inr rfl)⟩
      · rw [c3 h hm he]
        exact ⟨[Event.mapped_read 0], by simp [World.log], Or.inl rfl⟩

open Sem in
/-- C11, counterexample: two requests with no completion callback between them,
first `rest_ep_get_image` and then `rest_ep_get_saved_image`, on a world with a live
image of 300 bytes and a stored image of 300 bytes, leave the HTTP side holding the
capture-buffer semaphore and the flash semaphore at the same time: both were
obtained and neither has been given. -/
theorem http_requests_hold_both_locks :
    (httpRun Mode.MemoryMapped savedFlash (demoWorld 300)
        [HttpCall.get_image, HttpCall.get_saved_image]).trace.filter Event.isLock
      = [Event.semb_wait JPEG_buffer_lock true, Event.semb_wait QSPI_flash_lock true] ∧
    held JPEG_buffer_lock (httpRun Mode.MemoryMapped savedFlash (demoWorld 300)
        [HttpCall.get_image, HttpCall.get_saved_image]).trace = true ∧
    held QSPI_flash_lock (httpRun Mode.MemoryMapped savedFlash (demoWorld 300)
        [HttpCall.get_image, HttpCall.get_saved_image]).trace = true := by
  decide

open Sem in
/-- C11, amended: `save_image` waits on the capture-buffer semaphore before it waits
on the flash semaphore, `erase_image` waits only on the flash semaphore, and no
other function waits on both: a call of `rest_ep_get_image` waits at most on the
capture-buffer semaphore, a call of `rest_ep_get_saved_image` at most on the flash
semaphore, and `http_file_sent` waits on none and gives at most one.  The lists are
the semaphore calls of one call of each function, in order, on every path. -/
theorem lock_order_per_call (m0 : Mode) (f0 : Flash) (end_address : Nat) (w : World) :
    (∃ w' es, save_image w = some w' ∧ w'.trace = w.trace ++ es ∧
      (es.filter Event.isLock = [] ∨
       es.filter Event.isLock = [Event.semb_wait JPEG_buffer_lock false] ∨
       es.filter Event.isLock =
        [Event.semb_wait JPEG_buffer_lock true, Event.semb_give JPEG_buffer_lock] ∨
       es.filter Event.isLock =
        [Event.semb_wait JPEG_buffer_lock true, Event.semb_wait QSPI_flash_lock false,
          Event.semb_give JPEG_buffer_lock] ∨
       es.filter Event.isLock =
        [Event.semb_wait JPEG_buffer_lock true, Event.semb_wait QSPI_flash_lock true,
          Event.semb_give JPEG_buffer_lock, Event.semb_give QSPI_flash_lock])) ∧
    (∃ es, (erase_image w).trace = w.trace ++ es ∧
      (es.filter Event.isLock = [] ∨
       es.filter Event.isLock = [Event.semb_wait QSPI_flash_lock false] ∨
       es.filter Event.isLock =
        [Event.semb_wait QSPI_flash_lock true, Event.semb_give QSPI_flash_lock])) ∧
    (∃ es, (rest_ep_get_image w).trace = w.trace ++ es ∧
      (es.filter Event.isLock = [] ∨
       es.filter Event.isLock = [Event.semb_wait JPEG_buffer_lock false] ∨
       es.filter Event.isLock = [Event.semb_wait JPEG_buffer_lock true] ∨
       es.filter Event.isLock =
        [Event.semb_wait JPEG_buffer_lock true, Event.semb_give JPEG_buffer_lock])) ∧
    (∃ es, (rest_ep_get_saved_image f0 w).trace = w.trace ++ es ∧
      (es.filter Event.isLock = [] ∨
       es.filter Event.isLock = [Event.semb_wait QSPI_flash_lock false] ∨
       es.filter Event.isLock = [Event.semb_wait QSPI_flash_lock true] ∨
       es.filter Event.isLock =
        [Event.semb_wait QSPI_flash_lock true, Event.semb_give QSPI_flash_lock])) ∧
    (∃ es, (http_file_sent m0 f0 end_address w).trace = w.trace ++ es ∧
      (es.filter Event.isLock = [] ∨
       es.filter Event.isLock = [Event.semb_give JPEG_buffer_lock] ∨
       es.filter Event.isLock = [Event.semb_give QSPI_flash_lock])) :=
  ⟨save_image_lock_events w, erase_image_lock_events w, rest_ep_get_image_lock_events w,
    rest_ep_get_saved_image_lock_events f0 w, http_file_sent_lock_events m0 f0 end_address w⟩

theorem BSP_CAMERA_Start_size (Instance pBff : Nat) (Mode : DCMI_Mode) (w : World) :
    (BSP_CAMERA_Start Instance pBff Mode w).2.image_data_size = w.image_data_size := by
  unfold BSP_CAMERA_Start HAL_DCMI_Start_DMA
  split
  · rfl
  · simp only []
    split <;> rfl

theorem periphs_task_arm_size (w : World) :
    (periphs_task_arm w).image_data_size = w.image_data_size := by
  unfold periphs_task_arm mmosal_semb_wait
  simp only [voidCall, World.log]
  split
  · exact BSP_CAMERA_Start_size _ _ _ _
  · rfl

theorem resultCall_eq_size {n : String} {w w' : World} {c : Bool}
    (h : resultCall n w = (c, w')) : w'.image_data_size = w.image_data_size := by
  rw [← show (resultCall n w).2 = w' from congrArg Prod.snd h]
  rfl

theorem QSPI_Init_eq_size {w w' : World} {r : HAL_StatusTypeDef}
    (h : QSPI_Init w = (r, w')) : w'.image_data_size = w.image_data_size := by
  rw [← show (QSPI_Init w).2 = w' from congrArg Prod.snd h]
  exact (QSPI_Init_steps allowsRestore_true.init w).size

theorem voidCall_size (n : String) (w : World) :
    (voidCall n w).image_data_size = w.image_data_size :=
  rfl

theorem periphs_qspi_flash_unlock_size (w : World) :
    (periphs_qspi_flash_unlock w).image_data_size = w.image_data_size := by
  unfold periphs_qspi_flash_unlock
  split <;> rfl

/-- The flash bring-up of `periphs_start` leaves the live length alone. -/
theorem periphs_start_qspi_size (r1 : HAL_StatusTypeDef) (w11 : World) :
    (if r1 ≠ HAL_OK then printf "QSPI init failed\n" w11
      else
        match QSPI_EnableMemoryMappedMode w11 with
        | (r2, w12) =>
          if r2 ≠ HAL_OK then printf "QSPI map failed\n" w12 else w12).image_data_size
      = w11.image_data_size := by
  split
  · rfl
  · have s := (QSPI_EnableMemoryMappedMode_steps allowsRestore_true w11).size
    rcases hB : QSPI_EnableMemoryMappedMode w11 with ⟨r2, w12⟩
    rw [hB] at s
    simp only [] at s ⊢
    split
    · exact s
    · exact s

/-- When neither semaphore exists yet, `periphs_start` returns, and it leaves the
live length alone. -/
theorem periphs_start_size (w : World) (hJ : w.JPEG_buffer_lock = false)
    (hQ : w.QSPI_flash_lock = false) :
    ∃ w', periphs_start w = some w' ∧ w'.image_data_size = w.image_data_size := by
  unfold periphs_start
  conv => zeta
  rw [if_neg (by rw [show (voidCall "mmhal_set_deep_sleep_veto" w).JPEG_buffer_lock = w.JPEG_buffer_lock from rfl, hJ]; decide)]
  split
  next c1 w2 h2 =>
  have q2 : w2.QSPI_flash_lock = false := by
    rw [← show (resultCall "mmosal_semb_create" (voidCall "mmhal_set_deep_sleep_veto" w)).2 = w2
      from congrArg Prod.snd h2]
    exact hQ
  have z2 : w2.image_data_size = w.image_data_size := (resultCall_eq_size h2).trans rfl
  rw [if_neg (by rw [show ({ w2 with JPEG_buffer_lock := c1 } : World).QSPI_flash_lock = w2.QSPI_flash_lock from rfl, q2]; decide)]
  split
  next c2 w4 h4 =>
  have z4 : w4.image_data_size = w.image_data_size := (resultCall_eq_size h4).trans z2
  split
  next r1 w11 hA =>
  have z11 : w11.image_data_size = w.image_data_size := by
    have e := QSPI_Init_eq_size hA
    rw [voidCall_size, voidCall_size, voidCall_size, voidCall_size,
      periphs_qspi_flash_unlock_size] at e
    exact e.trans z4
  split
  next c3 w17 h17 =>
  have z17 : w17.image_data_size = w.image_data_size := by
    have e := resultCall_eq_size h17
    rw [voidCall_size, voidCall_size, voidCall_size, voidCall_size,
      periphs_start_qspi_size] at e
    exact e.trans z11
  split
  next c4 w22 h22 =>
  have z18 : (if (!c3) = true then printf "\n\nFailed to init camera.\n\n" w17
      else w17).image_data_size = w.image_data_size := by
    split
    · exact z17
    · exact z17
  have z22 : w22.image_data_size = w.image_data_size := by
    have e := resultCall_eq_size h22
    rw [show ∀ (m : String) (X : World), (printf m X).image_data_size = X.image_data_size
      from fun _ _ => rfl, BSP_CAMERA_Start_size, voidCall_size] at e
    exact e.trans z18
  split
  · exact ⟨_, rfl, z22⟩
  · exact ⟨_, rfl, z22⟩

/-- C14, counterexample: after `periphs_start` the live length is 0; once the first
capture has completed with 300 bytes, the arming of the next capture by
`periphs_task` leaves the live length at 300 although a capture is armed again (the
last camera call is a start and `got_sof` is 0). -/
theorem arm_keeps_previous_length :
    (periphs_start bootWorld).map periphs_get_live_jpeg_size = some 0 ∧
    (periphs_start bootWorld).map (fun w => periphs_get_live_jpeg_size (periphs_task_arm
        (HAL_DCMI_VsyncEventCallback (HAL_DCMI_VsyncEventCallback w)))) = some 300 ∧
    (periphs_start bootWorld).map (fun w => ((periphs_task_arm
        (HAL_DCMI_VsyncEventCallback (HAL_DCMI_VsyncEventCallback w))).trace.filter
          Event.isDcmi, (periphs_task_arm
        (HAL_DCMI_VsyncEventCallback (HAL_DCMI_VsyncEventCallback w))).got_sof))
      = some ([Event.dcmi_start DCMI_Mode.DCMI_MODE_SNAPSHOT 0x20000000 8192 HAL_OK,
          Event.dcmi_stop HAL_OK,
          Event.dcmi_start DCMI_Mode.DCMI_MODE_SNAPSHOT 0x20000000 8192 HAL_OK], 0) := by
  decide

/-- C14, amended: arming a capture leaves the live length `image_data_size` unchanged.
The arming block of `periphs_task` returns a world with the same `image_data_size`,
whether or not the semaphore is obtained, and `periphs_start`, which arms the first
capture, returns a world with the same `image_data_size` when neither semaphore
exists yet (its assertions hold). -/
theorem arm_keeps_live_length (w : World) :
    (periphs_task_arm w).image_data_size = w.image_data_size ∧
    (w.JPEG_buffer_lock = false → w.QSPI_flash_lock = false →
      ∃ w', periphs_start w = some w' ∧ w'.image_data_size = w.image_data_size) :=
  ⟨periphs_task_arm_size w, periphs_start_size w⟩

theorem arm_keeps_live_length_witness :
    (periphs_task_arm (demoWorld 300)).image_data_size = 300 ∧
    ∃ w', periphs_start bootWorld = some w' ∧ w'.image_data_size = 0 :=
  ⟨(arm_keeps_live_length (demoWorld 300)).1, (arm_keeps_live_length bootWorld).2 rfl rfl⟩

/-- C19, failing input: when the write-enable command that `QSPI_Configuration` sends
fails (HAL call 9 of the initialisation) and every other call succeeds, `QSPI_Init`
returns `HAL_OK`, although its log holds a failed bus command. -/
theorem QSPI_Init_hides_write_enable_failure :
    (QSPI_Init configFailWorld).1 = HAL_OK ∧
    (QSPI_Init configFailWorld).2.trace.filter Event.failed
      = [Event.command (plainCmd WRITE_ENABLE_CMD) HAL_ERROR] := by
  decide

/-! ## The button -/

theorem holdRound_pin (w : World) :
    (holdRound w).pinReads = w.pinReads + 1 ∧ (holdRound w).pinResult = w.pinResult := by
  simp [holdRound, holdBlink, HAL_GPIO_ReadPin, set_CCR, mmosal_task_sleep, World.log]

theorem holdRounds_pin (k : Nat) (w : World) :
    (holdRounds k w).pinReads = w.pinReads + k ∧ (holdRounds k w).pinResult = w.pinResult := by
  induction k generalizing w with
  | zero => exact ⟨rfl, rfl⟩
  | succ k ih =>
    obtain ⟨h1, h2⟩ := ih (holdRound w)
    refine ⟨?_, ?_⟩
    · show (holdRounds k (holdRound w)).pinReads = _
      rw [h1, (holdRound_pin w).1]
      omega
    · show (holdRounds k (holdRound w)).pinResult = _
      rw [h2, (holdRound_pin w).2]

/-- C23, failing input: with the documented range -4..4 a level of 5 is outside the
range, yet `BSP_CAMERA_SetBrightness(0, 5)` returns `BSP_ERROR_NONE`, calls the
sensor driver with 5 and stores 5 in `Camera_Ctx[0]`; the same holds for
`BSP_CAMERA_SetSaturation`, `BSP_CAMERA_SetContrast` and `BSP_CAMERA_SetHueDegree`,
and for a level of -5. -/
theorem camera_setters_accept_out_of_range :
    (BSP_CAMERA_SetBrightness 0 5 demoCamera).1 = BSP_Status.BSP_ERROR_NONE ∧
    (BSP_CAMERA_SetBrightness 0 5 demoCamera).2.drvCalls = [DrvCall.SetBrightness 5] ∧
    ((BSP_CAMERA_SetBrightness 0 5 demoCamera).2.Camera_Ctx 0).Brightness = 5 ∧
    (BSP_CAMERA_SetSaturation 0 5 demoCamera).1 = BSP_Status.BSP_ERROR_NONE ∧
    (BSP_CAMERA_SetSaturation 0 5 demoCamera).2.drvCalls = [DrvCall.SetSaturation 5] ∧
    ((BSP_CAMERA_SetSaturation 0 5 demoCamera).2.Camera_Ctx 0).Saturation = 5 ∧
    (BSP_CAMERA_SetContrast 0 5 demoCamera).1 = BSP_Status.BSP_ERROR_NONE ∧
    (BSP_CAMERA_SetContrast 0 5 demoCamera).2.drvCalls = [DrvCall.SetContrast 5] ∧
    ((BSP_CAMERA_SetContrast 0 5 demoCamera).2.Camera_Ctx 0).Contrast = 5 ∧
    (BSP_CAMERA_SetHueDegree 0 5 demoCamera).1 = BSP_Status.BSP_ERROR_NONE ∧
    (BSP_CAMERA_SetHueDegree 0 5 demoCamera).2.drvCalls = [DrvCall.SetHueDegree 5] ∧
    ((BSP_CAMERA_SetHueDegree 0 5 demoCamera).2.Camera_Ctx 0).HueDegree = 5 ∧
    (BSP_CAMERA_SetBrightness 0 (-5) demoCamera).1 = BSP_Status.BSP_ERROR_NONE ∧
    (BSP_CAMERA_SetBrightness 0 (-5) demoCamera).2.drvCalls = [DrvCall.SetBrightness (-5)] := by
  decide

/-- The range test of the setters can never fire when the minimum is not above the
maximum: no level is both below the one and above the other. -/
theorem camera_range_test_is_dead (c : Camera) (Brightness : Int)
    (h : c.CAMERA_BRIGHTNESS_MIN ≤ c.CAMERA_BRIGHTNESS_MAX)
    (hI : 0 < c.CAMERA_INSTANCES_NBR) (hcap : c.Camera_Cap.Brightness ≠ 0)
    (hdrv : 0 ≤ c.drvResult c.drvCalls.length) :
    (BSP_CAMERA_SetBrightness 0 Brightness c).1 = BSP_Status.BSP_ERROR_NONE ∧
      (BSP_CAMERA_SetBrightness 0 Brightness c).2.drvCalls
        = c.drvCalls ++ [DrvCall.SetBrightness Brightness] := by
  unfold BSP_CAMERA_SetBrightness
  rw [if_neg (by omega), if_neg hcap]
  simp only [Camera.drv]
  rw [if_neg (by omega)]
  exact ⟨rfl, rfl⟩

/-! ## The shared buffer -/

set_option maxRecDepth 100000 in
/-- C26, failing input: after `shared_buffer_init`, appending a string of 512
characters returns `true`, although the string and its NUL need 513 bytes:
`currentIndex` becomes 512, `strcat` stores 513 bytes from offset 0 on, and the
NUL that the function stores itself goes to offset 512, one past the last element
of the 512-byte array. -/
theorem shared_buffer_append_writes_past_the_array :
    (shared_buffer_append (List.replicate 512 97) (shared_buffer_init rawBuffer)).map
        (fun r => (r.1, r.2.currentIndex, r.2.writes))
      = some (true, 512, [(0, 512), (0, 513), (512, 1)]) := by
  decide

/-! ## What the size check of `save_image` admits -/

/-- C27, counterexample: a live length of 40000 bytes, more than `JPEG_BUFFER_SIZE`,
passes the size check of `save_image`: the call does not print `No image!` but goes
on to wait for the capture-buffer semaphore. -/
theorem save_image_accepts_more_than_the_buffer :
    JPEG_BUFFER_SIZE < oversizeWorld.image_data_size ∧
      (save_image oversizeWorld).map (fun w => w.trace)
        = some [Event.semb_wait Sem.JPEG_buffer_lock false,
            Event.printf "periphs_jpeg_buffer_lock failed.\n"] := by
  decide

/-- C27, amended: every live length that passes the size check of `save_image` fits,
behind the 4-byte header, in the 64 KiB flash block 0: when the call does not take
the `No image!` return, then `256 ≤ image_data_size ≤ 65532`,
`4 + image_data_size ≤ MEMORY_BLOCK_SIZE`, and `image_data_ptr` is not `NULL`. -/
theorem save_image_accepts_block_sized (w : World)
    (h : save_image w ≠ some (printf "No image!\n" w)) :
    256 ≤ w.image_data_size ∧ w.image_data_size ≤ 65532 ∧
      4 + w.image_data_size ≤ MEMORY_BLOCK_SIZE ∧ w.image_data_ptr ≠ none := by
  have hn : ¬ (w.image_data_size < 256 ∨ w.image_data_size > 65532 ∨
      w.image_data_ptr = none) := fun hv => h (save_image_reject w hv)
  refine ⟨by omega, by omega, ?_, fun hp => hn (Or.inr (Or.inr hp))⟩
  show 4 + w.image_data_size ≤ 65536
  omega

theorem save_image_accepts_block_sized_witness :
    256 ≤ firstWaitFailWorld.image_data_size ∧ firstWaitFailWorld.image_data_size ≤ 65532 ∧
      4 + firstWaitFailWorld.image_data_size ≤ MEMORY_BLOCK_SIZE ∧
      firstWaitFailWorld.image_data_ptr ≠ none :=
  save_image_accepts_block_sized firstWaitFailWorld (fun h => by
    have h2 := congrArg (Option.map (fun w => w.trace)) h
    revert h2
    decide)

/-! ## The HTTP reads and their completion callback -/

/-- With the capture buffer in RAM below the flash window and the live length no
longer than the buffer, the end address of a served flash range is never the end
address of the live image. -/
theorem saved_end_is_not_live_end (w : World) (size : Nat)
    (hbuf : w.JPEG_buffer + JPEG_BUFFER_SIZE ≤ w.OCTOSPI1_BASE)
    (hwin : w.OCTOSPI1_BASE + 65536 ≤ 4294967296)
    (hlive : w.image_data_size ≤ JPEG_BUFFER_SIZE) (hsize : size < 65532) :
    (w.OCTOSPI1_BASE + 4 + size) % 4294967296
      ≠ (w.JPEG_buffer + w.image_data_size) % 4294967296 := by
  have h : JPEG_BUFFER_SIZE = 32768 := rfl
  rw [Nat.mod_eq_of_lt (by omega), Nat.mod_eq_of_lt (by omega)]
  omega

/-! ## Page programs and write-enables of a persistence operation -/

theorem weRun_append (a : Bool) (es1 es2 : List Event) :
    weRun a (es1 ++ es2) = (weRun a es1).bind (fun b => weRun b es2) := by
  induction es1 generalizing a with
  | nil => rfl
  | cons e es ih =>
    simp only [List.cons_append, weRun]
    cases weStep a e with
    | none => rfl
    | some b => exact ih b

theorem programs_append (es1 es2 : List Event) :
    programs (es1 ++ es2) = programs es1 ++ programs es2 := by
  simp [programs, List.filterMap_append]

theorem Pages.nil (a : Bool) (w : World) : Pages a a [] w w :=
  ⟨rfl, rfl, [], by simp, rfl, rfl⟩

theorem Pages.seq {a b c : Bool} {L1 L2 : List (Nat × Nat)} {w w1 w2 : World}
    (h1 : Pages a b L1 w w1) (h2 : Pages b c L2 w1 w2) : Pages a c (L1 ++ L2) w w2 := by
  obtain ⟨e1, he1, hr1, hp1⟩ := h1.trace
  obtain ⟨e2, he2, hr2, hp2⟩ := h2.trace
  refine ⟨h2.halResult.trans h1.halResult, h2.size.trans h1.size, e1 ++ e2, ?_, ?_, ?_⟩
  · rw [he2, he1, List.append_assoc]
  · rw [weRun_append, hr1]; exact hr2
  · rw [programs_append, hp1, hp2]

theorem keepsArmed_spec (e : Event) (h : e.keepsArmed = true) (a : Bool) :
    weStep a e = some a ∧ e.pageProgram = none := by
  cases e <;>
    simp_all [Event.keepsArmed, Event.isCommand, weStep, Event.isWriteEnableCmd,
      Event.isStatusReadCmd, Event.isEraseCmd, Event.pageProgram]
  next c st =>
    exact ⟨fun h1 => absurd h1 (by decide), fun h1 _ => absurd h1 (by decide)⟩

theorem harmless_spec (e : Event) (h : e.isHarmless = true) (a : Bool) :
    (∃ b, weStep a e = some b) ∧ e.pageProgram = none := by
  have h2 : e.isEraseCmd = false ∧ e.pageProgram.isSome = false := by
    simpa [Event.isHarmless] using h
  refine ⟨?_, by simpa using h2.2⟩
  unfold weStep
  split
  · exact ⟨_, rfl⟩
  · split
    · exact ⟨_, rfl⟩
    · rw [if_neg (by simp [h2.1, h2.2])]
      split
      · exact ⟨_, rfl⟩
      · exact ⟨_, rfl⟩

/-- A stretch of the log without commands other than status reads leaves the check
where it was. -/
theorem Pages.of_keep {w w' : World} (h : Steps Event.keepsArmed w w') (a : Bool) :
    Pages a a [] w w' := by
  obtain ⟨es, he, hq⟩ := h.trace
  refine ⟨h.halResult, h.size, es, he, ?_, ?_⟩
  · clear he
    induction es with
    | nil => rfl
    | cons e es ih =>
      simp only [weRun, (keepsArmed_spec e (hq e (List.mem_cons_self _ _)) a).1]
      exact ih (fun x hx => hq x (List.mem_cons_of_mem _ hx))
  · clear he
    induction es with
    | nil => rfl
    | cons e es ih =>
      simp only [programs, List.filterMap_cons,
        (keepsArmed_spec e (hq e (List.mem_cons_self _ _)) a).2]
      exact ih (fun x hx => hq x (List.mem_cons_of_mem _ hx))

/-- A stretch of the log without erase and page-program commands passes the check
and holds no page program. -/
theorem Pages.of_harmless {w w' : World} (h : Steps Event.isHarmless w w') (a : Bool) :
    ∃ a', Pages a a' [] w w' := by
  obtain ⟨es, he, hq⟩ := h.trace
  have key : ∀ (l : List Event), (∀ e ∈ l, e.isHarmless = true) → ∀ a,
      (∃ a', weRun a l = some a') ∧ programs l = [] := by
    intro l
    induction l with
    | nil => intro _ a; exact ⟨⟨a, rfl⟩, rfl⟩
    | cons e l ih =>
      intro hl a
      obtain ⟨⟨b, hb⟩, hp⟩ := harmless_spec e (hl e (List.mem_cons_self _ _)) a
      obtain ⟨⟨c, hc⟩, hpl⟩ := ih (fun x hx => hl x (List.mem_cons_of_mem _ hx)) b
      refine ⟨⟨c, ?_⟩, ?_⟩
      · simp only [weRun, hb]; exact hc
      · simp only [programs, List.filterMap_cons, hp]; exact hpl
  obtain ⟨⟨a', ha'⟩, hp⟩ := key es hq a
  exact ⟨a', h.halResult, h.size, es, he, ha', hp⟩

/-- One `HAL_OSPI_Command`. -/
theorem Pages.command (c : OSPI_RegularCmdTypeDef) (w : World) (a a' : Bool)
    (L : List (Nat × Nat))
    (h : ∀ st, weStep a (Event.command c st) = some a' ∧ programs [Event.command c st] = L) :
    Pages a a' L w (HAL_OSPI_Command c w).2 :=
  ⟨rfl, rfl, [Event.command c (w.halResult w.halCalls)], rfl,
    by simp only [weRun, (h _).1], (h _).2⟩

theorem allowsPoll_keepsArmed : AllowsPoll Event.keepsArmed :=
  ⟨fun _ => rfl, fun _ _ _ => rfl⟩

theorem QSPI_WriteEnable_tail {Q : Event → Bool} (hQ : AllowsPoll Q) (w : World) :
    Steps Q (HAL_OSPI_Command (plainCmd WRITE_ENABLE_CMD) w).2 (QSPI_WriteEnable w).2 := by
  have h2 := OSPI_AutoPollWriteEnable_steps hQ (HAL_OSPI_Command (plainCmd WRITE_ENABLE_CMD) w).2
  unfold QSPI_WriteEnable
  simp only []
  split
  · exact Steps.refl _ _
  · split
    · exact h2
    · exact h2

theorem QSPI_BlockSectorErase_tail {Q : Event → Bool} (hQ : AllowsPoll Q) (a : Nat) (w : World) :
    Steps Q (HAL_OSPI_Command (eraseCmd BLOCK_64K_ERASE_CMD a) w).2
      (QSPI_BlockSectorErase a w).2 := by
  have h2 := OSPI_AutoPollMemoryReady_steps hQ
    (HAL_OSPI_Command (eraseCmd BLOCK_64K_ERASE_CMD a) w).2
  unfold QSPI_BlockSectorErase
  simp only []
  split
  · exact Steps.refl _ _
  · split
    · exact h2
    · exact h2

theorem QSPI_ProgramPage_tail {Q : Event → Bool} (hQ : AllowsPoll Q) (a len : Nat)
    (data : Nat → Nat) (ht : ∀ d st, Q (Event.transmit d st) = true) (w : World) :
    Steps Q (HAL_OSPI_Command (programCmd a len) w).2 (QSPI_ProgramPage a data len w).2 := by
  have h2 := HAL_OSPI_Transmit_steps data (HAL_OSPI_Command (programCmd a len) w).2 ht
  have h3 := OSPI_AutoPollMemoryReady_steps hQ
    (HAL_OSPI_Transmit data (HAL_OSPI_Command (programCmd a len) w).2).2
  unfold QSPI_ProgramPage
  simp only []
  split
  · exact Steps.refl _ _
  · split
    · exact h2
    · split
      · exact h2.trans h3
      · exact h2.trans h3

/-- A call of `QSPI_WriteEnable` arms the check. -/
theorem QSPI_WriteEnable_pages (a : Bool) (w : World) :
    Pages a true [] w (QSPI_WriteEnable w).2 :=
  (Pages.command (plainCmd WRITE_ENABLE_CMD) w a true [] (fun _ => ⟨rfl, rfl⟩)).seq
    (Pages.of_keep (QSPI_WriteEnable_tail allowsPoll_keepsArmed w) true)

/-- A call of `QSPI_BlockSectorErase` right after a write-enable passes the check. -/
theorem QSPI_BlockSectorErase_pages (addr : Nat) (w : World) :
    Pages true false [] w (QSPI_BlockSectorErase addr w).2 :=
  (Pages.command (eraseCmd BLOCK_64K_ERASE_CMD addr) w true false [] (fun _ => ⟨rfl, rfl⟩)).seq
    (Pages.of_keep (QSPI_BlockSectorErase_tail allowsPoll_keepsArmed addr w) false)

/-- A call of `QSPI_ProgramPage` right after a write-enable passes the check and logs
one page program. -/
theorem QSPI_ProgramPage_pages (addr len : Nat) (data : Nat → Nat) (w : World) :
    Pages true false [(addr, len)] w (QSPI_ProgramPage addr data len w).2 :=
  (Pages.command (programCmd addr len) w true false [(addr, len)] (fun _ => ⟨rfl, rfl⟩)).seq
    (Pages.of_keep (QSPI_ProgramPage_tail allowsPoll_keepsArmed addr len data
      (fun _ _ => rfl) w) false)

theorem Pages.cast {a a' : Bool} {L L' : List (Nat × Nat)} {w w' : World}
    (h : Pages a a' L w w') (e : L = L') : Pages a a' L' w w' :=
  e ▸ h

theorem AllOK.of_pages {a a' : Bool} {L : List (Nat × Nat)} {w w' : World} (h : AllOK w)
    (s : Pages a a' L w w') : AllOK w' := by
  intro k; rw [s.halResult]; exact h k

theorem printf_pages (msg : String) (w : World) (a : Bool) : Pages a a [] w (printf msg w) :=
  Pages.of_keep (printf_steps _ _ rfl) a

theorem if_printf_pages (c : Prop) [Decidable c] (msg : String) (w : World) (a : Bool) :
    Pages a a [] w (if c then printf msg w else w) := by
  split
  · exact printf_pages _ _ _
  · exact Pages.nil _ _

theorem pagesFrom_zero (a : Nat) : pagesFrom a 0 = [] := by
  simp [pagesFrom]

theorem pagesFrom_small (a r : Nat) (h0 : r ≠ 0) (h : r < 256) : pagesFrom a r = [(a, r)] := by
  have h1 : r / 256 = 0 := by omega
  have h2 : r % 256 = r := by omega
  simp [pagesFrom, h1, h2, h0]

theorem pagesFrom_step (a r : Nat) (h : 256 ≤ r) :
    pagesFrom a r = (a, 256) :: pagesFrom (a + 256) (r - 256) := by
  have h1 : r / 256 = (r - 256) / 256 + 1 := by omega
  have h2 : r % 256 = (r - 256) % 256 := by omega
  unfold pagesFrom
  rw [h1, h2, List.range_succ_eq_map, List.map_cons, List.map_map, List.cons_append]
  have e1 : ((fun k => (a + 256 * k, 256)) ∘ Nat.succ)
      = (fun k => (a + 256 + 256 * k, 256)) := by
    funext k
    simp only [Function.comp, Nat.succ_eq_add_one]
    congr 1
    omega
  have e2 : a + 256 * ((r - 256) / 256 + 1) = a + 256 + 256 * ((r - 256) / 256) := by omega
  rw [e1, e2]
  rfl

/-- The page programs of the page loop: on every path they are the first pages of
the rest of the image, each sent right after a write-enable, and they are all of
them when every HAL call succeeds. -/
theorem save_image_loop_pages (p : Nat) :
    ∀ (fuel d r : Nat) (w : World) (a : Bool), r / 256 + 2 ≤ fuel → p ≤ d →
      4 + (d - p) + r ≤ 65536 →
      ∃ w1 a' L, save_image_loop p fuel d r w = some (flash_image_cleanup true w1) ∧
        Pages a a' L w w1 ∧ L <+: pagesFrom (4 + (d - p)) r ∧
        (AllOK w → L = pagesFrom (4 + (d - p)) r) := by
  intro fuel
  induction fuel with
  | zero => intro d r w a h; omega
  | succ fuel ih =>
    intro d r w a hf hpd hb
    unfold save_image_loop
    by_cases hr : r = 0
    · rw [if_pos hr]
      subst hr
      exact ⟨_, a, [], rfl, printf_pages _ _ _, by rw [pagesFrom_zero],
        fun _ => by rw [pagesFrom_zero]⟩
    · rw [if_neg hr]
      have h1 := QSPI_WriteEnable_pages a w
      rcases hWE : QSPI_WriteEnable w with ⟨r1, w1⟩
      rw [hWE] at h1
      simp only [] at h1 ⊢
      have h2 : Pages a true [] w
          (if r1 ≠ HAL_OK then printf "[3] QSPI_WriteEnable failed.\n" w1 else w1) :=
        (h1.seq (if_printf_pages _ _ _ _)).cast rfl
      generalize (if r1 ≠ HAL_OK then printf "[3] QSPI_WriteEnable failed.\n" w1 else w1) = w2
        at h2 ⊢
      have haddr : (4 + (d - p) % 4294967296) % 4294967296 = 4 + (d - p) := by omega
      rw [haddr]
      by_cases hge : r ≥ 256
      · rw [if_pos hge]
        have h3 := QSPI_ProgramPage_pages (4 + (d - p)) 256 (fun i => w2.ram (d + i)) w2
        have o3 := fun hA => (QSPI_ProgramPage_ok (4 + (d - p)) 256
          (fun i => w2.ram (d + i)) w2 hA).1
        rcases hPP : QSPI_ProgramPage (4 + (d - p)) (fun i => w2.ram (d + i)) 256 w2
          with ⟨r2, w3⟩
        rw [hPP] at h3 o3
        simp only [] at h3 o3 ⊢
        have h4 := (h2.seq h3).cast (show [] ++ [(4 + (d - p), 256)] = [(4 + (d - p), 256)]
          from rfl)
        split
        · next hfail =>
          refine ⟨_, false, [(4 + (d - p), 256)], rfl,
            (h4.seq (printf_pages _ _ _)).cast rfl, ?_, fun hA => ?_⟩
          · rw [pagesFrom_step _ _ hge]
            exact ⟨_, rfl⟩
          · exact absurd (o3 (hA.of_pages h2)) hfail
        · obtain ⟨w4, a4, L4, e4, P4, pre4, eq4⟩ :=
            ih (d + 256) (r - 256) (printf "." w3) false (by omega) (by omega) (by omega)
          have hx : 4 + (d + 256 - p) = 4 + (d - p) + 256 := by omega
          rw [hx] at pre4 eq4
          refine ⟨w4, a4, (4 + (d - p), 256) :: L4, e4,
            ((h4.seq (printf_pages _ _ _)).seq P4).cast rfl, ?_, fun hA => ?_⟩
          · rw [pagesFrom_step _ _ hge]
            exact List.cons_prefix_cons.mpr ⟨rfl, pre4⟩
          · rw [pagesFrom_step _ _ hge,
              eq4 ((hA.of_pages h4).of_pages (printf_pages "." w3 false))]
      · rw [if_neg hge]
        have h3 := QSPI_ProgramPage_pages (4 + (d - p)) r (fun i => w2.ram (d + i)) w2
        rcases hPP : QSPI_ProgramPage (4 + (d - p)) (fun i => w2.ram (d + i)) r w2
          with ⟨r2, w3⟩
        rw [hPP] at h3
        simp only [] at h3 ⊢
        have h4 := (h2.seq h3).cast (show [] ++ [(4 + (d - p), r)] = [(4 + (d - p), r)]
          from rfl)
        have hpg : pagesFrom (4 + (d - p)) r = [(4 + (d - p), r)] :=
          pagesFrom_small _ _ hr (by omega)
        split
        · exact ⟨_, false, [(4 + (d - p), r)], rfl,
            (h4.seq (printf_pages _ _ _)).cast rfl, by rw [hpg], fun _ => hpg.symm⟩
        · exact ⟨_, false, [(4 + (d - p), r)], rfl,
            (h4.seq (printf_pages _ _ _)).cast rfl, by rw [hpg], fun _ => hpg.symm⟩

theorem allowsInit_harmless : AllowsInit Event.isHarmless :=
  ⟨⟨fun _ => rfl, fun _ _ _ => rfl⟩,
    fun i st => by simp [Event.isHarmless, Event.isEraseCmd, Event.pageProgram, plainCmd],
    fun _ => rfl, fun _ _ => rfl⟩

theorem QSPI_EnableMemoryMappedMode_harmless (w : World) :
    Steps Event.isHarmless w (QSPI_EnableMemoryMappedMode w).2 := by
  have h1 := HAL_OSPI_Command_steps (Q := Event.isHarmless)
    (memMapCmd OperationType.READ_CFG FAST_READ_QUAD_OUT_CMD 8) w (fun _ => rfl)
  have h2 := HAL_OSPI_Command_steps (Q := Event.isHarmless)
    (memMapCmd OperationType.WRITE_CFG QUAD_IN_FAST_PROG_CMD 0)
    (HAL_OSPI_Command (memMapCmd OperationType.READ_CFG FAST_READ_QUAD_OUT_CMD 8) w).2
    (fun _ => rfl)
  have h3 := HAL_OSPI_MemoryMapped_steps (Q := Event.isHarmless)
    (HAL_OSPI_Command (memMapCmd OperationType.WRITE_CFG QUAD_IN_FAST_PROG_CMD 0)
      (HAL_OSPI_Command (memMapCmd OperationType.READ_CFG FAST_READ_QUAD_OUT_CMD 8) w).2).2
    (fun _ => rfl)
  unfold QSPI_EnableMemoryMappedMode
  simp only []
  split
  · exact h1
  · split
    · exact h1.trans h2
    · split
      · exact (h1.trans h2).trans h3
      · exact (h1.trans h2).trans h3

/-- The restore step sends no erase and no page-program command. -/
theorem flash_image_cleanup_harmless (b : Bool) (w : World) :
    Steps Event.isHarmless w (flash_image_cleanup b w) := by
  unfold flash_image_cleanup
  have h1 := QSPI_Init_steps allowsInit_harmless w
  rcases hA : QSPI_Init w with ⟨r1, w1⟩
  rw [hA] at h1
  simp only [] at h1 ⊢
  have h2 := QSPI_EnableMemoryMappedMode_harmless w1
  rcases hB : QSPI_EnableMemoryMappedMode w1 with ⟨r2, w2⟩
  rw [hB] at h2
  simp only [] at h2 ⊢
  have h3 : Steps Event.isHarmless w
      (if r1 ≠ HAL_OK then printf "QSPI init failed\n" w1
        else if r2 ≠ HAL_OK then printf "QSPI map failed\n" w2 else w2) := by
    split
    · exact h1.trans (printf_steps _ _ rfl)
    · split
      · exact (h1.trans h2).trans (printf_steps _ _ rfl)
      · exact h1.trans h2
  generalize (if r1 ≠ HAL_OK then printf "QSPI init failed\n" w1
        else if r2 ≠ HAL_OK then printf "QSPI map failed\n" w2 else w2) = w3 at h3 ⊢
  exact h3.trans ((cleanup_tail_steps b w3).mono (fun e he => by
    cases e <;> simp_all [Event.isHarmless, Event.isBus, Event.isEraseCmd, Event.pageProgram]))

theorem flash_image_cleanup_pages (b : Bool) (w : World) (a : Bool) :
    ∃ a', Pages a a' [] w (flash_image_cleanup b w) :=
  Pages.of_harmless (flash_image_cleanup_harmless b w) a

/-- The page programs of `save_image` once both semaphores are held and the abort has
succeeded. -/
theorem save_image_after_abort_pages (w : World) (p : Nat)
    (hp : w.image_data_ptr = some p) (hlo : 256 ≤ w.image_data_size)
    (hhi : w.image_data_size ≤ 65532) (hJ : w.JPEG_buffer_lock = true)
    (hQl : w.QSPI_flash_lock = true) (hsJ : w.semResult w.semCalls = true)
    (hsQ : w.semResult (w.semCalls + 1) = true) (hab : w.halResult w.halCalls = HAL_OK) :
    ∃ w1 a' L, save_image w = some (flash_image_cleanup true w1) ∧
      Pages false a' L (save_image_at_abort w HAL_OK) w1 ∧
      L <+: imagePages w.image_data_size ∧
      (AllOK w → L = imagePages w.image_data_size) := by
  have hLJ : periphs_jpeg_buffer_lock w = (true, { w with semCalls := w.semCalls + 1, trace := w.trace ++ [Event.semb_wait Sem.JPEG_buffer_lock true] }) := by
    simp [periphs_jpeg_buffer_lock, hJ, mmosal_semb_wait, hsJ]
  have hLQ : periphs_qspi_flash_lock { w with semCalls := w.semCalls + 1, trace := w.trace ++ [Event.semb_wait Sem.JPEG_buffer_lock true] } = (true, { w with semCalls := w.semCalls + 2, trace := w.trace ++ [Event.semb_wait Sem.JPEG_buffer_lock true, Event.semb_wait Sem.QSPI_flash_lock true] }) := by
    simp [periphs_qspi_flash_lock, hQl, mmosal_semb_wait, hsQ]
  have hAb : HAL_OSPI_Abort (set_CCR 1000 1000 1000 { w with semCalls := w.semCalls + 2, trace := w.trace ++ [Event.semb_wait Sem.JPEG_buffer_lock true, Event.semb_wait Sem.QSPI_flash_lock true] }) = (HAL_OK, save_image_at_abort w HAL_OK) := by
    simp [HAL_OSPI_Abort, set_CCR, World.log, hab, save_image_at_abort]
  have e1 : (periphs_jpeg_buffer_lock w).1 = true := by rw [hLJ]
  have e2 : (periphs_qspi_flash_lock (periphs_jpeg_buffer_lock w).2).1 = true := by
    rw [hLJ]; simp only []; rw [hLQ]
  have e3 : HAL_OSPI_Abort (set_CCR 1000 1000 1000
      (periphs_qspi_flash_lock (periphs_jpeg_buffer_lock w).2).2) =
      (HAL_OK, save_image_at_abort w HAL_OK) := by
    rw [hLJ]; simp only []; rw [hLQ]; simp only []; rw [hAb]
  clear hLJ hLQ hAb
  have hszA : (save_image_at_abort w HAL_OK).image_data_size = w.image_data_size := rfl
  have hokA : AllOK w → AllOK (save_image_at_abort w HAL_OK) := fun h => h
  unfold save_image
  split
  · next hn => rw [hp] at hn; cases hn
  next p' hp' =>
  have hpp : p = p' := by rw [hp] at hp'; exact Option.some.inj hp'
  subst hpp
  rw [if_neg (by omega)]
  split
  next lj wj hLJ =>
  rw [hLJ] at e1 e2 e3
  simp only [] at e1 e2 e3
  subst e1
  rw [if_neg (by decide)]
  split
  next lq wq hLQ =>
  rw [hLQ] at e2 e3
  simp only [] at e2 e3
  subst e2
  rw [if_neg (by decide)]
  conv => zeta
  rw [e3]
  split
  next r1 wA' hA =>
  cases hA
  rw [if_neg (by decide)]
  revert hszA hokA
  generalize save_image_at_abort w HAL_OK = wA
  intro hszA hokA
  have s1 := QSPI_WriteEnable_pages false wA
  have o1 := fun hA => (QSPI_WriteEnable_ok wA hA).1
  split
  next r2 w5 h1 =>
  rw [h1] at s1 o1
  simp only [] at o1
  split
  · next hfail =>
    exact ⟨_, true, [], rfl, (s1.seq (printf_pages _ _ _)).cast rfl, List.nil_prefix,
      fun hA => absurd (o1 (hokA hA)) hfail⟩
  have s2 := QSPI_BlockSectorErase_pages 0 w5
  have o2 := fun hA => (QSPI_BlockSectorErase_ok w5 hA).1
  split
  next r3 w6 h2 =>
  rw [h2] at s2 o2
  simp only [] at o2
  split
  · next hfail =>
    exact ⟨_, false, [], rfl, ((s1.seq s2).seq (printf_pages _ _ _)).cast rfl,
      List.nil_prefix, fun hA => absurd (o2 ((hokA hA).of_pages s1)) hfail⟩
  have s3 := QSPI_WriteEnable_pages false w6
  split
  next r4 w7 h3 =>
  rw [h3] at s3
  have s4 := if_printf_pages (r4 ≠ HAL_OK) "[1] QSPI_WriteEnable failed.\n" w7 true
  generalize (if r4 ≠ HAL_OK then printf "[1] QSPI_WriteEnable failed.\n" w7 else w7) = w8
    at s4 ⊢
  have s5 := QSPI_ProgramPage_pages 0 4 (le32 w8.image_data_size) w8
  split
  next r5 w9 h5 =>
  rw [h5] at s5
  have s6 := if_printf_pages (r5 ≠ HAL_OK) "[1] QSPI_ProgramPage failed.\n" w9 false
  generalize (if r5 ≠ HAL_OK then printf "[1] QSPI_ProgramPage failed.\n" w9 else w9) = w10
    at s6 ⊢
  have s7 := printf_pages "Write %ld bytes from 0x%lx to external flash:" w10 false
  generalize printf "Write %ld bytes from 0x%lx to external flash:" w10 = w11 at s7 ⊢
  have s8 := QSPI_WriteEnable_pages false w11
  split
  next r6 w12 h8 =>
  rw [h8] at s8
  have s9 := if_printf_pages (r6 ≠ HAL_OK) "[2] QSPI_WriteEnable failed.\n" w12 true
  generalize (if r6 ≠ HAL_OK then printf "[2] QSPI_WriteEnable failed.\n" w12 else w12) = w13
    at s9 ⊢
  have s10 := QSPI_ProgramPage_pages 4 (256 - 4) (fun i => w13.ram (p + i)) w13
  split
  next r7 w14 h10 =>
  rw [h10] at s10
  have s11 := if_printf_pages (r7 ≠ HAL_OK) "[2] QSPI_ProgramPage failed.\n" w14 false
  generalize (if r7 ≠ HAL_OK then printf "[2] QSPI_ProgramPage failed.\n" w14 else w14) = w15
    at s11 ⊢
  have P := ((((((((((s1.seq s2).seq s3).seq s4).seq s5).seq s6).seq s7).seq
    s8).seq s9).seq s10).seq s11).cast
      (show _ = [((0 : Nat), (4 : Nat)), (4, 252)] from rfl)
  have hsz : w15.image_data_size = w.image_data_size := P.size.trans hszA
  have hr : (p + w15.image_data_size + 4294967296 - (p + (256 - 4))) % 4294967296
      = w.image_data_size - 252 := by
    rw [hsz]; omega
  rw [hr]
  obtain ⟨w16, a16, L16, h16, P16, pre16, eq16⟩ := save_image_loop_pages p
    ((w.image_data_size - 252) / 256 + 2) (p + (256 - 4)) (w.image_data_size - 252) w15 false
    (le_refl _) (by omega) (by omega)
  have hx : 4 + (p + (256 - 4) - p) = 256 := by omega
  rw [hx] at pre16 eq16
  refine ⟨w16, a16, (0, 4) :: (4, 252) :: L16, h16, (P.seq P16).cast rfl, ?_, fun hA => ?_⟩
  · exact List.cons_prefix_cons.mpr ⟨rfl, List.cons_prefix_cons.mpr ⟨rfl, pre16⟩⟩
  · rw [eq16 ((hokA hA).of_pages P)]
    rfl

/-- The page programs and the write-enable check of `save_image` on every path. -/
theorem save_image_monitored (w : World) :
    ∃ w' es a', save_image w = some w' ∧ w'.trace = w.trace ++ es ∧
      weRun false es = some a' ∧ programs es <+: imagePages w.image_data_size ∧
      (AllOK w → w.JPEG_buffer_lock = true → w.QSPI_flash_lock = true →
        w.semResult w.semCalls = true → w.semResult (w.semCalls + 1) = true →
        w.image_data_ptr ≠ none → 256 ≤ w.image_data_size → w.image_data_size ≤ 65532 →
        programs es = imagePages w.image_data_size) := by
  by_cases hv : w.image_data_size < 256 ∨ w.image_data_size > 65532 ∨ w.image_data_ptr = none
  · exact ⟨_, [Event.printf "No image!\n"], false, save_image_reject w hv, rfl, rfl,
      List.nil_prefix, fun _ _ _ _ _ h1 h2 h3 => by
        rcases hv with hv | hv | hv
        · omega
        · omega
        · exact absurd hv h1⟩
  have hlo : 256 ≤ w.image_data_size := by omega
  have hhi : w.image_data_size ≤ 65532 := by omega
  obtain ⟨p, hp⟩ : ∃ p, w.image_data_ptr = some p := by
    cases h : w.image_data_ptr with
    | none => exact absurd (Or.inr (Or.inr h)) hv
    | some p => exact ⟨p, rfl⟩
  cases hJ : w.JPEG_buffer_lock with
  | false =>
    refine ⟨_, [Event.printf "periphs_jpeg_buffer_lock failed.\n"], false,
      save_image_jpeg_lock_fail w p hp hlo hhi (by simp [periphs_jpeg_buffer_lock, hJ]), ?_,
      rfl, List.nil_prefix, fun _ h => by cases h⟩
    simp [periphs_jpeg_buffer_lock, hJ, printf, World.log]
  | true =>
  cases hsJ : w.semResult w.semCalls with
  | false =>
    refine ⟨_, [Event.semb_wait Sem.JPEG_buffer_lock false,
        Event.printf "periphs_jpeg_buffer_lock failed.\n"], false,
      save_image_jpeg_lock_fail w p hp hlo hhi
        (by simp [periphs_jpeg_buffer_lock, hJ, mmosal_semb_wait, hsJ]), ?_,
      rfl, List.nil_prefix, fun _ _ _ h => by cases h⟩
    simp [periphs_jpeg_buffer_lock, hJ, mmosal_semb_wait, hsJ, printf, World.log]
  | true =>
  have hj : (periphs_jpeg_buffer_lock w).1 = true := by
    simp [periphs_jpeg_buffer_lock, hJ, mmosal_semb_wait, hsJ]
  cases hQl : w.QSPI_flash_lock with
  | false =>
    refine ⟨_, [Event.semb_wait Sem.JPEG_buffer_lock true,
        Event.printf "periphs_qspi_flash_lock failed.\n",
        Event.semb_give Sem.JPEG_buffer_lock], false,
      save_image_qspi_lock_fail w p hp hlo hhi hj
        (by simp [periphs_jpeg_buffer_lock, periphs_qspi_flash_lock, hJ, hQl, mmosal_semb_wait]),
      ?_, rfl, List.nil_prefix, fun _ _ h => by cases h⟩
    simp [periphs_jpeg_buffer_lock, periphs_qspi_flash_lock, periphs_jpeg_buffer_unlock, hJ, hQl,
      mmosal_semb_wait, mmosal_semb_give, hsJ, printf, World.log]
  | true =>
  cases hsQ : w.semResult (w.semCalls + 1) with
  | false =>
    refine ⟨_, [Event.semb_wait Sem.JPEG_buffer_lock true,
        Event.semb_wait Sem.QSPI_flash_lock false,
        Event.printf "periphs_qspi_flash_lock failed.\n",
        Event.semb_give Sem.JPEG_buffer_lock], false,
      save_image_qspi_lock_fail w p hp hlo hhi hj
        (by simp [periphs_jpeg_buffer_lock, periphs_qspi_flash_lock, hJ, hQl, mmosal_semb_wait,
          hsQ]),
      ?_, rfl, List.nil_prefix, fun _ _ _ _ h => by cases h⟩
    simp [periphs_jpeg_buffer_lock, periphs_qspi_flash_lock, periphs_jpeg_buffer_unlock, hJ, hQl,
      mmosal_semb_wait, mmosal_semb_give, hsJ, hsQ, printf, World.log]
  | true =>
  by_cases hab : w.halResult w.halCalls = HAL_OK
  · obtain ⟨w1, a1, L, h1, P1, pre, heq⟩ :=
      save_image_after_abort_pages w p hp hlo hhi hJ hQl hsJ hsQ hab
    obtain ⟨a2, P2⟩ := flash_image_cleanup_pages true w1 a1
    obtain ⟨es1, he1, hr1, hp1⟩ := P1.trace
    obtain ⟨es2, he2, hr2, hp2⟩ := P2.trace
    refine ⟨_, [Event.semb_wait Sem.JPEG_buffer_lock true,
        Event.semb_wait Sem.QSPI_flash_lock true, Event.ccr 1 1000, Event.ccr 2 1000,
        Event.ccr 3 1000, Event.abort HAL_OK] ++ es1 ++ es2, a2, h1, ?_, ?_, ?_, ?_⟩
    · rw [he2, he1]
      simp [save_image_at_abort]
    · rw [weRun_append, weRun_append]
      show (Option.bind (weRun false es1) fun b => weRun b es2) = some a2
      rw [hr1]
      exact hr2
    · rw [programs_append, programs_append, hp1, hp2, List.append_nil]
      exact pre
    · intro hA _ _ _ _ _ _ _
      rw [programs_append, programs_append, hp1, hp2, List.append_nil]
      exact heq hA
  · refine ⟨_, _, false, save_image_abort_fail w p _ hp hlo hhi hJ hQl hsJ hsQ rfl hab, rfl,
      rfl, List.nil_prefix, fun hA => absurd (hA _) hab⟩

/-- The write-enable check along `erase_image` once the semaphore is held and the abort
has succeeded. -/
theorem erase_image_after_abort_pages (w : World)
    (hQl : w.QSPI_flash_lock = true) (hsQ : w.semResult w.semCalls = true)
    (hab : w.halResult w.halCalls = HAL_OK) :
    ∃ w1 a', erase_image w = flash_image_cleanup false w1 ∧
      Pages false a' [] (erase_image_at_abort w HAL_OK) w1 := by
  have hLQ : periphs_qspi_flash_lock w = (true, { w with
      semCalls := w.semCalls + 1
      trace := w.trace ++ [Event.semb_wait Sem.QSPI_flash_lock true] }) := by
    simp [periphs_qspi_flash_lock, hQl, mmosal_semb_wait, hsQ]
  have hAb : HAL_OSPI_Abort (set_CCR 0 0 1000 { w with
      semCalls := w.semCalls + 1
      trace := w.trace ++ [Event.semb_wait Sem.QSPI_flash_lock true] }) =
      (HAL_OK, erase_image_at_abort w HAL_OK) := by
    simp [HAL_OSPI_Abort, set_CCR, World.log, hab, erase_image_at_abort]
  unfold erase_image
  rw [hLQ]
  simp only [Bool.not_true, Bool.false_eq_true, if_false]
  rw [hAb]
  simp only [ne_eq, not_true_eq_false, if_false]
  generalize erase_image_at_abort w HAL_OK = wA
  have s1 := QSPI_WriteEnable_pages false wA
  rcases h1 : QSPI_WriteEnable wA with ⟨r2, w4⟩
  rw [h1] at s1
  simp only [] at s1 ⊢
  have s2 := QSPI_BlockSectorErase_pages 0 w4
  rcases h2 : QSPI_BlockSectorErase 0 w4 with ⟨r3, w5⟩
  rw [h2] at s2
  simp only [] at s2 ⊢
  split
  · exact ⟨_, _, rfl, s1.seq (printf_pages _ _ _)⟩
  · split
    · exact ⟨_, _, rfl, (s1.seq s2).seq (printf_pages _ _ _)⟩
    · exact ⟨_, _, rfl, ((s1.seq s2).seq
        (Pages.of_keep (mmosal_task_sleep_steps _ _ rfl) _)).seq
        (Pages.of_keep (set_CCR_steps _ _ _ _ (fun _ _ => rfl)) _)⟩

/-- The write-enable check of `erase_image` on every path: the events it adds pass the
check started unarmed, and none of them is a page program. -/
theorem erase_image_monitored (w : World) :
    ∃ es a', (erase_image w).trace = w.trace ++ es ∧ weRun false es = some a' ∧
      programs es = [] := by
  cases hQl : w.QSPI_flash_lock with
  | false =>
    refine ⟨[Event.printf "periphs_qspi_flash_lock failed.\n"], false, ?_, rfl, rfl⟩
    rw [erase_image_lock_fail w (by simp [periphs_qspi_flash_lock, hQl])]
    simp [periphs_qspi_flash_lock, hQl, printf, World.log]
  | true =>
  cases hsQ : w.semResult w.semCalls with
  | false =>
    refine ⟨[Event.semb_wait Sem.QSPI_flash_lock false,
      Event.printf "periphs_qspi_flash_lock failed.\n"], false, ?_, rfl, rfl⟩
    rw [erase_image_lock_fail w (by simp [periphs_qspi_flash_lock, hQl, mmosal_semb_wait, hsQ])]
    simp [periphs_qspi_flash_lock, hQl, mmosal_semb_wait, hsQ, printf, World.log]
  | true =>
  by_cases hab : w.halResult w.halCalls = HAL_OK
  · obtain ⟨w1, a1, h1, P1⟩ := erase_image_after_abort_pages w hQl hsQ hab
    obtain ⟨a2, P2⟩ := flash_image_cleanup_pages false w1 a1
    obtain ⟨es1, he1, hr1, hp1⟩ := P1.trace
    obtain ⟨es2, he2, hr2, hp2⟩ := P2.trace
    refine ⟨[Event.semb_wait Sem.QSPI_flash_lock true, Event.ccr 1 0,
      Event.ccr 2 0, Event.ccr 3 1000, Event.abort HAL_OK] ++ es1 ++ es2, a2, ?_, ?_, ?_⟩
    · rw [h1, he2, he1]
      simp [erase_image_at_abort]
    · rw [weRun_append, weRun_append]
      show (Option.bind (weRun false es1) fun b => weRun b es2) = some a2
      rw [hr1]
      exact hr2
    · rw [programs_append, programs_append, hp1, hp2]
      rfl
  · refine ⟨[Event.semb_wait Sem.QSPI_flash_lock true, Event.ccr 1 0,
      Event.ccr 2 0, Event.ccr 3 1000, Event.abort (w.halResult w.halCalls),
      Event.printf "unable to disable QSPI memory-mapping.\n",
      Event.semb_give Sem.QSPI_flash_lock], false, ?_, rfl, rfl⟩
    rw [erase_image_abort_fail w _ hQl hsQ rfl hab]

/-- Every page of `pagesFrom a r` starting at a page boundary lies inside one page. -/
theorem pagesFrom_bounds (a r : Nat) (ha : a % 256 = 0) (x len : Nat)
    (h : (x, len) ∈ pagesFrom a r) :
    1 ≤ len ∧ len ≤ 256 ∧ x % 256 + len ≤ 256 ∧ a ≤ x ∧ x + len ≤ a + r := by
  unfold pagesFrom at h
  rw [List.mem_append, List.mem_map] at h
  rcases h with ⟨k, hk, he⟩ | h
  · rw [List.mem_range] at hk
    simp only [Prod.mk.injEq] at he
    obtain ⟨h1, h2⟩ := he
    subst h1 h2
    have := Nat.div_mul_le_self r 256
    omega
  · split at h
    · cases h
    · simp only [List.mem_singleton, Prod.mk.injEq] at h
      obtain ⟨h1, h2⟩ := h
      subst h1 h2
      have := Nat.div_add_mod r 256
      have := Nat.mod_lt r (show 0 < 256 by decide)
      omega

/-- The pages of `pagesFrom a r` follow each other without a gap from `a` and their
lengths add up to `r`. -/
theorem pagesFrom_contiguous (k : Nat) : ∀ (a r : Nat), r / 256 = k →
    contiguousFrom a (pagesFrom a r) ∧ ((pagesFrom a r).map Prod.snd).sum = r := by
  induction k with
  | zero =>
    intro a r hk
    have hr : r < 256 := by omega
    by_cases h0 : r = 0
    · subst h0
      rw [pagesFrom_zero]
      exact ⟨trivial, rfl⟩
    · rw [pagesFrom_small a r (by omega) hr]
      exact ⟨⟨rfl, trivial⟩, by simp⟩
  | succ k ih =>
    intro a r hk
    have hr : 256 ≤ r := by omega
    rw [pagesFrom_step a r hr]
    obtain ⟨c, s⟩ := ih (a + 256) (r - 256) (by omega)
    refine ⟨⟨rfl, c⟩, ?_⟩
    rw [List.map_cons, List.sum_cons, s]
    omega

/-- A prefix of a gap-free list of pages is gap-free. -/
theorem contiguousFrom_prefix : ∀ (L L' : List (Nat × Nat)) (x : Nat),
    L <+: L' → contiguousFrom x L' → contiguousFrom x L
  | [], _, _, _, _ => trivial
  | (a, len) :: t, [], _, h, _ => by simp at h
  | (a, len) :: t, (a', len') :: t', x, h, c => by
    rw [List.cons_prefix_cons] at h
    obtain ⟨h1, h2⟩ := h
    cases h1
    exact ⟨c.1, contiguousFrom_prefix t t' _ h2 c.2⟩

/-- Every page of `imagePages n` lies inside one page of the first 64 KiB block. -/
theorem imagePages_bounds (n : Nat) (hlo : 256 ≤ n) (hhi : n ≤ 65532) (x len : Nat)
    (h : (x, len) ∈ imagePages n) :
    1 ≤ len ∧ len ≤ 256 ∧ x % 256 + len ≤ 256 ∧ x + len ≤ 65536 := by
  unfold imagePages at h
  rw [List.mem_cons, List.mem_cons] at h
  rcases h with h | h | h
  · cases h; decide
  · cases h; decide
  · have := pagesFrom_bounds 256 (n - 252) rfl x len h
    omega

theorem weStep_skip (e : Event) (h : (e.isCommand && !e.isStatusReadCmd) = false) (a : Bool) :
    weStep a e = some a := by
  cases e <;>
    simp_all [Event.isCommand, weStep, Event.isWriteEnableCmd, Event.isStatusReadCmd,
      Event.isEraseCmd, Event.pageProgram]
  next c st =>
    exact fun h1 => absurd h1 (by decide)

theorem weStep_command (e : Event) (h : (e.isCommand && !e.isStatusReadCmd) = true)
    (a b : Bool) (hs : weStep a e = some b) :
    b = e.isWriteEnableCmd ∧ (e.needsWriteEnable = true → a = true) := by
  cases e with
  | command c st =>
    simp only [Event.isCommand, Bool.true_and, Bool.not_eq_true'] at h
    unfold weStep at hs
    by_cases hw : (Event.command c st).isWriteEnableCmd = true
    · rw [if_pos hw] at hs
      refine ⟨by rw [hw]; exact (Option.some.inj hs).symm, fun hn => ?_⟩
      exfalso
      simp only [Event.isWriteEnableCmd, decide_eq_true_eq] at hw
      simp only [Event.needsWriteEnable, Event.isEraseCmd, Event.pageProgram, Bool.or_eq_true,
        decide_eq_true_eq, Option.isSome_iff_exists] at hn
      rcases hn with hn | ⟨x, hn⟩
      · rw [hw.2] at hn
        exact absurd hn.2.1 (by decide)
      · split at hn
        · next hc =>
          rw [hw.2] at hc
          exact absurd hc.2.1 (by decide)
        · cases hn
    · rw [if_neg hw, if_neg (by rw [h]; exact Bool.false_ne_true)] at hs
      have hw' : (Event.command c st).isWriteEnableCmd = false := by
        simpa using hw
      by_cases hn : (Event.command c st).needsWriteEnable = true
      · have hn' : (Event.command c st).isEraseCmd = true ∨
            (Event.command c st).pageProgram.isSome = true := by
          simpa [Event.needsWriteEnable] using hn
        rw [if_pos hn'] at hs
        cases a with
        | true =>
          rw [if_pos rfl] at hs
          exact ⟨by rw [hw']; exact (Option.some.inj hs).symm, fun _ => rfl⟩
        | false => simp at hs
      · have hn' : ¬ ((Event.command c st).isEraseCmd = true ∨
            (Event.command c st).pageProgram.isSome = true) := by
          simpa [Event.needsWriteEnable] using hn
        rw [if_neg hn'] at hs
        simp only [Event.isCommand, if_true] at hs
        exact ⟨by rw [hw']; exact (Option.some.inj hs).symm, fun h1 => absurd h1 hn⟩
  | _ => simp [Event.isCommand] at h

/-- A log that passes the write-enable check has, in its flash commands, a write-enable
directly before every erase and every page program. -/
theorem weRun_chain : ∀ (es : List Event) (a a' : Bool), weRun a es = some a' →
    (∀ c ∈ (flashCommands es).head?, c.needsWriteEnable = true → a = true) ∧
      List.Chain' (fun x y => y.needsWriteEnable = true → x.isWriteEnableCmd = true)
        (flashCommands es)
  | [], _, _, _ => ⟨fun c hc => (nomatch hc), List.chain'_nil⟩
  | e :: es, a, a', h => by
    unfold weRun at h
    cases hs : weStep a e with
    | none => rw [hs] at h; cases h
    | some b =>
      rw [hs] at h
      simp only [] at h
      have ih := weRun_chain es b a' h
      by_cases hf : (e.isCommand && !e.isStatusReadCmd) = true
      · have hc := weStep_command e hf a b hs
        have hfc : flashCommands (e :: es) = e :: flashCommands es := by
          simp only [flashCommands, List.filter_cons, hf, if_true]
        rw [hfc]
        refine ⟨fun c hc1 hn => ?_, List.Chain'.cons' ih.2 (fun y hy hn => ?_)⟩
        · simp only [List.head?_cons, Option.mem_def, Option.some.injEq] at hc1
          subst hc1
          exact hc.2 hn
        · rw [← hc.1]
          exact ih.1 y hy hn
      · have hf' : (e.isCommand && !e.isStatusReadCmd) = false := by simpa using hf
        have hfc : flashCommands (e :: es) = flashCommands es := by
          simp only [flashCommands, List.filter_cons, hf', Bool.false_eq_true, if_false]
        rw [hfc]
        have := weStep_skip e hf' a
        rw [this] at hs
        cases hs
        exact ih

/-- A log that passes the write-enable check started unarmed is write-enabled. -/
theorem WriteEnabled.of_weRun (es : List Event) (a' : Bool) (h : weRun false es = some a') :
    WriteEnabled (flashCommands es) := by
  obtain ⟨h1, h2⟩ := weRun_chain es false a' h
  refine ⟨fun c hc => ?_, h2⟩
  cases hn : c.needsWriteEnable with
  | false => rfl
  | true => exact absurd (h1 c hc hn) (by decide)

/-- The pages of a whole image follow each other without a gap from address 0, and the
lengths of the payload pages add up to the image length. -/
theorem imagePages_contiguous (n : Nat) (hlo : 256 ≤ n) :
    contiguousFrom 0 (imagePages n) ∧ contiguousFrom 4 (imagePages n).tail ∧
      ((imagePages n).tail.map Prod.snd).sum = n := by
  obtain ⟨c, s⟩ := pagesFrom_contiguous _ 256 (n - 252) rfl
  refine ⟨⟨rfl, rfl, c⟩, ⟨rfl, c⟩, ?_⟩
  show (((4, 252) :: pagesFrom 256 (n - 252)).map Prod.snd).sum = n
  rw [List.map_cons, List.sum_cons, s]
  omega

/-- C24: for an image length between 256 and 65532, on every path of `save_image`
every page-program command it issues has a length between 1 and 256, stays inside one
256-byte page and inside the first 64 KiB block, and the commands follow each other
without a gap from address 0.  When both semaphores are obtained and no HAL call
fails, the commands are the 4-byte header at address 0 followed by the payload
commands, which start at address 4 with 252 bytes, are contiguous, and whose lengths
add up to the image length. -/
theorem save_image_programs_stay_in_page (w : World)
    (hlo : 256 ≤ w.image_data_size) (hhi : w.image_data_size ≤ 65532) :
    ∃ w' es, save_image w = some w' ∧ w'.trace = w.trace ++ es ∧
      (∀ a len, (a, len) ∈ programs es →
        1 ≤ len ∧ len ≤ 256 ∧ a % 256 + len ≤ 256 ∧ a + len ≤ 65536) ∧
      contiguousFrom 0 (programs es) ∧
      (AllOK w → w.JPEG_buffer_lock = true → w.QSPI_flash_lock = true →
        w.semResult w.semCalls = true → w.semResult (w.semCalls + 1) = true →
        w.image_data_ptr ≠ none →
        (programs es).head? = some (0, 4) ∧ (programs es).tail.head? = some (4, 252) ∧
          contiguousFrom 4 (programs es).tail ∧
          ((programs es).tail.map Prod.snd).sum = w.image_data_size ∧
          (programs es).tail.tail = pagesFrom 256 (w.image_data_size - 252)) := by
  obtain ⟨w', es, a', h1, h2, _, pre, heq⟩ := save_image_monitored w
  have hc := imagePages_contiguous w.image_data_size hlo
  refine ⟨w', es, h1, h2, fun a len hm => ?_, contiguousFrom_prefix _ _ 0 pre hc.1, ?_⟩
  · exact imagePages_bounds _ hlo hhi a len (pre.subset hm)
  · intro hA hJ hQ hsJ hsQ hp
    rw [heq hA hJ hQ hsJ hsQ hp hlo hhi]
    exact ⟨rfl, rfl, hc.2.1, hc.2.2, rfl⟩

/-- C24 at a 300-byte image with every call succeeding: the header, the 252 bytes that
fill the first page and the remaining 48 bytes. -/
theorem save_image_programs_stay_in_page_witness :
    256 ≤ (demoWorld 300).image_data_size ∧ (demoWorld 300).image_data_size ≤ 65532 ∧
    ∃ w' es, save_image (demoWorld 300) = some w' ∧
      w'.trace = (demoWorld 300).trace ++ es ∧
      (∀ a len, (a, len) ∈ programs es →
        1 ≤ len ∧ len ≤ 256 ∧ a % 256 + len ≤ 256 ∧ a + len ≤ 65536) ∧
      contiguousFrom 0 (programs es) ∧
      (programs es).head? = some (0, 4) ∧ (programs es).tail.head? = some (4, 252) ∧
      contiguousFrom 4 (programs es).tail ∧
      ((programs es).tail.map Prod.snd).sum = 300 ∧
      (programs es).tail.tail = [(256, 48)] :=
  ⟨by decide, by decide,
    let ⟨w', es, h1, h2, h3, h4, h5⟩ :=
      save_image_programs_stay_in_page (demoWorld 300) (by decide) (by decide)
    ⟨w', es, h1, h2, h3, h4,
      h5 (fun _ => rfl) rfl rfl rfl rfl (fun h => Option.noConfusion h)⟩⟩

/-- C25: on every path of `save_image` and of `erase_image`, in the flash commands the
function issues (the status-register reads of the polls left out) every block erase
and every page program comes directly after a write-enable command: the first command
is neither an erase nor a program, and an erase or program is only ever the direct
successor of a write-enable, so that no erase or program is issued without a
write-enable since the previous erase or program. -/
theorem write_enable_before_each_erase_and_program (w : World) :
    (∃ w' es, save_image w = some w' ∧ w'.trace = w.trace ++ es ∧
        WriteEnabled (flashCommands es)) ∧
    (∃ es, (erase_image w).trace = w.trace ++ es ∧ WriteEnabled (flashCommands es)) := by
  constructor
  · obtain ⟨w', es, a', h1, h2, h3, _⟩ := save_image_monitored w
    exact ⟨w', es, h1, h2, WriteEnabled.of_weRun es a' h3⟩
  · obtain ⟨es, a', h1, h2, _⟩ := erase_image_monitored w
    exact ⟨es, h1, WriteEnabled.of_weRun es a' h2⟩

/-- The flash commands of a successful save of 300 bytes and of a successful erase,
each as the pair (is a write-enable, is an erase or program): a write-enable and the
erase, three times a write-enable and a program, then the commands that restore the
memory-mapped mode. -/
theorem flash_commands_of_demo_run :
    (save_image (demoWorld 300)).map (fun w => (flashCommands w.trace).map
      (fun e => (e.isWriteEnableCmd, e.needsWriteEnable))) =
      some [(true, false), (false, true), (true, false), (false, true), (true, false),
        (false, true), (true, false), (false, true), (false, false), (false, false),
        (true, false), (true, false), (false, false), (false, false), (false, false)] ∧
    (flashCommands (erase_image (demoWorld 300)).trace).map
      (fun e => (e.isWriteEnableCmd, e.needsWriteEnable)) =
      [(true, false), (false, true), (false, false), (false, false), (true, false),
        (true, false), (false, false), (false, false), (false, false)] := by
  constructor <;> decide

end EKH05

namespace MMConfig

/-! # `mmconfig.c` -/

open MMConfigStatus

theorem valueFrom_cons (b n : Nat) (c : Char) (cs : List Char) :
    valueFrom b n (c :: cs) = valueFrom b (n * b + digitValue c) cs :=
  rfl

theorem hexLoop_eq (cs : List Char) : ∀ num ii : Nat,
    hexLoop cs (num % 18446744073709551616) ii
      = if cs.all isHexDigit then
          some (valueFrom 16 num cs % 18446744073709551616, ii + cs.length)
        else none := by
  induction cs with
  | nil => intro num ii; simp [hexLoop, valueFrom]
  | cons c cs ih =>
    intro num ii
    unfold hexLoop
    rw [valueFrom_cons]
    split
    · next h =>
      have hd : isDecDigit c = true := by simp [isDecDigit]; exact ⟨h.1, h.2⟩
      have key : (num % 18446744073709551616 * 16 + (c.toNat - Char.toNat '0'))
          % 18446744073709551616
          = (num * 16 + digitValue c) % 18446744073709551616 := by
        simp only [digitValue, hd, if_true]
        omega
      rw [key, ih]
      simp [isHexDigit, hd, Nat.add_assoc, Nat.add_comm 1]
    · next h =>
      have hd : isDecDigit c = false := by
        simp only [isDecDigit, decide_eq_false_iff_not]
        exact fun hh => h ⟨hh.1, hh.2⟩
      split
      · next h2 =>
        have key : (num % 18446744073709551616 * 16 + (c.toNat - Char.toNat 'a' + 10))
            % 18446744073709551616
            = (num * 16 + digitValue c) % 18446744073709551616 := by
          have h2' : Char.toNat 'a' ≤ c.toNat ∧ c.toNat ≤ Char.toNat 'f' := ⟨h2.1, h2.2⟩
          simp only [digitValue, hd, Bool.false_eq_true, if_false, if_pos h2']
          omega
        have hx : isHexDigit c = true := by
          simp only [isHexDigit, hd, Bool.false_or, Bool.or_eq_true, decide_eq_true_eq]
          exact Or.inl ⟨h2.1, h2.2⟩
        rw [key, ih]
        simp [hx, Nat.add_assoc, Nat.add_comm 1]
      · next h2 =>
        have h2' : ¬ (Char.toNat 'a' ≤ c.toNat ∧ c.toNat ≤ Char.toNat 'f') :=
          fun hh => h2 ⟨hh.1, hh.2⟩
        split
        · next h3 =>
          have key : (num % 18446744073709551616 * 16 + (c.toNat - Char.toNat 'A' + 10))
              % 18446744073709551616
              = (num * 16 + digitValue c) % 18446744073709551616 := by
            simp only [digitValue, hd, Bool.false_eq_true, if_false, if_neg h2']
            omega
          have hx : isHexDigit c = true := by
            simp only [isHexDigit, hd, Bool.false_or, Bool.or_eq_true, decide_eq_true_eq]
            exact Or.inr ⟨h3.1, h3.2⟩
          rw [key, ih]
          simp [hx, Nat.add_assoc, Nat.add_comm 1]
        · next h3 =>
          have hx : isHexDigit c = false := by
            simp only [isHexDigit, hd, Bool.false_or, Bool.or_eq_false_iff,
              decide_eq_false_iff_not]
            exact ⟨h2', fun hh => h3 ⟨hh.1, hh.2⟩⟩
          simp [hx]

theorem decLoop_eq (cs : List Char) : ∀ num ii : Nat,
    decLoop cs (num % 18446744073709551616) ii
      = if cs.all isDecDigit then
          some (valueFrom 10 num cs % 18446744073709551616, ii + cs.length)
        else none := by
  induction cs with
  | nil => intro num ii; simp [decLoop, valueFrom]
  | cons c cs ih =>
    intro num ii
    unfold decLoop
    rw [valueFrom_cons]
    split
    · next h =>
      have hd : isDecDigit c = false := by
        simp only [isDecDigit, decide_eq_false_iff_not]
        intro hh
        rcases h with h | h <;> omega
      simp [hd]
    · next h =>
      have hd : isDecDigit c = true := by
        simp only [isDecDigit, decide_eq_true_eq]
        omega
      have key : (num % 18446744073709551616 * 10 + (c.toNat - Char.toNat '0'))
          % 18446744073709551616
          = (num * 10 + digitValue c) % 18446744073709551616 := by
        simp only [digitValue, hd, if_true]
        omega
      rw [key, ih]
      simp [hd, Nat.add_assoc, Nat.add_comm 1]

theorem digitValue_lt_of_dec (c : Char) (h : isDecDigit c = true) : digitValue c < 10 := by
  have h' := h
  simp only [isDecDigit, decide_eq_true_eq] at h'
  simp only [digitValue, h, if_true]
  have e0 : Char.toNat '0' = 48 := rfl
  have e9 : Char.toNat '9' = 57 := rfl
  omega

theorem digitValue_lt_of_hex (c : Char) (h : isHexDigit c = true) : digitValue c < 16 := by
  by_cases hd : isDecDigit c = true
  · have := digitValue_lt_of_dec c hd
    omega
  · have hd' : isDecDigit c = false := by simpa using hd
    simp only [isHexDigit, hd', Bool.false_or, Bool.or_eq_true, decide_eq_true_eq] at h
    have ea : Char.toNat 'a' = 97 := rfl
    have ef : Char.toNat 'f' = 102 := rfl
    have eA : Char.toNat 'A' = 65 := rfl
    have eF : Char.toNat 'F' = 70 := rfl
    simp only [digitValue, hd', Bool.false_eq_true, if_false]
    split
    · omega
    · rcases h with h | h
      · omega
      · omega

theorem valueFrom_lt (b : Nat) (cs : List Char) : ∀ n : Nat,
    (∀ c ∈ cs, digitValue c < b) → valueFrom b n cs < (n + 1) * b ^ cs.length := by
  induction cs with
  | nil => intro n _; simp [valueFrom]
  | cons c cs ih =>
    intro n h
    rw [valueFrom_cons]
    have h1 := ih (n * b + digitValue c) (fun x hx => h x (List.mem_cons_of_mem _ hx))
    have h2 : digitValue c < b := h c (List.mem_cons_self _ _)
    have h3 : (n * b + digitValue c + 1) * b ^ cs.length ≤ ((n + 1) * b) * b ^ cs.length :=
      Nat.mul_le_mul_right _ (by rw [Nat.add_mul, Nat.one_mul]; omega)
    have h4 : (n + 1) * b ^ (c :: cs).length = ((n + 1) * b) * b ^ cs.length := by
      rw [List.length_cons, Nat.pow_succ, Nat.mul_assoc, Nat.mul_comm b]
    omega

theorem hexDigits_eq (s : List Char) :
    hexDigits s
      = if s[0]? = some '0' ∧ (s[1]? = some 'x' ∨ s[1]? = some 'X') then some (s.drop 2)
        else none := by
  unfold hexDigits
  split
  · simp
  · simp
  · next h1 h2 =>
    rw [if_neg]
    rintro ⟨h0, hx | hx⟩
    · match s, h0, hx, h1 with
      | c0 :: c1 :: ds, h0, hx, h1 =>
        simp at h0 hx
        subst h0; subst hx
        exact h1 ds rfl
    · match s, h0, hx, h2 with
      | c0 :: c1 :: ds, h0, hx, h2 =>
        simp at h0 hx
        subst h0; subst hx
        exact h2 ds rfl

/-- Result of `mmconfig_str_to_uint` on a string with a `0x` or `0X` prefix. -/
theorem mmconfig_str_to_uint_hex (s : List Char) (v : Nat)
    (hp : s[0]? = some '0' ∧ (s[1]? = some 'x' ∨ s[1]? = some 'X')) :
    mmconfig_str_to_uint s v
      = if s.length ≤ 10 ∧ (s.drop 2).all isHexDigit = true then
          (MMCONFIG_OK, valueOf 16 (s.drop 2))
        else (MMCONFIG_ERR_INCORRECT_TYPE, v) := by
  have hl : s.length = (s.drop 2).length + 2 := by
    match s, hp with
    | c0 :: c1 :: ds, _ => simp
  have e := hexLoop_eq (s.drop 2) 0 2
  rw [Nat.zero_mod] at e
  unfold mmconfig_str_to_uint
  simp only [if_pos hp]
  rw [e]
  by_cases hall : (s.drop 2).all isHexDigit = true
  · rw [if_pos hall]
    simp only []
    by_cases h10 : s.length ≤ 10
    · have hb := valueFrom_lt 16 (s.drop 2) 0
        (fun c hc => digitValue_lt_of_hex c (List.all_eq_true.mp hall c hc))
      have hpow : 16 ^ (s.drop 2).length ≤ 16 ^ 8 :=
        Nat.pow_le_pow_right (by decide) (by omega)
      have h8 : (16 : Nat) ^ 8 = 4294967296 := by norm_num
      rw [h8] at hpow
      have hv : valueFrom 16 0 (s.drop 2) < 4294967296 := by omega
      rw [Nat.mod_eq_of_lt (by omega), if_neg (by omega), if_pos ⟨h10, hall⟩,
        Nat.mod_eq_of_lt hv]
      rfl
    · rw [if_pos (Or.inl (by omega)), if_neg (fun h => h10 h.1)]
  · rw [if_neg hall, if_neg (fun h => hall h.2)]

/-- Result of `mmconfig_str_to_uint` on a string without a `0x` or `0X` prefix. -/
theorem mmconfig_str_to_uint_dec (s : List Char) (v : Nat)
    (hp : ¬ (s[0]? = some '0' ∧ (s[1]? = some 'x' ∨ s[1]? = some 'X'))) :
    mmconfig_str_to_uint s v
      = if s.length ≤ 10 ∧ s.all isDecDigit = true ∧ valueOf 10 s ≤ 4294967295 then
          (MMCONFIG_OK, valueOf 10 s)
        else (MMCONFIG_ERR_INCORRECT_TYPE, v) := by
  have e := decLoop_eq s 0 0
  rw [Nat.zero_mod, Nat.zero_add] at e
  unfold mmconfig_str_to_uint
  simp only [if_neg hp]
  rw [e]
  by_cases hall : s.all isDecDigit = true
  · rw [if_pos hall]
    simp only []
    by_cases h10 : s.length ≤ 10
    · have hb := valueFrom_lt 10 s 0
        (fun c hc => digitValue_lt_of_dec c (List.all_eq_true.mp hall c hc))
      have hpow : 10 ^ s.length ≤ 10 ^ 10 := Nat.pow_le_pow_right (by decide) h10
      have h8 : (10 : Nat) ^ 10 = 10000000000 := by norm_num
      rw [h8] at hpow
      have hv : valueFrom 10 0 s < 10000000000 := by omega
      rw [Nat.mod_eq_of_lt (by omega)]
      by_cases hmax : valueOf 10 s ≤ 4294967295
      · have hmax' : valueFrom 10 0 s ≤ 4294967295 := hmax
        rw [if_neg (by omega), if_pos ⟨h10, hall, hmax⟩, Nat.mod_eq_of_lt (by omega)]
        rfl
      · have hmax' : ¬ valueFrom 10 0 s ≤ 4294967295 := hmax
        rw [if_pos (Or.inr (by omega)), if_neg (fun h => hmax h.2.2)]
    · rw [if_pos (Or.inl (by omega)), if_neg (fun h => h10 h.1)]
  · rw [if_neg hall, if_neg (fun h => hall h.2.1)]

/-- C20, counterexample: the string `00000000001`, eleven decimal digits that denote
the number 1, is rejected: `mmconfig_str_to_uint` returns
`MMCONFIG_ERR_INCORRECT_TYPE` and leaves `*val` (here 7) unchanged. -/
theorem str_to_uint_rejects_eleven_digits :
    mmconfig_str_to_uint ['0', '0', '0', '0', '0', '0', '0', '0', '0', '0', '1'] 7
        = (MMCONFIG_ERR_INCORRECT_TYPE, 7) ∧
      valueOf 10 ['0', '0', '0', '0', '0', '0', '0', '0', '0', '0', '1'] = 1 := by
  decide

/-- C20, amended: for a string that has at least one character after the optional
`0x` or `0X` prefix, `mmconfig_str_to_uint(str, val)` returns `MMCONFIG_OK` and
stores `n` in `*val` exactly when the string has at most 10 characters and
represents the number `n ≤ 4294967295` (decimal digits, or `0x` or `0X` followed by
hexadecimal digits); for every other such string it returns
`MMCONFIG_ERR_INCORRECT_TYPE` and leaves `*val` unchanged. -/
theorem mmconfig_str_to_uint_refines (s : List Char) (v : Nat) (h1 : s ≠ [])
    (h2 : s ≠ ['0', 'x']) (h3 : s ≠ ['0', 'X']) :
    mmconfig_str_to_uint s v
      = match str_to_uint_spec s with
        | some n => (MMCONFIG_OK, n)
        | none => (MMCONFIG_ERR_INCORRECT_TYPE, v) := by
  unfold str_to_uint_spec
  rw [hexDigits_eq]
  by_cases hp : s[0]? = some '0' ∧ (s[1]? = some 'x' ∨ s[1]? = some 'X')
  · have hne : s.drop 2 ≠ [] := by
      match s, hp, h2, h3 with
      | c0 :: c1 :: ds, hp, h2, h3 =>
        simp at hp
        obtain ⟨h0, hx⟩ := hp
        subst h0
        intro hd
        simp at hd
        subst hd
        rcases hx with hx | hx
        · subst hx; exact h2 rfl
        · subst hx; exact h3 rfl
    rw [mmconfig_str_to_uint_hex s v hp, if_pos hp]
    simp only []
    by_cases h10 : s.length ≤ 10
    · rw [if_pos h10]
      by_cases hall : (s.drop 2).all isHexDigit = true
      · have hl : (s.drop 2).length ≤ 8 := by
          rw [List.length_drop]; omega
        have hb := valueFrom_lt 16 (s.drop 2) 0
          (fun c hc => digitValue_lt_of_hex c (List.all_eq_true.mp hall c hc))
        have hpow : 16 ^ (s.drop 2).length ≤ 16 ^ 8 :=
          Nat.pow_le_pow_right (by decide) hl
        have h8 : (16 : Nat) ^ 8 = 4294967296 := by norm_num
        rw [h8] at hpow
        have hv : valueOf 16 (s.drop 2) ≤ 4294967295 := by
          show valueFrom 16 0 (s.drop 2) ≤ 4294967295
          omega
        rw [if_pos ⟨h10, hall⟩, if_pos ⟨hne, hall, hv⟩]
      · rw [if_neg (fun h => hall h.2), if_neg (fun h => hall h.2.1)]
    · rw [if_neg (fun h => h10 h.1), if_neg h10]
  · rw [mmconfig_str_to_uint_dec s v hp, if_neg hp]
    simp only []
    by_cases h10 : s.length ≤ 10
    · rw [if_pos h10]
      by_cases hc : s.all isDecDigit = true ∧ valueOf 10 s ≤ 4294967295
      · rw [if_pos ⟨h10, hc⟩, if_pos ⟨h1, hc⟩]
      · rw [if_neg (fun h => hc h.2), if_neg (fun h => hc h.2)]
    · rw [if_neg (fun h => h10 h.1), if_neg h10]

theorem mmconfig_str_to_uint_refines_witness :
    mmconfig_str_to_uint ['0', 'x', '1', 'F'] 7 = (MMCONFIG_OK, 31) ∧
      mmconfig_str_to_uint ['1', '2', 'a'] 7 = (MMCONFIG_ERR_INCORRECT_TYPE, 7) :=
  ⟨mmconfig_str_to_uint_refines ['0', 'x', '1', 'F'] 7 (by decide) (by decide) (by decide),
    mmconfig_str_to_uint_refines ['1', '2', 'a'] 7 (by decide) (by decide) (by decide)⟩

/-! ## `mmconfig_str_to_int` -/

theorem digitChar_spec : ∀ d, d < 10 →
    isDecDigit (digitChar d) = true ∧ digitValue (digitChar d) = d := by
  decide

theorem valueFrom_digits (L : List Nat) (h : ∀ d ∈ L, d < 10) :
    valueFrom 10 0 ((L.map digitChar).reverse) = Nat.ofDigits 10 L := by
  unfold valueFrom
  rw [List.foldl_reverse]
  induction L with
  | nil => simp
  | cons d L ih =>
    rw [List.map_cons, List.foldr_cons, ih (fun x hx => h x (List.mem_cons_of_mem _ hx)),
      (digitChar_spec d (h d (List.mem_cons_self _ _))).2, Nat.ofDigits_cons]
    omega

theorem decimalText_spec (k : Nat) :
    decimalText k ≠ [] ∧ (decimalText k).all isDecDigit = true ∧
      valueOf 10 (decimalText k) = k ∧ (k < 10000000000 → (decimalText k).length ≤ 10) := by
  unfold decimalText
  by_cases hk : k = 0
  · subst hk
    simp only [if_true]
    decide
  · rw [if_neg hk]
    have hd : ∀ d ∈ Nat.digits 10 k, d < 10 := fun d hd => Nat.digits_lt_base (by decide) hd
    refine ⟨?_, ?_, ?_, ?_⟩
    · simp [Nat.digits_ne_nil_iff_ne_zero, hk]
    · rw [List.all_eq_true]
      intro c hc
      simp only [List.mem_reverse, List.mem_map] at hc
      obtain ⟨d, hdm, rfl⟩ := hc
      exact (digitChar_spec d (hd d hdm)).1
    · show valueFrom 10 0 _ = k
      rw [valueFrom_digits _ hd, Nat.ofDigits_digits]
    · intro hlt
      rw [List.length_reverse, List.length_map]
      have h1 := Nat.base_pow_length_digits_le 10 k (by decide) hk
      by_contra hlen
      have h2 : 10 ^ 11 ≤ 10 ^ (Nat.digits 10 k).length :=
        Nat.pow_le_pow_right (by decide) (by omega)
      have h3 : (10 : Nat) ^ 11 = 100000000000 := by norm_num
      omega

theorem no_hex_prefix_of_digits (ds : List Char) (h : ds.all isDecDigit = true) :
    ¬ (ds[0]? = some '0' ∧ (ds[1]? = some 'x' ∨ ds[1]? = some 'X')) := by
  rintro ⟨-, hx⟩
  match ds, h, hx with
  | c0 :: c1 :: rest, h, hx =>
    simp only [List.all_cons, Bool.and_eq_true] at h
    have h1 := h.2.1
    simp at hx
    rcases hx with hx | hx
    · subst hx; revert h1; decide
    · subst hx; revert h1; decide

theorem mmconfig_str_to_uint_digits (ds : List Char) (v : Nat)
    (h : ds.all isDecDigit = true) :
    mmconfig_str_to_uint ds v
      = if ds.length ≤ 10 ∧ valueOf 10 ds ≤ 4294967295 then (MMCONFIG_OK, valueOf 10 ds)
        else (MMCONFIG_ERR_INCORRECT_TYPE, v) := by
  rw [mmconfig_str_to_uint_dec ds v (no_hex_prefix_of_digits ds h)]
  by_cases hc : ds.length ≤ 10 ∧ valueOf 10 ds ≤ 4294967295
  · rw [if_pos ⟨hc.1, h, hc.2⟩, if_pos hc]
  · rw [if_neg (fun hh => hc ⟨hh.1, hh.2.2⟩), if_neg hc]

/-- Result of `mmconfig_str_to_int` on a non-empty string of decimal digits. -/
theorem mmconfig_str_to_int_pos (ds : List Char) (v : Int) (hne : ds ≠ [])
    (h : ds.all isDecDigit = true) :
    mmconfig_str_to_int ds v
      = if ds.length ≤ 10 ∧ valueOf 10 ds ≤ 2147483647 then
          (MMCONFIG_OK, ((valueOf 10 ds : Nat) : Int))
        else (MMCONFIG_ERR_INCORRECT_TYPE, v) := by
  unfold mmconfig_str_to_int
  split
  next sign str1 hm =>
  have hs : sign = 1 ∧ str1 = ds := by
    revert hm
    split
    · next rest =>
      intro _
      simp only [List.all_cons, Bool.and_eq_true] at h
      exact absurd h.1 (by decide)
    · intro hm
      cases hm
      exact ⟨rfl, rfl⟩
  obtain ⟨rfl, rfl⟩ := hs
  simp only []
  rw [mmconfig_str_to_uint_digits str1 0 h]
  by_cases hu : str1.length ≤ 10 ∧ valueOf 10 str1 ≤ 4294967295
  · rw [if_pos hu]
    simp only []
    rw [if_pos trivial, if_neg (fun hh => absurd hh.1 (by decide))]
    by_cases hi : valueOf 10 str1 ≤ 2147483647
    · rw [if_neg (fun hh => absurd hh.2 (by omega)), if_pos ⟨hu.1, hi⟩]
      have : toInt32 (((1 : Int) % 4294967296).toNat * valueOf 10 str1)
          = ((valueOf 10 str1 : Nat) : Int) := by
        have e1 : ((1 : Int) % 4294967296).toNat = 1 := by decide
        rw [e1, Nat.one_mul]
        unfold toInt32
        rw [Nat.mod_eq_of_lt (by omega), if_pos (by omega)]
      rw [this]
    · rw [if_pos ⟨trivial, by omega⟩, if_neg (fun hh => hi hh.2)]
  · rw [if_neg hu]
    simp only []
    rw [if_neg (by decide), if_neg (fun hh => hu ⟨hh.1, by omega⟩)]

/-- Result of `mmconfig_str_to_int` on `-` followed by a non-empty string of decimal
digits. -/
theorem mmconfig_str_to_int_neg (ds : List Char) (v : Int)
    (h : ds.all isDecDigit = true) :
    mmconfig_str_to_int ('-' :: ds) v
      = if ds.length ≤ 10 ∧ valueOf 10 ds ≤ 2147483648 then
          (MMCONFIG_OK, -((valueOf 10 ds : Nat) : Int))
        else (MMCONFIG_ERR_INCORRECT_TYPE, v) := by
  unfold mmconfig_str_to_int
  simp only []
  rw [mmconfig_str_to_uint_digits ds 0 h]
  by_cases hu : ds.length ≤ 10 ∧ valueOf 10 ds ≤ 4294967295
  · rw [if_pos hu]
    simp only []
    rw [if_pos trivial]
    by_cases hi : valueOf 10 ds ≤ 2147483648
    · rw [if_neg (fun hh => absurd hh.2 (by omega)),
        if_neg (fun hh => absurd hh.1 (by decide)), if_pos ⟨hu.1, hi⟩]
      have : toInt32 (((-1 : Int) % 4294967296).toNat * valueOf 10 ds)
          = -((valueOf 10 ds : Nat) : Int) := by
        have e1 : ((-1 : Int) % 4294967296).toNat = 4294967295 := by decide
        rw [e1]
        unfold toInt32
        split <;> omega
      rw [this]
    · rw [if_pos ⟨trivial, by omega⟩, if_neg (fun hh => hi hh.2)]
  · rw [if_neg hu]
    simp only []
    rw [if_neg (by decide), if_neg (fun hh => hu ⟨hh.1, by omega⟩)]

/-- C21 (decimal round trip of `mmconfig_str_to_int`): for every `n` with
`-2^31 ≤ n ≤ 2^31 - 1` the call on the canonical decimal text of `n` returns
`MMCONFIG_OK` and stores `n`; for every non-empty string of decimal digits whose
value is above `2^31 - 1`, and for `-` followed by digits whose value is above `2^31`,
the call returns `MMCONFIG_ERR_INCORRECT_TYPE` and leaves `*val` unchanged. -/
theorem mmconfig_str_to_int_round_trip (v : Int) :
    (∀ n : Int, -2147483648 ≤ n → n ≤ 2147483647 →
      mmconfig_str_to_int (intText n) v = (MMCONFIG_OK, n)) ∧
    (∀ ds : List Char, ds ≠ [] → ds.all isDecDigit = true →
      (2147483647 < valueOf 10 ds →
        mmconfig_str_to_int ds v = (MMCONFIG_ERR_INCORRECT_TYPE, v)) ∧
      (2147483648 < valueOf 10 ds →
        mmconfig_str_to_int ('-' :: ds) v = (MMCONFIG_ERR_INCORRECT_TYPE, v))) := by
  refine ⟨fun n hlo hhi => ?_, fun ds hne hd => ⟨fun hv => ?_, fun hv => ?_⟩⟩
  · obtain ⟨h1, h2, h3, h4⟩ := decimalText_spec n.natAbs
    unfold intText
    by_cases hn : n < 0
    · rw [if_pos hn, mmconfig_str_to_int_neg _ v h2, h3,
        if_pos ⟨h4 (by omega), by omega⟩]
      congr 1
      omega
    · rw [if_neg hn, mmconfig_str_to_int_pos _ v h1 h2, h3,
        if_pos ⟨h4 (by omega), by omega⟩]
      congr 1
      omega
  · rw [mmconfig_str_to_int_pos ds v hne hd, if_neg (fun h => by omega)]
  · rw [mmconfig_str_to_int_neg ds v hd, if_neg (fun h => by omega)]

theorem mmconfig_str_to_int_round_trip_witness :
    mmconfig_str_to_int (intText (-2147483648)) 7 = (MMCONFIG_OK, -2147483648) ∧
    mmconfig_str_to_int ['2', '1', '4', '7', '4', '8', '3', '6', '4', '8'] 7
      = (MMCONFIG_ERR_INCORRECT_TYPE, 7) :=
  ⟨(mmconfig_str_to_int_round_trip 7).1 (-2147483648) (by decide) (by decide),
    ((mmconfig_str_to_int_round_trip 7).2 ['2', '1', '4', '7', '4', '8', '3', '6', '4', '8']
      (by decide) (by decide)).1 (by decide)⟩

/-! ## Keys -/

/-- C22, failing input: the key `iperf.mode` is found in the table of `configs.c`,
with the 11 bytes of `udp_server` and its NUL, but the valid key `IPERF.MODE`, which
differs from it only in the case of its letters, is not:
`mmconfig_read_data` returns `MMCONFIG_ERR_NOT_FOUND`.  This holds for every
`MMCONFIG_MAX_KEYLEN` of at least 10. -/
theorem mmconfig_read_data_is_case_sensitive (k : Nat) :
    mmconfig_read_data (k + 10) mm_configs "iperf.mode".toList
        = ReadResult.found 11 "udp_server".toList ∧
      mmconfig_validate_key (k + 10) "IPERF.MODE".toList = MMCONFIG_OK ∧
      mmconfig_read_data (k + 10) mm_configs "IPERF.MODE".toList
        = ReadResult.error MMCONFIG_ERR_NOT_FOUND := by
  have hv : ∀ key : List Char, key.length = 10 →
      mmconfig_validate_key (k + 10) key
        = if !(match key[0]? with | some c => isalpha c | none => false) then
            MMCONFIG_ERR_INVALID_KEY
          else validateRest 10 (key.drop 1) 1 := by
    intro key hl
    unfold mmconfig_validate_key
    rw [hl, show min 10 (k + 10 + 1) = 10 by omega]
    simp only []
    rw [if_neg (by omega)]
  have h1 : mmconfig_validate_key (k + 10) "iperf.mode".toList = MMCONFIG_OK := by
    rw [hv _ (by decide)]; decide
  have h2 : mmconfig_validate_key (k + 10) "IPERF.MODE".toList = MMCONFIG_OK := by
    rw [hv _ (by decide)]; decide
  refine ⟨?_, h2, ?_⟩
  · unfold mmconfig_read_data
    rw [h1, if_neg (by decide)]
    decide
  · unfold mmconfig_read_data
    rw [h2, if_neg (by decide)]
    decide

end MMConfig

namespace Shim

/-! # `shim_freertos` -/

/-! ## `gettimeofday.c` -/

/-- While the millisecond counter is below `2^31` the split is exact. -/
theorem gettimeofday_exact_below_2_31 (t : Nat) (ht : t < 2147483648) (tv : timeval) :
    ∃ r : timeval, _gettimeofday t (some tv) = (0, some r) ∧
      r.tv_sec * 1000000 + r.tv_usec = 1000 * (t : Int) ∧
      0 ≤ r.tv_usec ∧ r.tv_usec < 1000000 ∧ 0 ≤ r.tv_sec := by
  have hd : Int.tdiv (t : Int) 1000 = (t : Int) / 1000 :=
    Int.tdiv_eq_ediv (by omega) (by decide)
  have hm : Int.tmod (t : Int) 1000 = (t : Int) % 1000 :=
    Int.tmod_eq_emod (by omega) (by decide)
  refine ⟨_, rfl, ?_, ?_, ?_, ?_⟩ <;>
    simp only [int_of_uint32, Nat.mod_eq_of_lt (show t < 4294967296 by omega), if_pos ht,
      hd, hm] <;>
    omega

/-- C29, failing input: when `mmosal_get_time_ms` returns `2^31` (an uptime of about
24.9 days) the call with a non-`NULL` `tv` returns 0 and sets `tv_sec` to `-2147483`
and `tv_usec` to `-648000`: both are negative, and `tv_sec * 1000000 + tv_usec` is
`-2147483648000`, not `1000 * 2^31`.  A call with `tv = NULL` returns -1. -/
theorem gettimeofday_negative_after_2_31 :
    _gettimeofday 2147483648 (some { tv_sec := 0, tv_usec := 0 })
        = (0, some { tv_sec := -2147483, tv_usec := -648000 }) ∧
      (-2147483 : Int) * 1000000 + -648000 ≠ 1000 * 2147483648 ∧
      (_gettimeofday 2147483648 none).1 = -1 := by
  decide

/-! ## `mmhal_wlan_binaries.c` -/

/-- The board configuration read stays inside the file, and a read that starts past
its last byte gives an empty descriptor. -/
theorem mmhal_wlan_read_bcf_file_window (offset requested_len : Nat) (robuf : mmhal_robuf)
    (b : Binaries) (p : Nat) (hsel : b.bcf_data = some p) :
    (offset ≤ b.bcf_length →
      (mmhal_wlan_read_bcf_file offset requested_len robuf b).1
        = { buf := some (p + offset), len := min (b.bcf_length - offset) requested_len,
            free_arg := none, free_cb := none } ∧
      offset + min (b.bcf_length - offset) requested_len ≤ b.bcf_length) ∧
    (b.bcf_length < offset →
      (mmhal_wlan_read_bcf_file offset requested_len robuf b).1
        = { buf := none, len := 0, free_arg := none, free_cb := none }) := by
  constructor
  · intro h
    unfold mmhal_wlan_read_bcf_file
    simp only [hsel, if_false, reduceCtorEq]
    rw [if_neg (by omega)]
    refine ⟨?_, by omega⟩
    simp only [Option.map_some', mmhal_robuf.mk.injEq, true_and, and_true]
    split <;> omega
  · intro h
    unfold mmhal_wlan_read_bcf_file
    simp only [hsel, if_false, reduceCtorEq]
    rw [if_pos h]

/-- C30, failing input: with a firmware file of 100 bytes, a read at offset 101
into a descriptor that still holds `len = 5` from an earlier read returns
`buf = NULL` but leaves `len` at 5: `mmhal_wlan_read_fw_file` does not clear the
descriptor, unlike `mmhal_wlan_read_bcf_file`, which returns `buf = NULL` and
`len = 0` for the same offset past the end of its 50-byte file. -/
theorem mmhal_wlan_read_fw_file_keeps_len :
    (mmhal_wlan_read_fw_file 101 10 usedRobuf demoBinaries).1
        = { buf := none, len := 5, free_arg := none, free_cb := none } ∧
      (mmhal_wlan_read_bcf_file 101 10 usedRobuf demoBinaries).1
        = { buf := none, len := 0, free_arg := none, free_cb := none } := by
  decide

end Shim
